import Mathlib

/-!
# aria2: tracker announce watcher and DHT entry-point resolver

A shallow embedding of `TrackerWatcherCommand.cc` and
`DHTEntryPointNameResolveCommand.cc`.  Member functions become functions on
an explicit command state; collaborators whose classes are declared
elsewhere (the announce policy, the peer pool, the resolver engine, the task
queue) are either parameters or small models, each marked as such.
-/

namespace aria2

/-! ## Shared data -/

/-- Bytes of an announce response (`std::string` used as a byte buffer). -/
abbrev ByteString := List Nat

/-- Peer handle of the peer pool; `cuid = 0` marks a peer nobody uses. -/
structure Peer where
  ipaddr : String
  port : Nat
  cuid : Nat
deriving DecidableEq, Repr

/-- Entries of `DownloadEngine::commands` that these two commands create. -/
inductive Command where
  | trackerWatcher (cuid : Nat)
  | dhtEntryPointNameResolve (cuid : Nat)
  | initial (uri : String)
  | peerInitiateConnection (cuid : Nat) (peer : Peer)
deriving DecidableEq, Repr

/-- A command is a peer-connection command. -/
def Command.isPeerConnection : Command → Bool
  | Command.peerInitiateConnection _ _ => true
  | _ => false

/-! ## Tracker watcher: data model -/

/-- The part of `RequestGroup` the watcher reads or sets.  `content` is what
the in-memory disk writer of the session has accumulated. -/
structure RequestGroup where
  uris : List String
  numCommand : Nat
  downloadFinished : Bool
  forceHaltRequested : Bool
  content : ByteString
  inMemory : Bool
  fileAllocationEnabled : Bool
  preLocalFileCheckEnabled : Bool
deriving DecidableEq, Repr

/-- Modelled from the spec: `BtRuntime` is declared outside the sources.  The
spec drains peers "up to the number still needed"; the runtime counts open
connections and `lessThanMinPeer` compares that count with the fixed
minimum. -/
structure BtRuntime where
  halt : Bool
  connections : Nat
  minPeers : Nat
deriving DecidableEq, Repr

def BtRuntime.isHalt (rt : BtRuntime) : Bool := rt.halt

def BtRuntime.lessThanMinPeer (rt : BtRuntime) : Bool :=
  decide (rt.connections < rt.minPeers)

/-- Number of peers the runtime still needs. -/
def BtRuntime.needed (rt : BtRuntime) : Nat := rt.minPeers - rt.connections

/-- Modelled from the spec: constructing a `PeerInitiateConnectionCommand`
(declared outside the sources) registers one more connection with the
runtime, which is how the drain loop stops at "the number still needed". -/
def BtRuntime.increaseConnections (rt : BtRuntime) : BtRuntime :=
  { rt with connections := rt.connections + 1 }

/-- Modelled from the spec: the peer pool (`PeerStorage`, declared outside the
sources) hands out a peer that nobody uses, or null. -/
def getUnusedPeer (peers : List Peer) : Option Peer :=
  peers.find? (fun p => p.cuid == 0)

/-- Effect of `peer->usedBy(id)` on the peer `getUnusedPeer` returned: the
first unused peer of the pool now carries `id`. -/
def usedBy : List Peer → Nat → List Peer
  | [], _ => []
  | p :: ps, id => if p.cuid == 0 then { p with cuid := id } :: ps else p :: usedBy ps id

/-- Number of unused peers in the pool. -/
def unusedCount (peers : List Peer) : Nat := peers.countP (fun p => p.cuid == 0)

/-- Calls the watcher makes on its collaborators, in order of occurrence. -/
inductive Call where
  | createRequestGroup (uri : String)
  | announceStart
  | processAnnounceResponse
  | announceSuccess
  | announceFailure
  | resetAnnounce
  | sessionReset
  | sessionHaltRequested
  | newPeerCommand (cuid : Nat)
deriving DecidableEq, Repr

/-- The announce policy `BtAnnounce` is an abstract interface; its operations
are parameters.  `processAnnounceResponse` may raise a recoverable exception
(`none`) and on success may hand new peers to the pool. -/
structure BtAnnounce (π : Type) where
  noMoreAnnounce : π → Bool
  isAnnounceReady : π → Bool
  getAnnounceUrl : π → String
  announceStart : π → π
  announceSuccess : π → π
  announceFailure : π → π
  isAllAnnounceFailed : π → Bool
  resetAnnounce : π → π
  processAnnounceResponse : π → List Peer → ByteString → Option (π × List Peer)

/-- State of a `TrackerWatcherCommand` together with the engine and
collaborator state it touches.  `calls` is a ghost log. -/
structure TrackerWatcherCommand (π : Type) where
  cuid : Nat
  requestGroup : RequestGroup
  trackerRequestGroup : Option RequestGroup
  btAnnounce : π
  btRuntime : BtRuntime
  peerStorage : List Peer
  cuidCounter : Nat
  commands : List Command
  calls : List Call

namespace TrackerWatcherCommand

variable {π : Type}

/-- Modelled from the spec: `DiskAdaptor::readData(buf, len, offset)` over the
in-memory writer yields the at most `len` stored bytes found at `offset`. -/
def readData (content : ByteString) (len offset : Nat) : ByteString :=
  (content.drop offset).take len

/-- The `while(1)` loop of `getTrackerResponse`; `strm` is the stream written
so far and `strm.length` its `tellp()`.  The fuel bounds the bytes left. -/
def readLoop (content : ByteString) :
    (fuel : Nat) → (strm : ByteString) → content.length - strm.length < fuel → ByteString
  | 0, _, h => absurd h (Nat.not_lt_zero _)
  | fuel + 1, strm, h =>
    if hd : (readData content 2048 strm.length).length = 0 then strm
    else
      readLoop content fuel (strm ++ readData content 2048 strm.length) (by
        simp only [readData, List.length_take, List.length_drop] at hd
        simp only [readData, List.length_append, List.length_take, List.length_drop]
        omega)

/-- Embedding of `TrackerWatcherCommand::getTrackerResponse`. -/
def getTrackerResponse (rg : RequestGroup) : ByteString :=
  readLoop rg.content (rg.content.length + 1) [] (by simp)

/-- Embedding of `TrackerWatcherCommand::createRequestGroup`. -/
def createRequestGroup (uri : String) : RequestGroup :=
  { uris := [uri], numCommand := 0, downloadFinished := false,
    forceHaltRequested := false, content := [], inMemory := true,
    fileAllocationEnabled := false, preLocalFileCheckEnabled := false }

/-- Result of `RequestGroup::createInitialCommand` as the watcher sees it: the
commands handed to `DownloadEngine::addCommand`. -/
def createInitialCommand (rg : RequestGroup) : List Command :=
  rg.uris.map Command.initial

/-- Embedding of `TrackerWatcherCommand::createAnnounce`: the new handle (null
unless the policy is ready) and the state after the calls made. -/
def createAnnounce (ops : BtAnnounce π) (w : TrackerWatcherCommand π) :
    Option RequestGroup × TrackerWatcherCommand π :=
  if ops.isAnnounceReady w.btAnnounce then
    let uri := ops.getAnnounceUrl w.btAnnounce
    (some (createRequestGroup uri),
      { w with btAnnounce := ops.announceStart w.btAnnounce,
               calls := w.calls ++ [Call.createRequestGroup uri, Call.announceStart] })
  else (none, w)

/-- The peer loop of `processTrackerResponse`.  Every round builds one
`PeerInitiateConnectionCommand`, so the fuel bounds the peers still needed. -/
def connectPeers :
    (fuel : Nat) → (w : TrackerWatcherCommand π) → w.btRuntime.needed ≤ fuel →
      TrackerWatcherCommand π
  | 0, w, _ => w
  | fuel + 1, w, h =>
    if !w.btRuntime.isHalt && w.btRuntime.lessThanMinPeer then
      match getUnusedPeer w.peerStorage with
      | none => w
      | some peer =>
        let id := w.cuidCounter + 1
        connectPeers fuel
          { w with cuidCounter := id,
                   peerStorage := usedBy w.peerStorage id,
                   btRuntime := w.btRuntime.increaseConnections,
                   commands := w.commands ++
                     [Command.peerInitiateConnection id { peer with cuid := id }],
                   calls := w.calls ++ [Call.newPeerCommand id] }
          (by
            simp only [BtRuntime.needed, BtRuntime.increaseConnections] at h ⊢
            omega)
    else w

/-- Embedding of `TrackerWatcherCommand::processTrackerResponse`; `none` when
the policy raises while parsing, in which case the peer loop is not reached. -/
def processTrackerResponse (ops : BtAnnounce π) (w : TrackerWatcherCommand π)
    (trackerResponse : ByteString) : Option (TrackerWatcherCommand π) :=
  match ops.processAnnounceResponse w.btAnnounce w.peerStorage trackerResponse with
  | none => none
  | some (a, peers) =>
    let w1 := { w with btAnnounce := a, peerStorage := peers }
    some (connectPeers w1.btRuntime.needed w1 (Nat.le_refl _))

/-- Embedding of `TrackerWatcherCommand::execute`: the returned flag and the
state after the step. -/
def execute (ops : BtAnnounce π) (w : TrackerWatcherCommand π) :
    Bool × TrackerWatcherCommand π :=
  if w.requestGroup.forceHaltRequested then
    match w.trackerRequestGroup with
    | none => (true, w)
    | some rg =>
      if rg.numCommand == 0 || rg.downloadFinished then (true, w)
      else
        (false, { w with trackerRequestGroup := some { rg with forceHaltRequested := true },
                         calls := w.calls ++ [Call.sessionHaltRequested] })
  else if ops.noMoreAnnounce w.btAnnounce then (true, w)
  else
    let w1 : TrackerWatcherCommand π :=
      match w.trackerRequestGroup with
      | none =>
        match createAnnounce ops w with
        | (none, w') => { w' with trackerRequestGroup := none }
        | (some rg, w') =>
          { w' with trackerRequestGroup := some rg,
                    commands := w'.commands ++ createInitialCommand rg }
      | some rg =>
        if rg.downloadFinished then
          let wlog := { w with calls := w.calls ++ [Call.processAnnounceResponse] }
          let w2 : TrackerWatcherCommand π :=
            match processTrackerResponse ops wlog (getTrackerResponse rg) with
            | some w' =>
              { w' with btAnnounce := ops.resetAnnounce (ops.announceSuccess w'.btAnnounce),
                        calls := w'.calls ++ [Call.announceSuccess, Call.resetAnnounce] }
            | none =>
              let a := ops.announceFailure wlog.btAnnounce
              if ops.isAllAnnounceFailed a then
                { wlog with btAnnounce := ops.resetAnnounce a,
                            calls := wlog.calls ++ [Call.announceFailure, Call.resetAnnounce] }
              else
                { wlog with btAnnounce := a,
                            calls := wlog.calls ++ [Call.announceFailure] }
          { w2 with trackerRequestGroup := none, calls := w2.calls ++ [Call.sessionReset] }
        else if rg.numCommand == 0 then
          let a := ops.announceFailure w.btAnnounce
          if ops.isAllAnnounceFailed a then
            { w with btAnnounce := ops.resetAnnounce a, trackerRequestGroup := none,
                     calls := w.calls ++
                       [Call.announceFailure, Call.sessionReset, Call.resetAnnounce] }
          else
            { w with btAnnounce := a, trackerRequestGroup := none,
                     calls := w.calls ++ [Call.announceFailure, Call.sessionReset] }
        else w
    (false, { w1 with commands := w1.commands ++ [Command.trackerWatcher w.cuid] })

/-! ### A concrete policy for running the watcher -/

/-- Announce counters of a one-tracker policy, after the spec's
`AnnounceCounters`: in-flight, success and failure counts. -/
structure Counters where
  url : String
  ready : Bool
  stopped : Bool
  inFlight : Nat
  successes : Nat
  failures : Nat
  resets : Nat
deriving DecidableEq, Repr

/-- A policy over `Counters`: a response parses iff it is non-empty, and
parsing hands no new peer to the pool. -/
def counterPolicy : BtAnnounce Counters where
  noMoreAnnounce c := c.stopped
  isAnnounceReady c := c.ready
  getAnnounceUrl c := c.url
  announceStart c := { c with inFlight := c.inFlight + 1 }
  announceSuccess c := { c with inFlight := 0, successes := c.successes + 1 }
  announceFailure c := { c with inFlight := 0, failures := c.failures + 1 }
  isAllAnnounceFailed c := decide (0 < c.failures)
  resetAnnounce c := { c with resets := c.resets + 1 }
  processAnnounceResponse c peers bytes := if bytes = [] then none else some (c, peers)

/-- Counters of a policy that is ready and allows announces. -/
def freshCounters : Counters :=
  { url := "http://tracker/announce", ready := true, stopped := false,
    inFlight := 0, successes := 0, failures := 0, resets := 0 }

/-- An owning download with the given halt flag. -/
def owner (halt : Bool) : RequestGroup :=
  { uris := ["http://host/file.torrent"], numCommand := 1, downloadFinished := false,
    forceHaltRequested := halt, content := [], inMemory := false,
    fileAllocationEnabled := true, preLocalFileCheckEnabled := true }

/-- A session created by the watcher that is still running one command. -/
def runningSession : RequestGroup :=
  { createRequestGroup "http://tracker/announce" with numCommand := 1 }

/-- A session that finished with the given bytes in memory. -/
def finishedSession (bytes : ByteString) : RequestGroup :=
  { createRequestGroup "http://tracker/announce" with
    downloadFinished := true, content := bytes }

/-- A session that lost all its commands without finishing. -/
def failedSession : RequestGroup :=
  createRequestGroup "http://tracker/announce"

/-- A watcher with the given halt flag of its download and the given session;
the runtime needs one more peer and the pool holds two unused ones. -/
def watching (halt : Bool) (session : Option RequestGroup) : TrackerWatcherCommand Counters :=
  { cuid := 7, requestGroup := owner halt, trackerRequestGroup := session,
    btAnnounce := freshCounters,
    btRuntime := { halt := false, connections := 39, minPeers := 40 },
    peerStorage := [{ ipaddr := "198.51.100.1", port := 6881, cuid := 0 },
                    { ipaddr := "198.51.100.2", port := 6881, cuid := 0 }],
    cuidCounter := 7,
    commands := [Command.initial "http://tracker/announce"], calls := [] }

/-- A watcher whose download was halted while its announce session runs. -/
def haltedWhileRunning : TrackerWatcherCommand Counters :=
  watching true (some runningSession)

/-- The watcher after its first step, once the session it created has
started running its command. -/
def sessionRunning : TrackerWatcherCommand Counters :=
  { (execute counterPolicy (watching false none)).2 with
    trackerRequestGroup := some runningSession }

/-- The call is a `createRequestGroup`. -/
def isCreateRequestGroup : Call → Bool
  | Call.createRequestGroup _ => true
  | _ => false

/-- The calls `execute` makes when stepped in state `w`. -/
def callsOfStep (ops : BtAnnounce π) (w : TrackerWatcherCommand π) : List Call :=
  (execute ops w).2.calls.drop w.calls.length

/-- The commands `execute` appends to the engine queue when stepped in `w`. -/
def commandsOfStep (ops : BtAnnounce π) (w : TrackerWatcherCommand π) : List Command :=
  (execute ops w).2.commands.drop w.commands.length

/-- States a watcher gets into: it is constructed without a session, it is
stepped by `execute`, and between steps its collaborators move on (the
session runs, the policy, the runtime, the pool, the queue and the owning
download change) without making calls of the watcher or swapping its handle
for null or back. -/
inductive Reachable (ops : BtAnnounce π) : TrackerWatcherCommand π → Prop where
  | init (w : TrackerWatcherCommand π) :
      w.trackerRequestGroup = none → w.calls = [] → Reachable ops w
  | step (w : TrackerWatcherCommand π) :
      Reachable ops w → Reachable ops (execute ops w).2
  | others (w w1 : TrackerWatcherCommand π) :
      Reachable ops w → w1.calls = w.calls →
      w1.trackerRequestGroup.isSome = w.trackerRequestGroup.isSome → Reachable ops w1

end TrackerWatcherCommand

/-! ## DHT entry-point resolver: data model -/

/-- The enumeration `NameResolver::STATUS`. -/
inductive Status where
  | ready
  | inProgress
  | success
  | error
deriving DecidableEq, Repr

/-- Modelled from the spec: the resolver engine `NameResolver` is declared
outside the sources.  It has a status, the address of the last answer (or the
one set on a cache hit) and an error text.  `asked` is a ghost: the hostnames
handed to `resolve` since the last `reset`. -/
structure NameResolver where
  status : Status
  addr : String
  error : String
  asked : List String
deriving DecidableEq, Repr

namespace NameResolver

/-- Asynchronous `resolve(hostname)`: the query is issued and is in progress. -/
def resolve (r : NameResolver) (hostname : String) : NameResolver :=
  { r with status := Status.inProgress, asked := hostname :: r.asked }

/-- Blocking `resolve(hostname)` of the build without asynchronous DNS: the
answer is there when the call returns; `none` when it raises. -/
def resolveSync (lookup : String → Option String) (r : NameResolver) (hostname : String) :
    Option NameResolver :=
  match lookup hostname with
  | some ip => some { r with addr := ip }
  | none => none

def reset (r : NameResolver) : NameResolver :=
  { r with status := Status.ready, asked := [] }

def setAddr (r : NameResolver) (addr : String) : NameResolver :=
  { r with addr := addr }

def getAddrString (r : NameResolver) : String := r.addr

def getStatus (r : NameResolver) : Status := r.status

/-- The engine finishing the query in flight, between two steps of the owning
command: `some ip` is a successful answer, `none` a failure. -/
def complete (r : NameResolver) (answer : Option String) : NameResolver :=
  match r.status with
  | Status.inProgress =>
    match answer with
    | some ip => { r with status := Status.success, addr := ip }
    | none => { r with status := Status.error, error := "name resolution failed" }
  | _ => r

/-- A resolver as the constructor of the command makes it. -/
def fresh : NameResolver :=
  { status := Status.ready, addr := "", error := "", asked := [] }

end NameResolver

/-- Modelled from the spec: the process-wide DNS cache (`DNSCache`, declared
outside the sources) maps a hostname to an IP string; `find` gives the empty
string for a hostname it does not hold. -/
abbrev DNSCache := List (String × String)

def DNSCache.find (c : DNSCache) (hostname : String) : String :=
  match c.lookup hostname with
  | some ip => ip
  | none => ""

/-- Overwriting `put`: the new binding shadows any older one. -/
def DNSCache.put (c : DNSCache) (hostname ipaddr : String) : DNSCache :=
  (hostname, ipaddr) :: c

/-- Tasks handed to `DHTTaskQueue::addPeriodicTask1`. -/
inductive DHTTask where
  | ping (ipaddr : String) (port : Nat) (timeout : Nat)
  | nodeLookup (targetID : ByteString)
  | bucketRefresh
deriving DecidableEq, Repr

/-- What the resolver command is compiled and wired with.  `asyncDns` is
`ENABLE_ASYNC_DNS`; `isNumbersAndDotsNotation` is `Util::isNumbersAndDotsNotation`
(declared outside the sources); `lookup` is the answer of a blocking
`resolve`; `taskRaises` tells for which task the task factory or the task
queue raises a recoverable exception. -/
structure DHTEnv where
  asyncDns : Bool
  isNumbersAndDotsNotation : String → Bool
  lookup : String → Option String
  taskRaises : DHTTask → Bool

/-- State of a `DHTEntryPointNameResolveCommand` together with the engine and
collaborator state it touches.  `resolveLog` is a ghost: every call of the
engine's `resolve`, with the status the resolver had when it was made. -/
structure DHTEntryPointNameResolveCommand where
  cuid : Nat
  entryPoints : List (String × Nat)
  resolvedEntryPoints : List (String × Nat)
  resolver : NameResolver
  bootstrapEnabled : Bool
  localNodeID : ByteString
  downloadFinished : Bool
  haltRequested : Bool
  commands : List Command
  nameResolverCheck : Bool
  dnsCache : DNSCache
  taskQueue : List DHTTask
  resolveLog : List (String × Status)
deriving DecidableEq, Repr

namespace DHTEntryPointNameResolveCommand

/-- How the `while(_entryPoints.size())` loop of `execute` is left. -/
inductive LoopExit where
  | emptied (s : DHTEntryPointNameResolveCommand)
  | requeued (s : DHTEntryPointNameResolveCommand)
  | eraseOnEmpty (s : DHTEntryPointNameResolveCommand)
  | outOfFuel
deriving DecidableEq, Repr

/-- Result of one call of `execute`: the returned flag and the state after,
or the point where the handler erased from an empty deque (not defined by
the language), or an exhausted loop bound. -/
inductive Outcome where
  | returned (result : Bool) (s : DHTEntryPointNameResolveCommand)
  | undefinedBehaviour (s : DHTEntryPointNameResolveCommand)
  | outOfFuel
deriving DecidableEq, Repr

/-- Call `_taskQueue->addPeriodicTask1(task)` for a task the factory builds;
`none` when building or adding raises (the queue is then as before). -/
def addPeriodicTask1 (env : DHTEnv) (task : DHTTask) (s : DHTEntryPointNameResolveCommand) :
    Option DHTEntryPointNameResolveCommand :=
  if env.taskRaises task then none
  else some { s with taskQueue := s.taskQueue ++ [task] }

/-- Embedding of `DHTEntryPointNameResolveCommand::addPingTask`. -/
def addPingTask (env : DHTEnv) (addr : String × Nat) (s : DHTEntryPointNameResolveCommand) :
    Option DHTEntryPointNameResolveCommand :=
  addPeriodicTask1 env (DHTTask.ping addr.1 addr.2 10) s

/-- Embedding of `DHTEntryPointNameResolveCommand::resolveHostname` on the
resolver of the command: the returned flag (`none` when it raises) and the state after. -/
def resolveHostname (env : DHTEnv) (hostname : String) (s : DHTEntryPointNameResolveCommand) :
    Option Bool × DHTEntryPointNameResolveCommand :=
  let ipaddr := s.dnsCache.find hostname
  if ipaddr = "" then
    if env.asyncDns then
      match s.resolver.getStatus with
      | Status.ready =>
        (some false,
          { s with resolver := s.resolver.resolve hostname,
                   resolveLog := s.resolveLog ++ [(hostname, s.resolver.getStatus)],
                   nameResolverCheck := true })
      | Status.success =>
        (some true, { s with dnsCache := s.dnsCache.put hostname s.resolver.getAddrString })
      | Status.error => (none, s)
      | Status.inProgress => (some false, s)
    else
      let s1 := { s with resolveLog := s.resolveLog ++ [(hostname, s.resolver.getStatus)] }
      match s.resolver.resolveSync env.lookup hostname with
      | none => (none, s1)
      | some r =>
        (some true, { s1 with resolver := r, dnsCache := s.dnsCache.put hostname r.getAddrString })
  else
    (some true, { s with resolver := s.resolver.setAddr ipaddr })

/-- The handler of the per-entry `catch`: erase the front entry and reset the
resolver; `none` when the deque is empty at that point. -/
def catchEntry (s : DHTEntryPointNameResolveCommand) : Option DHTEntryPointNameResolveCommand :=
  match s.entryPoints with
  | [] => none
  | _ :: rest => some { s with entryPoints := rest, resolver := s.resolver.reset }

/-- How one round of the loop body (lines 76 to 103) ends: the loop goes
on, or `execute` requeues the command and returns false, or the handler
erased from an empty deque. -/
inductive BodyExit where
  | next (s : DHTEntryPointNameResolveCommand)
  | requeued (s : DHTEntryPointNameResolveCommand)
  | eraseOnEmpty (s : DHTEntryPointNameResolveCommand)
deriving DecidableEq, Repr

/-- The per-entry `try` block with its handler, run from the point where the
exception was raised in state `s`. -/
def afterRaise (s : DHTEntryPointNameResolveCommand) : BodyExit :=
  match catchEntry s with
  | none => BodyExit.eraseOnEmpty s
  | some s1 => BodyExit.next s1

/-- Lines 79 to 83 and 88 to 92: append `p` to the resolved entries, erase
the front entry, add the ping task for `p`; a raise of the latter goes to
the handler. -/
def moveToResolved (env : DHTEnv) (p : String × Nat) (s : DHTEntryPointNameResolveCommand) :
    BodyExit :=
  let s1 := { s with resolvedEntryPoints := s.resolvedEntryPoints ++ [p],
                     entryPoints := s.entryPoints.tail }
  match addPingTask env p s1 with
  | some s2 => BodyExit.next s2
  | none => afterRaise s1

/-- One round of the loop body for the front entry `front`. -/
def loopBody (env : DHTEnv) (s : DHTEntryPointNameResolveCommand) (front : String × Nat) :
    BodyExit :=
  let hostname := front.1
  if env.isNumbersAndDotsNotation hostname then
    moveToResolved env (hostname, front.2) s
  else
    match resolveHostname env hostname s with
    | (some true, s1) =>
      let hostname1 := s1.resolver.getAddrString
      let s2 := { s1 with resolver := s1.resolver.reset }
      moveToResolved env (hostname1, front.2) s2
    | (some false, s1) =>
      BodyExit.requeued
        { s1 with commands := s1.commands ++ [Command.dhtEntryPointNameResolve s1.cuid] }
    | (none, s1) => afterRaise s1

/-- The `while(_entryPoints.size())` loop of `execute`; every round erases
at least one entry, so `fuel` bounds the rounds. -/
def whileEntryPoints (env : DHTEnv) : Nat → DHTEntryPointNameResolveCommand → LoopExit
  | 0, s =>
    match s.entryPoints with
    | [] => LoopExit.emptied s
    | _ :: _ => LoopExit.outOfFuel
  | fuel + 1, s =>
    match s.entryPoints with
    | [] => LoopExit.emptied s
    | front :: _ =>
      match loopBody env s front with
      | BodyExit.next s1 => whileEntryPoints env fuel s1
      | BodyExit.requeued s1 => LoopExit.requeued s1
      | BodyExit.eraseOnEmpty s1 => LoopExit.eraseOnEmpty s1

/-- The bootstrap tasks added once the loop has emptied the list; a raise
is swallowed by the outer `catch`. -/
def addBootstrapTasks (env : DHTEnv) (s : DHTEntryPointNameResolveCommand) :
    DHTEntryPointNameResolveCommand :=
  if s.bootstrapEnabled && s.resolvedEntryPoints.length != 0 then
    match addPeriodicTask1 env (DHTTask.nodeLookup s.localNodeID) s with
    | none => s
    | some s1 =>
      match addPeriodicTask1 env DHTTask.bucketRefresh s1 with
      | none => s1
      | some s2 => s2
  else s

/-- Embedding of `DHTEntryPointNameResolveCommand::execute`. -/
def execute (env : DHTEnv) (s : DHTEntryPointNameResolveCommand) : Outcome :=
  if s.downloadFinished || s.haltRequested then Outcome.returned true s
  else
    match whileEntryPoints env s.entryPoints.length s with
    | LoopExit.requeued s1 => Outcome.returned false s1
    | LoopExit.emptied s1 => Outcome.returned true (addBootstrapTasks env s1)
    | LoopExit.eraseOnEmpty s1 => Outcome.undefinedBehaviour s1
    | LoopExit.outOfFuel => Outcome.outOfFuel

/-! ### Running the resolver on concrete inputs -/

/-- A stand-in for `Util::isNumbersAndDotsNotation` on concrete inputs: the
name consists of digits and dots. -/
def numbersAndDots (hostname : String) : Bool :=
  hostname.data.all (fun c => c.isDigit || c == '.')

/-- An environment whose engine knows one hostname and whose task queue
raises for the tasks `raises` selects. -/
def demoEnv (async : Bool) (raises : DHTTask → Bool) : DHTEnv :=
  { asyncDns := async,
    isNumbersAndDotsNotation := numbersAndDots,
    lookup := fun h => if h = "dht.example.org" then some "192.0.2.7" else none,
    taskRaises := raises }

/-- The command as constructed for the given entry points, in a running
engine with the given cache. -/
def start (entryPoints : List (String × Nat)) (cache : DNSCache) :
    DHTEntryPointNameResolveCommand :=
  { cuid := 3, entryPoints := entryPoints, resolvedEntryPoints := [],
    resolver := NameResolver.fresh, bootstrapEnabled := false, localNodeID := [1, 2, 3],
    downloadFinished := false, haltRequested := false, commands := [],
    nameResolverCheck := false, dnsCache := cache, taskQueue := [], resolveLog := [] }

/-- An engine that resolves immediately: the query in flight is answered
from `env.lookup` before the command is stepped again. -/
def answerNow (env : DHTEnv) (s : DHTEntryPointNameResolveCommand) :
    DHTEntryPointNameResolveCommand :=
  match s.resolver.asked with
  | [] => s
  | hostname :: _ => { s with resolver := s.resolver.complete (env.lookup hostname) }

/-- Step the command, with an immediately resolving engine, until `execute`
returns true: the number of calls of `execute` made and the final state;
`none` when `fuel` calls do not suffice or a call has no defined result. -/
def runUntilDone (env : DHTEnv) :
    Nat → DHTEntryPointNameResolveCommand → Option (Nat × DHTEntryPointNameResolveCommand)
  | 0, _ => none
  | fuel + 1, s =>
    match execute env s with
    | Outcome.returned true s1 => some (1, s1)
    | Outcome.returned false s1 =>
      match runUntilDone env fuel (answerNow env s1) with
      | some (n, s2) => some (n + 1, s2)
      | none => none
    | _ => none

/-- An environment with asynchronous DNS whose task queue raises for the
ping task of `192.0.2.5:6881`. -/
def pingRaisesEnv : DHTEnv :=
  demoEnv true (fun t => t == DHTTask.ping "192.0.2.5" 6881 10)

/-- At most one query is outstanding at the engine, and none when it is
Ready. -/
def AtMostOnePending (r : NameResolver) : Prop :=
  r.asked.length ≤ 1 ∧ (r.status = Status.ready → r.asked = [])

/-- The state `execute` leaves behind, when it has a defined result. -/
def Outcome.state? : Outcome → Option DHTEntryPointNameResolveCommand
  | Outcome.returned _ s => some s
  | Outcome.undefinedBehaviour s => some s
  | Outcome.outOfFuel => none

/-- The calls of the engine `resolve` made between state `s` and state `s1`. -/
def resolveCalls (s s1 : DHTEntryPointNameResolveCommand) : List (String × Status) :=
  s1.resolveLog.drop s.resolveLog.length

/-- A property of the way a round of the loop body ends, by case. -/
def BodyExit.Holds (pNext pRequeued pErase : DHTEntryPointNameResolveCommand → Prop) :
    BodyExit → Prop
  | BodyExit.next s => pNext s
  | BodyExit.requeued s => pRequeued s
  | BodyExit.eraseOnEmpty s => pErase s

/-- A property of the way the loop is left, by case; nothing is said about a
loop that ran out of fuel. -/
def LoopExit.Holds (pEmptied pRequeued pErase : DHTEntryPointNameResolveCommand → Prop) :
    LoopExit → Prop
  | LoopExit.emptied s => pEmptied s
  | LoopExit.requeued s => pRequeued s
  | LoopExit.eraseOnEmpty s => pErase s
  | LoopExit.outOfFuel => True

/-- The resolution of an entry fails: its name is not a literal address, the
cache does not hold it, and the engine has no answer for it. -/
def resolutionFails (env : DHTEnv) (cache : DNSCache) (e : String × Nat) : Bool :=
  !env.isNumbersAndDotsNotation e.1 && decide (cache.find e.1 = "") &&
    (env.lookup e.1).isNone

/-- Number of entries whose resolution does not fail. -/
def resolvable (env : DHTEnv) (cache : DNSCache) (entries : List (String × Nat)) : Nat :=
  entries.countP (fun e => !resolutionFails env cache e)

/-- The resolver is idle: Ready, with no query asked. -/
def Idle (r : NameResolver) : Prop :=
  r.status = Status.ready ∧ r.asked = []

/-- The engine has answered, as `env.lookup` tells, the query for the front
entry, a hostname the cache does not hold. -/
def Answered (env : DHTEnv) (s : DHTEntryPointNameResolveCommand) : Prop :=
  ∃ front rest, s.entryPoints = front :: rest ∧
    env.isNumbersAndDotsNotation front.1 = false ∧
    s.dnsCache.find front.1 = "" ∧
    ((s.resolver.status = Status.success ∧ (env.lookup front.1).isSome = true) ∨
     (s.resolver.status = Status.error ∧ env.lookup front.1 = none))

/-- Cache `c` answers as cache `c0` does for every hostname the engine cannot
resolve. -/
def CacheAgrees (env : DHTEnv) (c0 c : DNSCache) : Prop :=
  ∀ h, env.lookup h = none → c.find h = c0.find h

/-- States the resolver command gets into: it is constructed with a fresh
resolver, it is stepped by `execute`, the engine answers the query in
flight, and other commands change what the command does not own (they
leave its resolver and the log of its calls alone). -/
inductive Reachable (env : DHTEnv) : DHTEntryPointNameResolveCommand → Prop where
  | init (s : DHTEntryPointNameResolveCommand) :
      s.resolver = NameResolver.fresh → s.resolveLog = [] → Reachable env s
  | step (s s1 : DHTEntryPointNameResolveCommand) (result : Bool) :
      Reachable env s → execute env s = Outcome.returned result s1 → Reachable env s1
  | answered (s : DHTEntryPointNameResolveCommand) (answer : Option String) :
      Reachable env s → Reachable env { s with resolver := s.resolver.complete answer }
  | others (s s1 : DHTEntryPointNameResolveCommand) :
      Reachable env s → s1.resolver = s.resolver → s1.resolveLog = s.resolveLog →
      Reachable env s1

/-- The task is a ping task with timeout 10. -/
def isPing10 : DHTTask → Bool
  | DHTTask.ping _ _ timeout => timeout == 10
  | _ => false

/-- What lies between a state `s` and a later state `s1` of the same step:
entries were erased from the front of the list; resolved entries were
appended, each with the port of an erased entry and in the order of those
entries; ping tasks were appended to the task queue; the engine was queried
only for names of entries pending in `s`; the flags of the command and of
the engine are as they were. -/
def Consumed (s s1 : DHTEntryPointNameResolveCommand) : Prop :=
  ∃ (removed added : List (String × Nat)) (pings : List DHTTask)
      (calls : List (String × Status)),
    s.entryPoints = removed ++ s1.entryPoints ∧
    s1.resolvedEntryPoints = s.resolvedEntryPoints ++ added ∧
    List.Sublist (added.map Prod.snd) (removed.map Prod.snd) ∧
    s1.taskQueue = s.taskQueue ++ pings ∧
    (∀ t ∈ pings, isPing10 t = true) ∧
    s1.resolveLog = s.resolveLog ++ calls ∧
    (∀ q ∈ calls, q.1 ∈ s.entryPoints.map Prod.fst) ∧
    s1.bootstrapEnabled = s.bootstrapEnabled ∧
    s1.localNodeID = s.localNodeID ∧
    s1.downloadFinished = s.downloadFinished ∧
    s1.haltRequested = s.haltRequested

/-- From state `s` on: the command is stepped by `execute`, the engine answers
the query in flight, and other commands change what the command does not
own; its entry list, its resolved entries, its resolver and its log of
queries are its own. -/
inductive Evolves (env : DHTEnv) (s : DHTEntryPointNameResolveCommand) :
    DHTEntryPointNameResolveCommand → Prop where
  | refl : Evolves env s s
  | step (s1 s2 : DHTEntryPointNameResolveCommand) (result : Bool) :
      Evolves env s s1 → execute env s1 = Outcome.returned result s2 → Evolves env s s2
  | answered (s1 : DHTEntryPointNameResolveCommand) (answer : Option String) :
      Evolves env s s1 → Evolves env s { s1 with resolver := s1.resolver.complete answer }
  | others (s1 s2 : DHTEntryPointNameResolveCommand) :
      Evolves env s s1 → s2.entryPoints = s1.entryPoints →
      s2.resolvedEntryPoints = s1.resolvedEntryPoints → s2.resolver = s1.resolver →
      s2.resolveLog = s1.resolveLog → Evolves env s s2

/-- Whenever the resolver is not Ready, the list is not empty and the last
hostname handed to the engine is the one of the front entry, which is not a
literal address. -/
def QueryIsFront (env : DHTEnv) (s : DHTEntryPointNameResolveCommand) : Prop :=
  s.resolver.status ≠ Status.ready →
    ∃ front rest, s.entryPoints = front :: rest ∧
      s.resolver.asked.head? = some front.1 ∧
      env.isNumbersAndDotsNotation front.1 = false

/-- The bootstrap tasks that get into the queue, given which of them raise. -/
def bootstrapTasks (env : DHTEnv) (localNodeID : ByteString) : List DHTTask :=
  if env.taskRaises (DHTTask.nodeLookup localNodeID) then []
  else if env.taskRaises DHTTask.bucketRefresh then [DHTTask.nodeLookup localNodeID]
  else [DHTTask.nodeLookup localNodeID, DHTTask.bucketRefresh]

/-- A command for a literal, a hostname the engine cannot resolve and a
hostname it resolves. -/
def threeEntries : DHTEntryPointNameResolveCommand :=
  start [("192.0.2.5", 6881), ("bad.invalid", 6882), ("dht.example.org", 6883)] []

/-- The state `threeEntries` is in after one step without asynchronous DNS. -/
def threeEntriesDone : DHTEntryPointNameResolveCommand :=
  { start [] [("dht.example.org", "192.0.2.7")] with
    resolvedEntryPoints := [("192.0.2.5", 6881), ("192.0.2.7", 6883)],
    resolver := { NameResolver.fresh with addr := "192.0.2.7" },
    taskQueue := [DHTTask.ping "192.0.2.5" 6881 10, DHTTask.ping "192.0.2.7" 6883 10],
    resolveLog := [("bad.invalid", Status.ready), ("dht.example.org", Status.ready)] }

/-- A command for one literal entry, with bootstrap enabled. -/
def bootstrapping : DHTEntryPointNameResolveCommand :=
  { start [("192.0.2.5", 6881)] [] with bootstrapEnabled := true }

/-- The state `bootstrapping` is in after its step when no task raises. -/
def bootstrapped : DHTEntryPointNameResolveCommand :=
  { bootstrapping with
    entryPoints := [], resolvedEntryPoints := [("192.0.2.5", 6881)],
    taskQueue := [DHTTask.ping "192.0.2.5" 6881 10, DHTTask.nodeLookup [1, 2, 3],
      DHTTask.bucketRefresh] }

/-- The successful answer held by the resolver of `t` went to the front entry:
the engine was asked about the hostname of `front`, and in `t1` the address
is appended with the port of `front` and cached under its hostname. -/
def AnswerGoesToFront (t : DHTEntryPointNameResolveCommand) (front : String × Nat)
    (t1 : DHTEntryPointNameResolveCommand) : Prop :=
  t.resolver.asked.head? = some front.1 ∧
  t1.resolvedEntryPoints = t.resolvedEntryPoints ++ [(t.resolver.addr, front.2)] ∧
  t1.dnsCache = t.dnsCache.put front.1 t.resolver.addr

/-- The command for one hostname after its first step with asynchronous DNS:
the query is in flight. -/
def afterFirstStep : DHTEntryPointNameResolveCommand :=
  { start [("dht.example.org", 6881)] [] with
    resolver := { NameResolver.fresh with
                  status := Status.inProgress, asked := ["dht.example.org"] },
    commands := [Command.dhtEntryPointNameResolve 3],
    nameResolverCheck := true,
    resolveLog := [("dht.example.org", Status.ready)] }

/-- The same command once the engine has answered. -/
def afterAnswer : DHTEntryPointNameResolveCommand :=
  { afterFirstStep with resolver := afterFirstStep.resolver.complete (some "192.0.2.7") }

end DHTEntryPointNameResolveCommand

/-! ## Tracker watcher: theorems -/

namespace TrackerWatcherCommand

variable {π : Type}

/-! ### The peer pool and the peer loop -/

theorem getUnusedPeer_eq_none_iff (peers : List Peer) :
    getUnusedPeer peers = none ↔ unusedCount peers = 0 := by
  induction peers with
  | nil => simp [getUnusedPeer, unusedCount]
  | cons p ps ih =>
    by_cases hp : p.cuid = 0
    · simp [getUnusedPeer, unusedCount, hp]
    · simp [getUnusedPeer, unusedCount, hp]

theorem unusedCount_usedBy (peers : List Peer) (id : Nat) (hid : id ≠ 0) (p : Peer)
    (h : getUnusedPeer peers = some p) :
    unusedCount (usedBy peers id) + 1 = unusedCount peers := by
  induction peers with
  | nil => simp [getUnusedPeer] at h
  | cons q qs ih =>
    by_cases hq : q.cuid = 0
    · simp [usedBy, unusedCount, hq, hid]
    · have h2 : getUnusedPeer qs = some p := by
        simpa [getUnusedPeer, hq] using h
      have := ih h2
      simp only [unusedCount] at this
      simp [usedBy, unusedCount, hq, this]

/-- What the peer loop does: it appends only peer-connection commands, as
many as `min needed unused` (none when the runtime is halted), marks that
many peers of the pool used, logs only `newPeerCommand` calls and leaves the
policy and the session alone. -/
theorem connectPeers_spec (fuel : Nat) (w : TrackerWatcherCommand π)
    (h : w.btRuntime.needed ≤ fuel) :
    ∃ cmds : List Command, ∃ ids : List Nat,
      (connectPeers fuel w h).commands = w.commands ++ cmds ∧
      (∀ c ∈ cmds, c.isPeerConnection = true) ∧
      cmds.length =
        (if w.btRuntime.halt then 0 else min w.btRuntime.needed (unusedCount w.peerStorage)) ∧
      unusedCount (connectPeers fuel w h).peerStorage + cmds.length
        = unusedCount w.peerStorage ∧
      (connectPeers fuel w h).calls = w.calls ++ ids.map Call.newPeerCommand ∧
      (connectPeers fuel w h).btAnnounce = w.btAnnounce ∧
      (connectPeers fuel w h).trackerRequestGroup = w.trackerRequestGroup ∧
      (connectPeers fuel w h).requestGroup = w.requestGroup ∧
      (connectPeers fuel w h).cuid = w.cuid := by
  induction fuel generalizing w with
  | zero =>
    refine ⟨[], [], ?_⟩
    have h0 : w.btRuntime.needed = 0 := Nat.le_zero.mp h
    simp [connectPeers, h0]
  | succ n ih =>
    unfold connectPeers
    by_cases hc : (!w.btRuntime.isHalt && w.btRuntime.lessThanMinPeer) = true
    · rw [if_pos hc]
      simp only [BtRuntime.isHalt, BtRuntime.lessThanMinPeer, Bool.and_eq_true,
        Bool.not_eq_true', decide_eq_true_eq] at hc
      obtain ⟨hhalt, hlt⟩ := hc
      cases hg : getUnusedPeer w.peerStorage with
      | none =>
        have hz := (getUnusedPeer_eq_none_iff _).mp hg
        refine ⟨[], [], ?_⟩
        simp [hhalt, hz]
      | some peer =>
        simp only []
        have hu := unusedCount_usedBy w.peerStorage (w.cuidCounter + 1) (by omega) peer hg
        obtain ⟨cmds, ids, h1, h2, h3, h4, h5, h6, h7, h8, h9⟩ := ih
          { w with cuidCounter := w.cuidCounter + 1,
                   peerStorage := usedBy w.peerStorage (w.cuidCounter + 1),
                   btRuntime := w.btRuntime.increaseConnections,
                   commands := w.commands ++
                     [Command.peerInitiateConnection (w.cuidCounter + 1)
                        { peer with cuid := w.cuidCounter + 1 }],
                   calls := w.calls ++ [Call.newPeerCommand (w.cuidCounter + 1)] }
          (by simp only [BtRuntime.needed, BtRuntime.increaseConnections] at h ⊢; omega)
        refine ⟨Command.peerInitiateConnection (w.cuidCounter + 1)
                  { peer with cuid := w.cuidCounter + 1 } :: cmds,
                (w.cuidCounter + 1) :: ids, ?_, ?_, ?_, ?_, ?_, h6, h7, h8, h9⟩
        · simpa using h1
        · intro c hcm
          rcases List.mem_cons.mp hcm with rfl | hcm
          · rfl
          · exact h2 c hcm
        · simp only [BtRuntime.increaseConnections, BtRuntime.needed, hhalt] at h3 ⊢
          simp only [List.length_cons, h3]
          simp only [BtRuntime.needed] at h
          simp at *
          omega
        · simp only [List.length_cons]
          simp only [] at h4
          omega
        · simpa using h5
    · rw [if_neg hc]
      refine ⟨[], [], ?_⟩
      simp only [BtRuntime.isHalt, BtRuntime.lessThanMinPeer, Bool.and_eq_true,
        Bool.not_eq_true', decide_eq_true_eq, not_and, not_lt] at hc
      by_cases hh : w.btRuntime.halt = true
      · simp [hh]
      · have hh2 : w.btRuntime.halt = false := by simpa using hh
        have := hc hh2
        simp [hh2, BtRuntime.needed]
        omega

/-- C1 (evaluation at the failing input): with the owning download halted
and the announce session still running, `execute` asks the session to halt
and returns false, but the command queue is left exactly as it was: the
watcher is not appended to it. -/
theorem execute_halted_running_drops_watcher :
    (execute counterPolicy haltedWhileRunning).1 = false ∧
    (execute counterPolicy haltedWhileRunning).2.trackerRequestGroup
      = some { runningSession with forceHaltRequested := true } ∧
    (execute counterPolicy haltedWhileRunning).2.commands = haltedWhileRunning.commands ∧
    Command.trackerWatcher haltedWhileRunning.cuid ∉
      (execute counterPolicy haltedWhileRunning).2.commands := by
  decide

/-- The step taken with a finished session, download not halted, announces
permitted: lines 94 to 109 and 118 to 119 of the source. -/
theorem execute_finished_eq (ops : BtAnnounce π) (w : TrackerWatcherCommand π)
    (rg : RequestGroup) (hh : w.requestGroup.forceHaltRequested = false)
    (hn : ops.noMoreAnnounce w.btAnnounce = false)
    (hs : w.trackerRequestGroup = some rg) (hf : rg.downloadFinished = true) :
    execute ops w =
      (false,
        match processTrackerResponse ops
            { w with calls := w.calls ++ [Call.processAnnounceResponse] }
            (getTrackerResponse rg) with
        | some w1 =>
          { w1 with btAnnounce := ops.resetAnnounce (ops.announceSuccess w1.btAnnounce),
                    trackerRequestGroup := none,
                    calls := w1.calls ++
                      [Call.announceSuccess, Call.resetAnnounce, Call.sessionReset],
                    commands := w1.commands ++ [Command.trackerWatcher w.cuid] }
        | none =>
          if ops.isAllAnnounceFailed (ops.announceFailure w.btAnnounce) then
            { w with btAnnounce := ops.resetAnnounce (ops.announceFailure w.btAnnounce),
                     trackerRequestGroup := none,
                     calls := w.calls ++ [Call.processAnnounceResponse, Call.announceFailure,
                       Call.resetAnnounce, Call.sessionReset],
                     commands := w.commands ++ [Command.trackerWatcher w.cuid] }
          else
            { w with btAnnounce := ops.announceFailure w.btAnnounce,
                     trackerRequestGroup := none,
                     calls := w.calls ++ [Call.processAnnounceResponse, Call.announceFailure,
                       Call.sessionReset],
                     commands := w.commands ++ [Command.trackerWatcher w.cuid] }) := by
  obtain ⟨cuid, owner, session, a, rt, pool, counter, cmds, calls⟩ := w
  simp only at hh hn hs
  subst hs
  simp only [execute, hh, hn, hf, Bool.false_eq_true, if_false, if_true]
  cases processTrackerResponse ops _ (getTrackerResponse rg) with
  | some w1 => simp
  | none =>
    by_cases ha : ops.isAllAnnounceFailed (ops.announceFailure a) = true
    · simp [ha]
    · simp [ha]

/-- What `processTrackerResponse` does when the policy parses the response:
the peer loop runs on the pool the policy left. -/
theorem processTrackerResponse_parsed (ops : BtAnnounce π) (w : TrackerWatcherCommand π)
    (bytes : ByteString) (a : π) (peers : List Peer)
    (hp : ops.processAnnounceResponse w.btAnnounce w.peerStorage bytes = some (a, peers)) :
    ∃ w1 : TrackerWatcherCommand π, ∃ cmds : List Command, ∃ ids : List Nat,
      processTrackerResponse ops w bytes = some w1 ∧
      w1.commands = w.commands ++ cmds ∧
      (∀ c ∈ cmds, c.isPeerConnection = true) ∧
      cmds.length = (if w.btRuntime.halt then 0
        else min w.btRuntime.needed (unusedCount peers)) ∧
      unusedCount w1.peerStorage + cmds.length = unusedCount peers ∧
      w1.calls = w.calls ++ ids.map Call.newPeerCommand ∧
      w1.btAnnounce = a ∧
      w1.trackerRequestGroup = w.trackerRequestGroup ∧
      w1.requestGroup = w.requestGroup ∧
      w1.cuid = w.cuid := by
  obtain ⟨cmds, ids, h1, h2, h3, h4, h5, h6, h7, h8, h9⟩ :=
    connectPeers_spec w.btRuntime.needed { w with btAnnounce := a, peerStorage := peers }
      (Nat.le_refl _)
  refine ⟨_, cmds, ids, ?_, h1, h2, h3, h4, h5, h6, h7, h8, h9⟩
  simp [processTrackerResponse, hp]

/-- When the policy raises while parsing, `processTrackerResponse` raises. -/
theorem processTrackerResponse_raised (ops : BtAnnounce π) (w : TrackerWatcherCommand π)
    (bytes : ByteString)
    (hp : ops.processAnnounceResponse w.btAnnounce w.peerStorage bytes = none) :
    processTrackerResponse ops w bytes = none := by
  simp [processTrackerResponse, hp]

/-- C2 (counterexample): a finished session whose response does not parse,
download not halted, announces permitted, one peer needed and two unused
peers in the pool: the step drains no peer and queues no peer-connection
command, only the watcher itself. -/
theorem execute_parse_raised_drains_nothing :
    (watching false (some (finishedSession []))).requestGroup.forceHaltRequested = false ∧
    counterPolicy.noMoreAnnounce (watching false (some (finishedSession []))).btAnnounce
      = false ∧
    (finishedSession []).downloadFinished = true ∧
    counterPolicy.processAnnounceResponse freshCounters
      (watching false (some (finishedSession []))).peerStorage
      (getTrackerResponse (finishedSession [])) = none ∧
    (watching false (some (finishedSession []))).btRuntime.needed = 1 ∧
    unusedCount (watching false (some (finishedSession []))).peerStorage = 2 ∧
    (execute counterPolicy (watching false (some (finishedSession [])))).2.peerStorage
      = (watching false (some (finishedSession []))).peerStorage ∧
    commandsOfStep counterPolicy (watching false (some (finishedSession [])))
      = [Command.trackerWatcher 7] := by
  decide

/-- C2 (amended): in a step with a finished session, download not halted and
announces permitted, peers are drained exactly when the response parses: on
success the step queues one peer-connection command per drained peer, as
many as `min needed unused` (none when the runtime is halted), followed by
the watcher; when parsing raises, the pool is untouched and only the watcher
is queued. -/
theorem execute_finished_drains_when_parsed (ops : BtAnnounce π)
    (w : TrackerWatcherCommand π) (rg : RequestGroup)
    (hh : w.requestGroup.forceHaltRequested = false)
    (hn : ops.noMoreAnnounce w.btAnnounce = false)
    (hs : w.trackerRequestGroup = some rg) (hf : rg.downloadFinished = true) :
    (∀ a peers,
      ops.processAnnounceResponse w.btAnnounce w.peerStorage (getTrackerResponse rg)
        = some (a, peers) →
      ∃ cmds : List Command,
        (execute ops w).2.commands = w.commands ++ cmds ++ [Command.trackerWatcher w.cuid] ∧
        (∀ c ∈ cmds, c.isPeerConnection = true) ∧
        cmds.length = (if w.btRuntime.halt then 0
          else min w.btRuntime.needed (unusedCount peers)) ∧
        unusedCount (execute ops w).2.peerStorage + cmds.length = unusedCount peers) ∧
    (ops.processAnnounceResponse w.btAnnounce w.peerStorage (getTrackerResponse rg) = none →
      (execute ops w).2.commands = w.commands ++ [Command.trackerWatcher w.cuid] ∧
      (execute ops w).2.peerStorage = w.peerStorage) := by
  rw [execute_finished_eq ops w rg hh hn hs hf]
  constructor
  · intro a peers hp
    obtain ⟨w1, cmds, ids, h1, h2, h3, h4, h5, -⟩ :=
      processTrackerResponse_parsed ops
        { w with calls := w.calls ++ [Call.processAnnounceResponse] } _ a peers hp
    refine ⟨cmds, ?_, h3, h4, ?_⟩
    · simp only [h1, h2]
    · simp only [h1]
      exact h5
  · intro hp
    have h := processTrackerResponse_raised ops
      { w with calls := w.calls ++ [Call.processAnnounceResponse] } _ hp
    simp only [h]
    by_cases ha : ops.isAllAnnounceFailed (ops.announceFailure w.btAnnounce) = true
    · simp [ha]
    · simp [ha]

/-- C2 (witness): the amended statement at a watcher whose finished session
holds a response that parses. -/
theorem execute_finished_drains_when_parsed_witness :
    (∃ cmds : List Command,
      (execute counterPolicy (watching false (some (finishedSession [100])))).2.commands
        = (watching false (some (finishedSession [100]))).commands ++ cmds ++
            [Command.trackerWatcher 7] ∧
      cmds.length = 1) := by
  obtain ⟨cmds, h1, -, h3, -⟩ :=
    (execute_finished_drains_when_parsed counterPolicy
      (watching false (some (finishedSession [100]))) (finishedSession [100])
      rfl rfl rfl rfl).1 freshCounters
      (watching false (some (finishedSession [100]))).peerStorage (by decide)
  exact ⟨cmds, h1, by rw [h3]; decide⟩

/-- The step taken with a session that has no command left and did not
finish, download not halted, announces permitted: lines 110 to 119 of the
source. -/
theorem execute_failed_eq (ops : BtAnnounce π) (w : TrackerWatcherCommand π)
    (rg : RequestGroup) (hh : w.requestGroup.forceHaltRequested = false)
    (hn : ops.noMoreAnnounce w.btAnnounce = false)
    (hs : w.trackerRequestGroup = some rg)
    (hz : rg.numCommand = 0) (hf : rg.downloadFinished = false) :
    execute ops w =
      (false,
        if ops.isAllAnnounceFailed (ops.announceFailure w.btAnnounce) then
          { w with btAnnounce := ops.resetAnnounce (ops.announceFailure w.btAnnounce),
                   trackerRequestGroup := none,
                   calls := w.calls ++
                     [Call.announceFailure, Call.sessionReset, Call.resetAnnounce],
                   commands := w.commands ++ [Command.trackerWatcher w.cuid] }
        else
          { w with btAnnounce := ops.announceFailure w.btAnnounce,
                   trackerRequestGroup := none,
                   calls := w.calls ++ [Call.announceFailure, Call.sessionReset],
                   commands := w.commands ++ [Command.trackerWatcher w.cuid] }) := by
  obtain ⟨cuid, owner, session, a, rt, pool, counter, cmds, calls⟩ := w
  simp only at hh hn hs
  subst hs
  by_cases ha : ops.isAllAnnounceFailed (ops.announceFailure a) = true
  · simp [execute, hh, hn, hf, hz, ha]
  · simp [execute, hh, hn, hf, hz, ha]

/-- C7 (counterexample): the session is present, has no command left and is
not finished, but the owning download is halted: the step returns true
without any call on the policy, and the session is still there. -/
theorem execute_halted_failed_session_silent :
    (watching true (some failedSession)).trackerRequestGroup = some failedSession ∧
    failedSession.numCommand = 0 ∧
    failedSession.downloadFinished = false ∧
    (execute counterPolicy (watching true (some failedSession))).1 = true ∧
    (callsOfStep counterPolicy (watching true (some failedSession))).count
      Call.announceFailure = 0 ∧
    (execute counterPolicy (watching true (some failedSession))).2.trackerRequestGroup
      = some failedSession := by
  decide

/-- C7 (amended): in a step with the download not halted and announces
permitted, a session that is present, has no command left and is not
finished makes the step call `announceFailure` exactly once, clear the
session, queue nothing but the watcher, and call `resetAnnounce` (once)
exactly when the policy then reports `isAllAnnounceFailed`. -/
theorem execute_failed_session_accounting (ops : BtAnnounce π)
    (w : TrackerWatcherCommand π) (rg : RequestGroup)
    (hh : w.requestGroup.forceHaltRequested = false)
    (hn : ops.noMoreAnnounce w.btAnnounce = false)
    (hs : w.trackerRequestGroup = some rg)
    (hz : rg.numCommand = 0) (hf : rg.downloadFinished = false) :
    (callsOfStep ops w).count Call.announceFailure = 1 ∧
    (execute ops w).2.trackerRequestGroup = none ∧
    commandsOfStep ops w = [Command.trackerWatcher w.cuid] ∧
    (callsOfStep ops w).count Call.resetAnnounce =
      (if ops.isAllAnnounceFailed (ops.announceFailure w.btAnnounce) then 1 else 0) ∧
    (Call.resetAnnounce ∈ callsOfStep ops w ↔
      ops.isAllAnnounceFailed (ops.announceFailure w.btAnnounce) = true) ∧
    (execute ops w).2.btAnnounce =
      (if ops.isAllAnnounceFailed (ops.announceFailure w.btAnnounce)
        then ops.resetAnnounce (ops.announceFailure w.btAnnounce)
        else ops.announceFailure w.btAnnounce) := by
  simp only [callsOfStep, commandsOfStep, execute_failed_eq ops w rg hh hn hs hz hf]
  by_cases ha : ops.isAllAnnounceFailed (ops.announceFailure w.btAnnounce) = true
  · simp [ha]
  · simp [ha]

/-- C7 (witness): the amended statement at a running watcher whose session
failed. -/
theorem execute_failed_session_accounting_witness :
    (watching false (some failedSession)).requestGroup.forceHaltRequested = false ∧
    (callsOfStep counterPolicy (watching false (some failedSession))).count
      Call.announceFailure = 1 ∧
    (execute counterPolicy (watching false (some failedSession))).2.trackerRequestGroup
      = none :=
  ⟨rfl,
   (execute_failed_session_accounting counterPolicy (watching false (some failedSession))
      failedSession rfl rfl rfl rfl rfl).1,
   (execute_failed_session_accounting counterPolicy (watching false (some failedSession))
      failedSession rfl rfl rfl rfl rfl).2.1⟩

/-- C8: `execute` returns true only when the owning download is force-halted
or the policy reports `noMoreAnnounce`; with the download not halted and
`noMoreAnnounce` false the step returns false. -/
theorem execute_completes_only_on_halt_or_no_more_announce (ops : BtAnnounce π)
    (w : TrackerWatcherCommand π) :
    ((execute ops w).1 = true →
      w.requestGroup.forceHaltRequested = true ∨ ops.noMoreAnnounce w.btAnnounce = true) ∧
    (w.requestGroup.forceHaltRequested = false → ops.noMoreAnnounce w.btAnnounce = false →
      (execute ops w).1 = false) := by
  have key : w.requestGroup.forceHaltRequested = false →
      ops.noMoreAnnounce w.btAnnounce = false → (execute ops w).1 = false := by
    intro hh hn
    simp [execute, hh, hn]
  refine ⟨?_, key⟩
  intro ht
  by_cases hh : w.requestGroup.forceHaltRequested = true
  · exact Or.inl hh
  · by_cases hn : ops.noMoreAnnounce w.btAnnounce = true
    · exact Or.inr hn
    · have := key (by simpa using hh) (by simpa using hn)
      rw [this] at ht
      exact absurd ht (by decide)

/-- C8 (witness): a running watcher with a running session returns false. -/
theorem execute_completes_only_on_halt_or_no_more_announce_witness :
    (watching false (some runningSession)).requestGroup.forceHaltRequested = false ∧
    counterPolicy.noMoreAnnounce (watching false (some runningSession)).btAnnounce = false ∧
    (execute counterPolicy (watching false (some runningSession))).1 = false :=
  ⟨rfl, rfl,
   (execute_completes_only_on_halt_or_no_more_announce counterPolicy
      (watching false (some runningSession))).2 rfl rfl⟩

/-- C9: after a successful parse, `processTrackerResponse` appends to the
command queue only peer-connection commands, at most
`min needed unused` of them (the peers the runtime still needs, the unused
peers the pool holds when the loop starts), and exactly one per peer it took
out of the pool of unused peers. -/
theorem processTrackerResponse_fan_out (ops : BtAnnounce π) (w : TrackerWatcherCommand π)
    (bytes : ByteString) (a : π) (peers : List Peer)
    (hp : ops.processAnnounceResponse w.btAnnounce w.peerStorage bytes = some (a, peers)) :
    ∃ w1 : TrackerWatcherCommand π, ∃ cmds : List Command,
      processTrackerResponse ops w bytes = some w1 ∧
      w1.commands = w.commands ++ cmds ∧
      (∀ c ∈ cmds, c.isPeerConnection = true) ∧
      cmds.length ≤ min w.btRuntime.needed (unusedCount peers) ∧
      cmds.length = unusedCount peers - unusedCount w1.peerStorage ∧
      unusedCount w1.peerStorage ≤ unusedCount peers := by
  obtain ⟨w1, cmds, ids, h1, h2, h3, h4, h5, -⟩ :=
    processTrackerResponse_parsed ops w bytes a peers hp
  refine ⟨w1, cmds, h1, h2, h3, ?_, by omega, by omega⟩
  rw [h4]
  split
  · exact Nat.zero_le _
  · exact Nat.le_refl _

/-- C9 (witness): one peer needed, two unused peers in the pool: one command. -/
theorem processTrackerResponse_fan_out_witness :
    ∃ w1 : TrackerWatcherCommand Counters, ∃ cmds : List Command,
      processTrackerResponse counterPolicy (watching false (some (finishedSession [100])))
        [100] = some w1 ∧
      w1.commands = (watching false (some (finishedSession [100]))).commands ++ cmds ∧
      (∀ c ∈ cmds, c.isPeerConnection = true) ∧
      cmds.length ≤ min 1 2 ∧
      cmds.length = 2 - unusedCount w1.peerStorage ∧
      unusedCount w1.peerStorage ≤ 2 :=
  processTrackerResponse_fan_out counterPolicy (watching false (some (finishedSession [100])))
    [100] freshCounters (watching false (some (finishedSession [100]))).peerStorage rfl

/-! ### Session exclusivity -/

theorem count_sessionReset_newPeerCommands (ids : List Nat) :
    (ids.map Call.newPeerCommand).count Call.sessionReset = 0 := by
  induction ids with
  | nil => rfl
  | cons i is ih => simpa [List.count_cons] using ih

theorem mem_newPeerCommands (ids : List Nat) (c : Call)
    (hc : c ∈ ids.map Call.newPeerCommand) :
    isCreateRequestGroup c = false ∧ c ≠ Call.announceStart := by
  obtain ⟨i, -, rfl⟩ := List.mem_map.mp hc
  exact ⟨rfl, by simp⟩

/-- A step taken while the handle holds a session makes no call of
`createRequestGroup` nor of `announceStart`, and it calls `reset` on the
handle exactly when the handle is null afterwards. -/
theorem execute_with_session (ops : BtAnnounce π) (w : TrackerWatcherCommand π)
    (rg : RequestGroup) (hs : w.trackerRequestGroup = some rg) :
    ∃ l : List Call, (execute ops w).2.calls = w.calls ++ l ∧
      (∀ c ∈ l, isCreateRequestGroup c = false ∧ c ≠ Call.announceStart) ∧
      l.count Call.sessionReset =
        (if (execute ops w).2.trackerRequestGroup.isSome then 0 else 1) := by
  by_cases hh : w.requestGroup.forceHaltRequested = true
  · by_cases hc : (rg.numCommand == 0 || rg.downloadFinished) = true
    · exact ⟨[], by simp [execute, hh, hs, hc]⟩
    · exact ⟨[Call.sessionHaltRequested], by simp [execute, hh, hs, hc],
        by simp [isCreateRequestGroup], by simp [execute, hh, hs, hc]⟩
  · have hh1 : w.requestGroup.forceHaltRequested = false := by simpa using hh
    by_cases hn : ops.noMoreAnnounce w.btAnnounce = true
    · exact ⟨[], by simp [execute, hh1, hs, hn]⟩
    · have hn1 : ops.noMoreAnnounce w.btAnnounce = false := by simpa using hn
      by_cases hf : rg.downloadFinished = true
      · rw [execute_finished_eq ops w rg hh1 hn1 hs hf]
        cases hp : ops.processAnnounceResponse w.btAnnounce w.peerStorage
            (getTrackerResponse rg) with
        | some r =>
          obtain ⟨a, peers⟩ := r
          obtain ⟨w1, cmds, ids, h1, -, -, -, -, h6, -⟩ :=
            processTrackerResponse_parsed ops
              { w with calls := w.calls ++ [Call.processAnnounceResponse] } _ a peers hp
          refine ⟨[Call.processAnnounceResponse] ++ ids.map Call.newPeerCommand ++
            [Call.announceSuccess, Call.resetAnnounce, Call.sessionReset], ?_, ?_, ?_⟩
          · simp only [h1, h6]
            simp
          · intro c hc
            simp only [List.mem_append, List.mem_cons, List.mem_singleton, List.not_mem_nil,
              or_false] at hc
            rcases hc with (rfl | hc) | rfl | rfl | rfl
            · exact ⟨rfl, by simp⟩
            · exact mem_newPeerCommands ids c hc
            · exact ⟨rfl, by simp⟩
            · exact ⟨rfl, by simp⟩
            · exact ⟨rfl, by simp⟩
          · simp only [h1]
            simp [List.count_append, count_sessionReset_newPeerCommands, List.count_cons]
        | none =>
          have h := processTrackerResponse_raised ops
            { w with calls := w.calls ++ [Call.processAnnounceResponse] } _ hp
          simp only [h]
          by_cases ha : ops.isAllAnnounceFailed (ops.announceFailure w.btAnnounce) = true
          · exact ⟨[Call.processAnnounceResponse, Call.announceFailure, Call.resetAnnounce,
              Call.sessionReset], by simp [ha], by simp [isCreateRequestGroup],
              by simp [ha, List.count_cons]⟩
          · exact ⟨[Call.processAnnounceResponse, Call.announceFailure, Call.sessionReset],
              by simp [ha], by simp [isCreateRequestGroup], by simp [ha, List.count_cons]⟩
      · have hf1 : rg.downloadFinished = false := by simpa using hf
        by_cases hz : rg.numCommand = 0
        · rw [execute_failed_eq ops w rg hh1 hn1 hs hz hf1]
          by_cases ha : ops.isAllAnnounceFailed (ops.announceFailure w.btAnnounce) = true
          · exact ⟨[Call.announceFailure, Call.sessionReset, Call.resetAnnounce],
              by simp [ha], by simp [isCreateRequestGroup], by simp [ha, List.count_cons]⟩
          · exact ⟨[Call.announceFailure, Call.sessionReset],
              by simp [ha], by simp [isCreateRequestGroup], by simp [ha, List.count_cons]⟩
        · exact ⟨[], by simp [execute, hh1, hn1, hs, hf1, hz]⟩

/-- A step taken while the handle is null never calls `reset` on it and
calls `createRequestGroup` once if the handle holds a session afterwards,
and not at all otherwise. -/
theorem execute_without_session (ops : BtAnnounce π) (w : TrackerWatcherCommand π)
    (hs : w.trackerRequestGroup = none) :
    ∃ l : List Call, (execute ops w).2.calls = w.calls ++ l ∧
      l.count Call.sessionReset = 0 ∧
      l.countP isCreateRequestGroup =
        (if (execute ops w).2.trackerRequestGroup.isSome then 1 else 0) := by
  by_cases hh : w.requestGroup.forceHaltRequested = true
  · exact ⟨[], by simp [execute, hh, hs]⟩
  · have hh1 : w.requestGroup.forceHaltRequested = false := by simpa using hh
    by_cases hn : ops.noMoreAnnounce w.btAnnounce = true
    · exact ⟨[], by simp [execute, hh1, hs, hn]⟩
    · have hn1 : ops.noMoreAnnounce w.btAnnounce = false := by simpa using hn
      by_cases hr : ops.isAnnounceReady w.btAnnounce = true
      · exact ⟨[Call.createRequestGroup (ops.getAnnounceUrl w.btAnnounce), Call.announceStart],
          by simp [execute, createAnnounce, hh1, hn1, hs, hr],
          by simp [List.count_cons],
          by simp [execute, createAnnounce, hh1, hn1, hs, hr, isCreateRequestGroup]⟩
      · exact ⟨[], by simp [execute, createAnnounce, hh1, hn1, hs, hr]⟩

theorem countP_isCreateRequestGroup_eq_zero (l : List Call)
    (h : ∀ c ∈ l, isCreateRequestGroup c = false ∧ c ≠ Call.announceStart) :
    l.countP isCreateRequestGroup = 0 := by
  rw [List.countP_eq_zero]
  intro c hc
  simp [(h c hc).1]

/-- The state after a step taken while the handle holds session `rg`: either
the handle still holds that session (with the halt flag set, in the halt
branch), the policy is untouched and nothing but the watcher is queued; or
the handle is null, only peer-connection commands and the watcher are
queued, and the policy is in the state the success or failure accounting
leaves it in. -/
theorem execute_state_with_session (ops : BtAnnounce π) (w : TrackerWatcherCommand π)
    (rg : RequestGroup) (hs : w.trackerRequestGroup = some rg) :
    (((execute ops w).2.trackerRequestGroup = some rg ∨
        (execute ops w).2.trackerRequestGroup = some { rg with forceHaltRequested := true }) ∧
      (execute ops w).2.btAnnounce = w.btAnnounce ∧
      (commandsOfStep ops w = [] ∨ commandsOfStep ops w = [Command.trackerWatcher w.cuid])) ∨
    ((execute ops w).2.trackerRequestGroup = none ∧
      (∀ c ∈ commandsOfStep ops w,
        c.isPeerConnection = true ∨ c = Command.trackerWatcher w.cuid) ∧
      ((∃ a peers,
          ops.processAnnounceResponse w.btAnnounce w.peerStorage (getTrackerResponse rg)
            = some (a, peers) ∧
          (execute ops w).2.btAnnounce = ops.resetAnnounce (ops.announceSuccess a)) ∨
        (execute ops w).2.btAnnounce =
          (if ops.isAllAnnounceFailed (ops.announceFailure w.btAnnounce)
            then ops.resetAnnounce (ops.announceFailure w.btAnnounce)
            else ops.announceFailure w.btAnnounce))) := by
  by_cases hh : w.requestGroup.forceHaltRequested = true
  · by_cases hc : (rg.numCommand == 0 || rg.downloadFinished) = true
    · exact Or.inl ⟨Or.inl (by simp [execute, hh, hs, hc]), by simp [execute, hh, hs, hc],
        Or.inl (by simp [commandsOfStep, execute, hh, hs, hc])⟩
    · exact Or.inl ⟨Or.inr (by simp [execute, hh, hs, hc]), by simp [execute, hh, hs, hc],
        Or.inl (by simp [commandsOfStep, execute, hh, hs, hc])⟩
  · have hh1 : w.requestGroup.forceHaltRequested = false := by simpa using hh
    by_cases hn : ops.noMoreAnnounce w.btAnnounce = true
    · exact Or.inl ⟨Or.inl (by simp [execute, hh1, hs, hn]), by simp [execute, hh1, hs, hn],
        Or.inl (by simp [commandsOfStep, execute, hh1, hs, hn])⟩
    · have hn1 : ops.noMoreAnnounce w.btAnnounce = false := by simpa using hn
      by_cases hf : rg.downloadFinished = true
      · refine Or.inr ?_
        simp only [commandsOfStep, execute_finished_eq ops w rg hh1 hn1 hs hf]
        cases hp : ops.processAnnounceResponse w.btAnnounce w.peerStorage
            (getTrackerResponse rg) with
        | some r =>
          obtain ⟨a, peers⟩ := r
          obtain ⟨w1, cmds, ids, h1, h2, h3, -, -, -, h7, -, -, -⟩ :=
            processTrackerResponse_parsed ops
              { w with calls := w.calls ++ [Call.processAnnounceResponse] } _ a peers hp
          simp only [h1, h2]
          refine ⟨trivial, ?_, Or.inl ⟨a, peers, rfl, by rw [h7]⟩⟩
          intro c hc
          simp only [List.append_assoc, List.drop_left, List.mem_append,
            List.mem_singleton] at hc
          rcases hc with hc | hc
          · exact Or.inl (h3 c hc)
          · exact Or.inr hc
        | none =>
          have h := processTrackerResponse_raised ops
            { w with calls := w.calls ++ [Call.processAnnounceResponse] } _ hp
          simp only [h]
          by_cases ha : ops.isAllAnnounceFailed (ops.announceFailure w.btAnnounce) = true
          · simp [ha]
          · simp [ha]
      · have hf1 : rg.downloadFinished = false := by simpa using hf
        by_cases hz : rg.numCommand = 0
        · refine Or.inr ?_
          simp only [commandsOfStep, execute_failed_eq ops w rg hh1 hn1 hs hz hf1]
          by_cases ha : ops.isAllAnnounceFailed (ops.announceFailure w.btAnnounce) = true
          · simp [ha]
          · simp [ha]
        · exact Or.inl ⟨Or.inl (by simp [execute, hh1, hn1, hs, hf1, hz]),
            by simp [execute, hh1, hn1, hs, hf1, hz],
            Or.inr (by simp [commandsOfStep, execute, hh1, hn1, hs, hf1, hz])⟩

/-- The state after a step taken while the handle is null: either it is
still null, the policy is untouched and nothing but the watcher is queued;
or (download not halted, announces permitted, policy ready) the handle holds
the one session `createRequestGroup` built for the announce URL, the policy
is in the state `announceStart` leaves it in, and the initial command of
that session and then the watcher are queued. -/
theorem execute_state_without_session (ops : BtAnnounce π) (w : TrackerWatcherCommand π)
    (hs : w.trackerRequestGroup = none) :
    ((execute ops w).2.trackerRequestGroup = none ∧
      (execute ops w).2.btAnnounce = w.btAnnounce ∧
      (commandsOfStep ops w = [] ∨ commandsOfStep ops w = [Command.trackerWatcher w.cuid])) ∨
    (w.requestGroup.forceHaltRequested = false ∧
      ops.noMoreAnnounce w.btAnnounce = false ∧
      ops.isAnnounceReady w.btAnnounce = true ∧
      (execute ops w).2.trackerRequestGroup =
        some (createRequestGroup (ops.getAnnounceUrl w.btAnnounce)) ∧
      (execute ops w).2.btAnnounce = ops.announceStart w.btAnnounce ∧
      commandsOfStep ops w =
        createInitialCommand (createRequestGroup (ops.getAnnounceUrl w.btAnnounce)) ++
          [Command.trackerWatcher w.cuid]) := by
  by_cases hh : w.requestGroup.forceHaltRequested = true
  · exact Or.inl ⟨by simp [execute, hh, hs], by simp [execute, hh, hs],
      Or.inl (by simp [commandsOfStep, execute, hh, hs])⟩
  · have hh1 : w.requestGroup.forceHaltRequested = false := by simpa using hh
    by_cases hn : ops.noMoreAnnounce w.btAnnounce = true
    · exact Or.inl ⟨by simp [execute, hh1, hs, hn], by simp [execute, hh1, hs, hn],
        Or.inl (by simp [commandsOfStep, execute, hh1, hs, hn])⟩
    · have hn1 : ops.noMoreAnnounce w.btAnnounce = false := by simpa using hn
      by_cases hr : ops.isAnnounceReady w.btAnnounce = true
      · exact Or.inr ⟨hh1, hn1, hr,
          by simp [execute, createAnnounce, hh1, hn1, hs, hr],
          by simp [execute, createAnnounce, hh1, hn1, hs, hr],
          by simp [commandsOfStep, execute, createAnnounce, hh1, hn1, hs, hr]⟩
      · exact Or.inl ⟨by simp [execute, createAnnounce, hh1, hn1, hs, hr],
          by simp [execute, createAnnounce, hh1, hn1, hs, hr],
          Or.inr (by simp [commandsOfStep, execute, createAnnounce, hh1, hn1, hs, hr])⟩

/-- C6: in every state the watcher gets into, the sessions it has created
and not yet released (calls of `createRequestGroup` minus calls of `reset`
on the handle) number one when the handle holds a session and zero when it
is null; a step taken while the handle holds a session calls neither
`createRequestGroup` nor `announceStart`; and no step creates more than one
session.  On the state itself: after a step taken while the handle holds a
session, the handle is null or holds that same session (with its halt flag
set in the halt branch), never another one; if it still holds it the policy
is untouched and at most the watcher is queued; if it is null only
peer-connection commands and the watcher are queued and the policy is in the
state the success or failure accounting leaves, so `announceStart` was not
applied and no initial command of a session was queued.  After a step taken
while the handle is null, it is null with the policy untouched, or it holds
the one session built for the announce URL, with `announceStart` applied
once and the initial command of that session queued before the watcher. -/
theorem session_exclusive (ops : BtAnnounce π) (w : TrackerWatcherCommand π)
    (hr : Reachable ops w) :
    w.calls.countP isCreateRequestGroup =
      w.calls.count Call.sessionReset + (if w.trackerRequestGroup.isSome then 1 else 0) ∧
    (w.trackerRequestGroup.isSome = true →
      ∀ c ∈ callsOfStep ops w, isCreateRequestGroup c = false ∧ c ≠ Call.announceStart) ∧
    (callsOfStep ops w).countP isCreateRequestGroup ≤ 1 ∧
    (∀ rg, w.trackerRequestGroup = some rg →
      (((execute ops w).2.trackerRequestGroup = some rg ∨
          (execute ops w).2.trackerRequestGroup =
            some { rg with forceHaltRequested := true }) ∧
        (execute ops w).2.btAnnounce = w.btAnnounce ∧
        (commandsOfStep ops w = [] ∨
          commandsOfStep ops w = [Command.trackerWatcher w.cuid])) ∨
      ((execute ops w).2.trackerRequestGroup = none ∧
        (∀ c ∈ commandsOfStep ops w,
          c.isPeerConnection = true ∨ c = Command.trackerWatcher w.cuid) ∧
        ((∃ a peers,
            ops.processAnnounceResponse w.btAnnounce w.peerStorage (getTrackerResponse rg)
              = some (a, peers) ∧
            (execute ops w).2.btAnnounce = ops.resetAnnounce (ops.announceSuccess a)) ∨
          (execute ops w).2.btAnnounce =
            (if ops.isAllAnnounceFailed (ops.announceFailure w.btAnnounce)
              then ops.resetAnnounce (ops.announceFailure w.btAnnounce)
              else ops.announceFailure w.btAnnounce)))) ∧
    (w.trackerRequestGroup = none →
      ((execute ops w).2.trackerRequestGroup = none ∧
        (execute ops w).2.btAnnounce = w.btAnnounce ∧
        (commandsOfStep ops w = [] ∨
          commandsOfStep ops w = [Command.trackerWatcher w.cuid])) ∨
      (w.requestGroup.forceHaltRequested = false ∧
        ops.noMoreAnnounce w.btAnnounce = false ∧
        ops.isAnnounceReady w.btAnnounce = true ∧
        (execute ops w).2.trackerRequestGroup =
          some (createRequestGroup (ops.getAnnounceUrl w.btAnnounce)) ∧
        (execute ops w).2.btAnnounce = ops.announceStart w.btAnnounce ∧
        commandsOfStep ops w =
          createInitialCommand (createRequestGroup (ops.getAnnounceUrl w.btAnnounce)) ++
            [Command.trackerWatcher w.cuid])) := by
  refine ⟨?_, ?_, ?_, fun rg hs => execute_state_with_session ops w rg hs,
    fun hs => execute_state_without_session ops w hs⟩
  · induction hr with
    | init w hs hc => simp [hs, hc]
    | step w _ ih =>
      cases hs : w.trackerRequestGroup with
      | none =>
        obtain ⟨l, h1, h2, h3⟩ := execute_without_session ops w hs
        rw [hs] at ih
        simp only [h1, List.countP_append, List.count_append, h2, h3]
        simp only [Option.isSome_none, Bool.false_eq_true, if_false] at ih
        omega
      | some rg =>
        obtain ⟨l, h1, h2, h3⟩ := execute_with_session ops w rg hs
        have h4 := countP_isCreateRequestGroup_eq_zero l h2
        rw [hs] at ih
        simp only [h1, List.countP_append, List.count_append, h3, h4]
        simp only [Option.isSome_some, if_true] at ih
        split <;> omega
    | others w w1 _ hc hs ih => rw [hc, hs]; exact ih
  · intro hs
    obtain ⟨rg, hrg⟩ := Option.isSome_iff_exists.mp hs
    obtain ⟨l, h1, h2, -⟩ := execute_with_session ops w rg hrg
    simpa [callsOfStep, h1] using h2
  · cases hs : w.trackerRequestGroup with
    | none =>
      obtain ⟨l, h1, -, h3⟩ := execute_without_session ops w hs
      simp only [callsOfStep, h1, List.drop_left, h3]
      split <;> omega
    | some rg =>
      obtain ⟨l, h1, h2, -⟩ := execute_with_session ops w rg hs
      simp only [callsOfStep, h1, List.drop_left,
        countP_isCreateRequestGroup_eq_zero l h2]
      omega

/-- C6 (witness): the state after the first step of a fresh watcher is
reachable and holds exactly the one session it created; in a reachable state
with a running session the next step keeps that session and leaves the
policy alone. -/
theorem session_exclusive_witness :
    Reachable counterPolicy (execute counterPolicy (watching false none)).2 ∧
    (execute counterPolicy (watching false none)).2.calls.countP isCreateRequestGroup =
      (execute counterPolicy (watching false none)).2.calls.count Call.sessionReset +
        (if (execute counterPolicy (watching false none)).2.trackerRequestGroup.isSome
          then 1 else 0) ∧
    Reachable counterPolicy sessionRunning ∧
    sessionRunning.trackerRequestGroup = some runningSession ∧
    (execute counterPolicy sessionRunning).2.trackerRequestGroup = some runningSession ∧
    (execute counterPolicy sessionRunning).2.btAnnounce = sessionRunning.btAnnounce ∧
    commandsOfStep counterPolicy sessionRunning = [Command.trackerWatcher 7] := by
  have hr : Reachable counterPolicy sessionRunning :=
    Reachable.others _ _ (Reachable.step _ (Reachable.init (watching false none) rfl rfl))
      rfl rfl
  refine ⟨Reachable.step _ (Reachable.init _ rfl rfl),
    (session_exclusive counterPolicy (execute counterPolicy (watching false none)).2
      (Reachable.step _ (Reachable.init _ rfl rfl))).1, hr, rfl, ?_⟩
  rcases (session_exclusive counterPolicy sessionRunning hr).2.2.2.1 runningSession rfl with
    ⟨h1, h2, h3⟩ | ⟨h1, -, -⟩
  · refine ⟨?_, h2, ?_⟩
    · rcases h1 with h1 | h1
      · exact h1
      · exact absurd h1 (by decide)
    · rcases h3 with h3 | h3
      · exact absurd h3 (by decide)
      · exact h3
  · exact absurd h1 (by decide)

end TrackerWatcherCommand


namespace DHTEntryPointNameResolveCommand

/-- C4: for a hostname the cache holds (`find` gives a non-empty address,
which is the test the code makes) and any resolver state, `resolveHostname`
returns true, makes no call of the engine `resolve` and leaves its status
and its outstanding queries alone, the address the resolver then yields is
the cached one, the cache is unchanged, and calling it again gives the same
result and the same state. -/
theorem resolveHostname_cached (env : DHTEnv) (hostname : String)
    (s : DHTEntryPointNameResolveCommand) (hc : s.dnsCache.find hostname ≠ "") :
    (resolveHostname env hostname s).1 = some true ∧
    (resolveHostname env hostname s).2.resolveLog = s.resolveLog ∧
    (resolveHostname env hostname s).2.resolver.asked = s.resolver.asked ∧
    (resolveHostname env hostname s).2.resolver.status = s.resolver.status ∧
    (resolveHostname env hostname s).2.resolver.getAddrString = s.dnsCache.find hostname ∧
    (resolveHostname env hostname s).2.dnsCache = s.dnsCache ∧
    resolveHostname env hostname (resolveHostname env hostname s).2
      = resolveHostname env hostname s := by
  have h1 : resolveHostname env hostname s
      = (some true, { s with resolver := s.resolver.setAddr (s.dnsCache.find hostname) }) := by
    simp [resolveHostname, hc]
  have h2 : resolveHostname env hostname
      { s with resolver := s.resolver.setAddr (s.dnsCache.find hostname) }
      = (some true, { s with resolver := s.resolver.setAddr (s.dnsCache.find hostname) }) := by
    simp [resolveHostname, hc, NameResolver.setAddr]
  rw [h1]
  refine ⟨rfl, rfl, rfl, rfl, rfl, rfl, ?_⟩
  simp only [h2]

/-- C4 (witness): a cached hostname, with the resolver in the error state. -/
theorem resolveHostname_cached_witness :
    DNSCache.find [("dht.example.org", "192.0.2.7")] "dht.example.org" ≠ "" ∧
    (resolveHostname (demoEnv true (fun _ => false)) "dht.example.org"
      { start [("dht.example.org", 6881)] [("dht.example.org", "192.0.2.7")] with
        resolver := { NameResolver.fresh with status := Status.error } }).1 = some true :=
  ⟨by decide,
   (resolveHostname_cached (demoEnv true (fun _ => false)) "dht.example.org"
      { start [("dht.example.org", 6881)] [("dht.example.org", "192.0.2.7")] with
        resolver := { NameResolver.fresh with status := Status.error } } (by decide)).1⟩

/-- C10 (evaluation at the failing input): the task queue raises for the
ping task of the first entry, a literal address.  The entry was already
erased when the handler runs, so the handler erases the second entry, which
was never looked at: the step returns true with the list empty, one resolved
entry, no ping task and no query made for `dht.example.org`.  With the
literal as the only entry the handler erases from an empty deque. -/
theorem execute_ping_raise_drops_next_entry :
    execute pingRaisesEnv (start [("192.0.2.5", 6881), ("dht.example.org", 6881)] []) =
      Outcome.returned true
        { start [] [] with resolvedEntryPoints := [("192.0.2.5", 6881)] } ∧
    execute pingRaisesEnv (start [("192.0.2.5", 6881)] []) =
      Outcome.undefinedBehaviour
        { start [] [] with resolvedEntryPoints := [("192.0.2.5", 6881)] } := by
  decide

/-! ### Shape of a round of the loop body -/

theorem bodyExit_holds_imp {p q r p1 q1 r1 : DHTEntryPointNameResolveCommand → Prop}
    {x : BodyExit} (h : x.Holds p q r) (hp : ∀ s, p s → p1 s) (hq : ∀ s, q s → q1 s)
    (hr : ∀ s, r s → r1 s) : x.Holds p1 q1 r1 := by
  cases x with
  | next s => exact hp s h
  | requeued s => exact hq s h
  | eraseOnEmpty s => exact hr s h

theorem loopExit_holds_imp {p q r p1 q1 r1 : DHTEntryPointNameResolveCommand → Prop}
    {x : LoopExit} (h : x.Holds p q r) (hp : ∀ s, p s → p1 s) (hq : ∀ s, q s → q1 s)
    (hr : ∀ s, r s → r1 s) : x.Holds p1 q1 r1 := by
  cases x with
  | emptied s => exact hp s h
  | requeued s => exact hq s h
  | eraseOnEmpty s => exact hr s h
  | outOfFuel => trivial

theorem bodyExit_holds_next (p q r : DHTEntryPointNameResolveCommand → Prop)
    (s : DHTEntryPointNameResolveCommand) : (BodyExit.next s).Holds p q r = p s := rfl

/-- The handler either goes on after erasing the front entry and resetting
the resolver, or finds the deque empty. -/
theorem afterRaise_spec (s : DHTEntryPointNameResolveCommand) :
    (afterRaise s).Holds
      (fun s1 => s1 = { s with entryPoints := s.entryPoints.tail,
                               resolver := s.resolver.reset } ∧ s.entryPoints ≠ [])
      (fun _ => False)
      (fun s1 => s1 = s ∧ s.entryPoints = []) := by
  unfold afterRaise catchEntry
  cases h : s.entryPoints with
  | nil => simp [BodyExit.Holds]
  | cons e rest => simp [BodyExit.Holds]

/-- What `moveToResolved` does: it appends `p`, erases the front entry and then
either adds the ping task, or (the task raising) runs the handler on what is left. -/
theorem moveToResolved_spec (env : DHTEnv) (p : String × Nat)
    (s : DHTEntryPointNameResolveCommand) :
    (moveToResolved env p s).Holds
      (fun s1 =>
        (env.taskRaises (DHTTask.ping p.1 p.2 10) = false ∧
          s1 = { s with resolvedEntryPoints := s.resolvedEntryPoints ++ [p],
                        entryPoints := s.entryPoints.tail,
                        taskQueue := s.taskQueue ++ [DHTTask.ping p.1 p.2 10] }) ∨
        (env.taskRaises (DHTTask.ping p.1 p.2 10) = true ∧ s.entryPoints.tail ≠ [] ∧
          s1 = { s with resolvedEntryPoints := s.resolvedEntryPoints ++ [p],
                        entryPoints := s.entryPoints.tail.tail,
                        resolver := s.resolver.reset }))
      (fun _ => False)
      (fun s1 =>
        env.taskRaises (DHTTask.ping p.1 p.2 10) = true ∧ s.entryPoints.tail = [] ∧
          s1 = { s with resolvedEntryPoints := s.resolvedEntryPoints ++ [p],
                        entryPoints := s.entryPoints.tail }) := by
  unfold moveToResolved
  simp only [addPingTask, addPeriodicTask1]
  by_cases ht : env.taskRaises (DHTTask.ping p.1 p.2 10) = true
  · simp only [ht, if_true]
    refine bodyExit_holds_imp (afterRaise_spec _) ?_ (fun _ h => h) ?_
    · intro s1 h
      exact Or.inr ⟨trivial, h.2, h.1⟩
    · intro s1 h
      exact ⟨trivial, h.2, h.1⟩
  · have ht1 : env.taskRaises (DHTTask.ping p.1 p.2 10) = false := by simpa using ht
    simp [ht1, BodyExit.Holds]

/-- Frame of `resolveHostname`: it touches only the resolver, the cache, the
registration with the engine and the log of its calls. -/
theorem resolveHostname_frame (env : DHTEnv) (hostname : String)
    (s : DHTEntryPointNameResolveCommand) :
    (resolveHostname env hostname s).2.entryPoints = s.entryPoints ∧
    (resolveHostname env hostname s).2.resolvedEntryPoints = s.resolvedEntryPoints ∧
    (resolveHostname env hostname s).2.taskQueue = s.taskQueue ∧
    (resolveHostname env hostname s).2.commands = s.commands ∧
    (resolveHostname env hostname s).2.cuid = s.cuid ∧
    (resolveHostname env hostname s).2.bootstrapEnabled = s.bootstrapEnabled ∧
    (resolveHostname env hostname s).2.localNodeID = s.localNodeID := by
  by_cases hc : s.dnsCache.find hostname = ""
  · by_cases ha : env.asyncDns = true
    · cases hst : s.resolver.status <;>
        simp [resolveHostname, hc, ha, NameResolver.getStatus, hst]
    · cases hl : env.lookup hostname <;>
        simp [resolveHostname, hc, ha, NameResolver.resolveSync, hl]
  · simp [resolveHostname, hc]

/-- A round of the loop body that lets the loop go on has erased at least
one entry. -/
theorem loopBody_shrinks (env : DHTEnv) (s : DHTEntryPointNameResolveCommand)
    (front : String × Nat) (hne : s.entryPoints ≠ []) :
    (loopBody env s front).Holds
      (fun s1 => s1.entryPoints.length < s.entryPoints.length)
      (fun _ => True) (fun _ => True) := by
  have hpos : 0 < s.entryPoints.length := List.length_pos.mpr hne
  have hmove : ∀ (p : String × Nat) (s0 : DHTEntryPointNameResolveCommand),
      s0.entryPoints = s.entryPoints →
      (moveToResolved env p s0).Holds
        (fun s1 => s1.entryPoints.length < s.entryPoints.length)
        (fun _ => True) (fun _ => True) := by
    intro p s0 h0
    refine bodyExit_holds_imp (moveToResolved_spec env p s0) ?_ (fun _ _ => trivial)
      (fun _ _ => trivial)
    rintro s1 (⟨-, rfl⟩ | ⟨-, -, rfl⟩)
    · simp only [h0, List.length_tail]; omega
    · simp only [h0, List.length_tail]; omega
  have hraise : ∀ s0 : DHTEntryPointNameResolveCommand,
      s0.entryPoints = s.entryPoints →
      (afterRaise s0).Holds
        (fun s1 => s1.entryPoints.length < s.entryPoints.length)
        (fun _ => True) (fun _ => True) := by
    intro s0 h0
    refine bodyExit_holds_imp (afterRaise_spec s0) ?_ (fun _ _ => trivial) (fun _ _ => trivial)
    rintro s1 ⟨rfl, -⟩
    simp only [h0, List.length_tail]; omega
  unfold loopBody
  by_cases hl : env.isNumbersAndDotsNotation front.1 = true
  · simp only [hl, if_true]
    exact hmove _ s rfl
  · simp only [hl]
    have hep := (resolveHostname_frame env front.1 s).1
    rcases hr : resolveHostname env front.1 s with ⟨r, s1⟩
    rw [hr] at hep
    simp only at hep
    rcases r with _ | _ | _
    · exact hraise s1 hep
    · trivial
    · exact hmove _ _ hep

/-- The loop never runs out of fuel when started with as much fuel as there
are entries. -/
theorem whileEntryPoints_fuel (env : DHTEnv) (fuel : Nat)
    (s : DHTEntryPointNameResolveCommand) (h : s.entryPoints.length ≤ fuel) :
    whileEntryPoints env fuel s ≠ LoopExit.outOfFuel := by
  induction fuel generalizing s with
  | zero =>
    have : s.entryPoints = [] := List.length_eq_zero.mp (Nat.le_zero.mp h)
    simp [whileEntryPoints, this]
  | succ n ih =>
    unfold whileEntryPoints
    cases hs : s.entryPoints with
    | nil => simp
    | cons front rest =>
      simp only []
      have hb := loopBody_shrinks env s front (by simp [hs])
      cases hbody : loopBody env s front with
      | next s1 =>
        rw [hbody] at hb
        simp only [BodyExit.Holds, hs, List.length_cons] at hb
        simp only []
        apply ih
        rw [hs] at h
        simp only [List.length_cons] at h
        omega
      | requeued s1 => simp
      | eraseOnEmpty s1 => simp

/-! ### At most one query pending -/

theorem atMostOnePending_reset (r : NameResolver) : AtMostOnePending r.reset := by
  simp [AtMostOnePending, NameResolver.reset]

theorem afterRaise_resolver (s : DHTEntryPointNameResolveCommand)
    (hi : AtMostOnePending s.resolver) :
    (afterRaise s).Holds
      (fun s1 => s1.resolveLog = s.resolveLog ∧ AtMostOnePending s1.resolver)
      (fun _ => False)
      (fun s1 => s1.resolveLog = s.resolveLog ∧ AtMostOnePending s1.resolver) := by
  refine bodyExit_holds_imp (afterRaise_spec s) ?_ (fun _ h => h) ?_
  · rintro s1 ⟨rfl, -⟩
    exact ⟨rfl, atMostOnePending_reset _⟩
  · rintro s1 ⟨rfl, -⟩
    exact ⟨rfl, hi⟩

theorem moveToResolved_resolver (env : DHTEnv) (p : String × Nat)
    (s : DHTEntryPointNameResolveCommand) (hi : AtMostOnePending s.resolver) :
    (moveToResolved env p s).Holds
      (fun s1 => s1.resolveLog = s.resolveLog ∧ AtMostOnePending s1.resolver)
      (fun _ => False)
      (fun s1 => s1.resolveLog = s.resolveLog ∧ AtMostOnePending s1.resolver) := by
  refine bodyExit_holds_imp (moveToResolved_spec env p s) ?_ (fun _ h => h) ?_
  · rintro s1 (⟨-, rfl⟩ | ⟨-, -, rfl⟩)
    · exact ⟨rfl, hi⟩
    · exact ⟨rfl, atMostOnePending_reset _⟩
  · rintro s1 ⟨-, -, rfl⟩
    exact ⟨rfl, hi⟩

/-- One round of the loop body in the build with asynchronous DNS: it calls
the engine `resolve` at most once, only with the resolver Ready, and then
requeues at once with exactly that query outstanding. -/
theorem loopBody_resolve (env : DHTEnv) (ha : env.asyncDns = true)
    (s : DHTEntryPointNameResolveCommand) (front : String × Nat)
    (hi : AtMostOnePending s.resolver) :
    (loopBody env s front).Holds
      (fun s1 => s1.resolveLog = s.resolveLog ∧ AtMostOnePending s1.resolver)
      (fun s1 => AtMostOnePending s1.resolver ∧
        s1.resolver.status = Status.inProgress ∧
        ((s1.resolveLog = s.resolveLog ∧ s1.resolver = s.resolver) ∨
          (s1.resolveLog = s.resolveLog ++ [(front.1, Status.ready)] ∧
            s.resolver.status = Status.ready ∧ s1.resolver.asked = [front.1])))
      (fun s1 => s1.resolveLog = s.resolveLog ∧ AtMostOnePending s1.resolver) := by
  unfold loopBody
  by_cases hl : env.isNumbersAndDotsNotation front.1 = true
  · simp only [hl, if_true]
    exact bodyExit_holds_imp (moveToResolved_resolver env _ s hi) (fun _ h => h) (fun _ h => h.elim)
      (fun _ h => h)
  · simp only [hl]
    by_cases hc : s.dnsCache.find front.1 = ""
    · cases hst : s.resolver.status with
      | ready =>
        have hasked : s.resolver.asked = [] := hi.2 hst
        simp [resolveHostname, hc, ha, NameResolver.getStatus, hst, NameResolver.resolve,
          AtMostOnePending, hasked, BodyExit.Holds]
      | inProgress =>
        simp [resolveHostname, hc, ha, NameResolver.getStatus, hst, BodyExit.Holds]
        exact hi
      | success =>
        simp only [resolveHostname, hc, ha, NameResolver.getStatus, hst, if_true]
        exact bodyExit_holds_imp (moveToResolved_resolver env _ _ (atMostOnePending_reset _))
          (fun _ h => h) (fun _ h => h.elim) (fun _ h => h)
      | error =>
        simp only [resolveHostname, hc, ha, NameResolver.getStatus, hst, if_true]
        exact bodyExit_holds_imp (afterRaise_resolver s hi) (fun _ h => h) (fun _ h => h.elim)
          (fun _ h => h)
    · simp only [resolveHostname, hc, if_false]
      exact bodyExit_holds_imp (moveToResolved_resolver env _ _ (atMostOnePending_reset _))
        (fun _ h => h) (fun _ h => h.elim) (fun _ h => h)

theorem whileEntryPoints_resolve (env : DHTEnv) (ha : env.asyncDns = true) (fuel : Nat)
    (s : DHTEntryPointNameResolveCommand) (hi : AtMostOnePending s.resolver) :
    (whileEntryPoints env fuel s).Holds
      (fun s1 => s1.resolveLog = s.resolveLog ∧ AtMostOnePending s1.resolver)
      (fun s1 => AtMostOnePending s1.resolver ∧
        s1.resolver.status = Status.inProgress ∧
        (s1.resolveLog = s.resolveLog ∨
          ∃ hostname, s1.resolveLog = s.resolveLog ++ [(hostname, Status.ready)] ∧
            s1.resolver.asked = [hostname]))
      (fun s1 => s1.resolveLog = s.resolveLog ∧ AtMostOnePending s1.resolver) := by
  induction fuel generalizing s with
  | zero =>
    unfold whileEntryPoints
    cases s.entryPoints with
    | nil => exact ⟨rfl, hi⟩
    | cons e rest => trivial
  | succ n ih =>
    unfold whileEntryPoints
    cases hs : s.entryPoints with
    | nil => exact ⟨rfl, hi⟩
    | cons front rest =>
      simp only []
      have hb := loopBody_resolve env ha s front hi
      cases hbody : loopBody env s front with
      | next s1 =>
        rw [hbody] at hb
        obtain ⟨hlog, hi1⟩ := hb
        simp only []
        rw [← hlog]
        exact ih s1 hi1
      | requeued s1 =>
        rw [hbody] at hb
        obtain ⟨h1, h2, h3⟩ := hb
        refine ⟨h1, h2, ?_⟩
        rcases h3 with ⟨h3, -⟩ | ⟨h3, -, h4⟩
        · exact Or.inl h3
        · exact Or.inr ⟨front.1, h3, h4⟩
      | eraseOnEmpty s1 =>
        rw [hbody] at hb
        exact hb

/-- The bootstrap tasks only extend the task queue. -/
theorem addBootstrapTasks_frame (env : DHTEnv) (s : DHTEntryPointNameResolveCommand) :
    ∃ tasks : List DHTTask,
      addBootstrapTasks env s = { s with taskQueue := s.taskQueue ++ tasks } := by
  unfold addBootstrapTasks addPeriodicTask1
  by_cases hb : (s.bootstrapEnabled && s.resolvedEntryPoints.length != 0) = true
  · by_cases h1 : env.taskRaises (DHTTask.nodeLookup s.localNodeID) = true
    · exact ⟨[], by simp [hb, h1]⟩
    · by_cases h2 : env.taskRaises DHTTask.bucketRefresh = true
      · exact ⟨[DHTTask.nodeLookup s.localNodeID], by simp [hb, h1, h2]⟩
      · exact ⟨[DHTTask.nodeLookup s.localNodeID, DHTTask.bucketRefresh],
          by simp [hb, h1, h2]⟩
  · exact ⟨[], by simp [hb]⟩

/-- One call of `execute` in the build with asynchronous DNS, from a state
with at most one query pending. -/
theorem execute_resolve (env : DHTEnv) (ha : env.asyncDns = true)
    (s : DHTEntryPointNameResolveCommand) (hi : AtMostOnePending s.resolver) :
    execute env s ≠ Outcome.outOfFuel ∧
    ∀ s1, (execute env s).state? = some s1 →
      AtMostOnePending s1.resolver ∧
      (resolveCalls s s1 = [] ∨
        ∃ hostname, resolveCalls s s1 = [(hostname, Status.ready)] ∧
          execute env s = Outcome.returned false s1 ∧
          s1.resolver.status = Status.inProgress ∧ s1.resolver.asked = [hostname]) := by
  unfold execute
  by_cases hh : (s.downloadFinished || s.haltRequested) = true
  · rw [if_pos hh]
    refine ⟨by simp, ?_⟩
    intro s1 h1
    simp only [Outcome.state?, Option.some.injEq] at h1
    subst h1
    exact ⟨hi, Or.inl (by simp [resolveCalls])⟩
  · rw [if_neg hh]
    have hloop := whileEntryPoints_resolve env ha s.entryPoints.length s hi
    have hfuel := whileEntryPoints_fuel env s.entryPoints.length s (Nat.le_refl _)
    cases hw : whileEntryPoints env s.entryPoints.length s with
    | outOfFuel => exact absurd hw hfuel
    | emptied s2 =>
      rw [hw] at hloop
      obtain ⟨hlog, hi2⟩ := hloop
      obtain ⟨tasks, ht⟩ := addBootstrapTasks_frame env s2
      refine ⟨by simp, ?_⟩
      intro s1 h1
      simp only [Outcome.state?, Option.some.injEq] at h1
      subst h1
      rw [ht]
      exact ⟨hi2, Or.inl (by simp [resolveCalls, hlog])⟩
    | eraseOnEmpty s2 =>
      rw [hw] at hloop
      obtain ⟨hlog, hi2⟩ := hloop
      refine ⟨by simp, ?_⟩
      intro s1 h1
      simp only [Outcome.state?, Option.some.injEq] at h1
      subst h1
      exact ⟨hi2, Or.inl (by simp [resolveCalls, hlog])⟩
    | requeued s2 =>
      rw [hw] at hloop
      obtain ⟨hi2, hst, hlog⟩ := hloop
      refine ⟨by simp, ?_⟩
      intro s1 h1
      simp only [Outcome.state?, Option.some.injEq] at h1
      subst h1
      refine ⟨hi2, ?_⟩
      rcases hlog with hlog | ⟨hostname, hlog, hasked⟩
      · exact Or.inl (by simp [resolveCalls, hlog])
      · exact Or.inr ⟨hostname, by simp [resolveCalls, hlog], rfl, hst, hasked⟩

theorem atMostOnePending_complete (r : NameResolver) (answer : Option String)
    (hi : AtMostOnePending r) : AtMostOnePending (r.complete answer) := by
  unfold NameResolver.complete
  cases hst : r.status with
  | inProgress => cases answer <;> simp [AtMostOnePending, hi.1]
  | ready => simpa [hst] using hi
  | success => simpa [hst] using hi
  | error => simpa [hst] using hi

/-- C5: in the build with asynchronous DNS, every state the command gets
into has at most one query outstanding at the engine (none when the resolver
is Ready); a step always has a result, and it calls the engine `resolve` at
most once, only with the resolver Ready, and when it does it returns false
with that one query in progress. -/
theorem at_most_one_pending (env : DHTEnv) (ha : env.asyncDns = true)
    (s : DHTEntryPointNameResolveCommand) (hr : Reachable env s) :
    AtMostOnePending s.resolver ∧
    execute env s ≠ Outcome.outOfFuel ∧
    ∀ s1, (execute env s).state? = some s1 →
      AtMostOnePending s1.resolver ∧
      (resolveCalls s s1 = [] ∨
        ∃ hostname, resolveCalls s s1 = [(hostname, Status.ready)] ∧
          execute env s = Outcome.returned false s1 ∧
          s1.resolver.status = Status.inProgress ∧ s1.resolver.asked = [hostname]) := by
  have hinv : AtMostOnePending s.resolver := by
    induction hr with
    | init s hf _ => rw [hf]; simp [AtMostOnePending, NameResolver.fresh]
    | step s s1 result _ hstep ih =>
      exact ((execute_resolve env ha s ih).2 s1 (by simp [hstep, Outcome.state?])).1
    | answered s answer _ ih => exact atMostOnePending_complete _ _ ih
    | others s s1 _ hres _ ih => rw [hres]; exact ih
  exact ⟨hinv, execute_resolve env ha s hinv⟩

/-- C5 (witness): the command constructed for one hostname. -/
theorem at_most_one_pending_witness :
    (demoEnv true (fun _ => false)).asyncDns = true ∧
    Reachable (demoEnv true (fun _ => false)) (start [("dht.example.org", 6881)] []) ∧
    AtMostOnePending (start [("dht.example.org", 6881)] []).resolver ∧
    execute (demoEnv true (fun _ => false)) (start [("dht.example.org", 6881)] [])
      ≠ Outcome.outOfFuel :=
  ⟨rfl, Reachable.init _ rfl rfl,
   (at_most_one_pending (demoEnv true (fun _ => false)) rfl
      (start [("dht.example.org", 6881)] []) (Reachable.init _ rfl rfl)).1,
   (at_most_one_pending (demoEnv true (fun _ => false)) rfl
      (start [("dht.example.org", 6881)] []) (Reachable.init _ rfl rfl)).2.1⟩

/-! ### The loop body, case by case, when no ping task raises -/

theorem moveToResolved_eq (env : DHTEnv) (p : String × Nat)
    (s : DHTEntryPointNameResolveCommand)
    (hping : env.taskRaises (DHTTask.ping p.1 p.2 10) = false) :
    moveToResolved env p s =
      BodyExit.next
        { s with resolvedEntryPoints := s.resolvedEntryPoints ++ [p],
                 entryPoints := s.entryPoints.tail,
                 taskQueue := s.taskQueue ++ [DHTTask.ping p.1 p.2 10] } := by
  simp [moveToResolved, addPingTask, addPeriodicTask1, hping]

theorem afterRaise_eq (s : DHTEntryPointNameResolveCommand) (front : String × Nat)
    (rest : List (String × Nat)) (hs : s.entryPoints = front :: rest) :
    afterRaise s =
      BodyExit.next { s with entryPoints := rest, resolver := s.resolver.reset } := by
  simp [afterRaise, catchEntry, hs]

theorem loopBody_literal (env : DHTEnv) (s : DHTEntryPointNameResolveCommand)
    (front : String × Nat)
    (hping : ∀ ip port, env.taskRaises (DHTTask.ping ip port 10) = false)
    (hl : env.isNumbersAndDotsNotation front.1 = true) :
    loopBody env s front =
      BodyExit.next
        { s with resolvedEntryPoints := s.resolvedEntryPoints ++ [front],
                 entryPoints := s.entryPoints.tail,
                 taskQueue := s.taskQueue ++ [DHTTask.ping front.1 front.2 10] } := by
  simp only [loopBody, hl, if_true]
  exact moveToResolved_eq env _ s (hping _ _)

theorem loopBody_cached (env : DHTEnv) (s : DHTEntryPointNameResolveCommand)
    (front : String × Nat)
    (hping : ∀ ip port, env.taskRaises (DHTTask.ping ip port 10) = false)
    (hl : env.isNumbersAndDotsNotation front.1 = false)
    (hc : s.dnsCache.find front.1 ≠ "") :
    loopBody env s front =
      BodyExit.next
        { s with resolver := (s.resolver.setAddr (s.dnsCache.find front.1)).reset,
                 resolvedEntryPoints :=
                   s.resolvedEntryPoints ++ [(s.dnsCache.find front.1, front.2)],
                 entryPoints := s.entryPoints.tail,
                 taskQueue := s.taskQueue ++
                   [DHTTask.ping (s.dnsCache.find front.1) front.2 10] } := by
  simp only [loopBody, hl, resolveHostname, hc, if_false, Bool.false_eq_true]
  rw [moveToResolved_eq env _ _ (hping _ _)]
  rfl

theorem loopBody_async_ready (env : DHTEnv) (s : DHTEntryPointNameResolveCommand)
    (front : String × Nat) (ha : env.asyncDns = true)
    (hl : env.isNumbersAndDotsNotation front.1 = false)
    (hc : s.dnsCache.find front.1 = "") (hst : s.resolver.status = Status.ready) :
    loopBody env s front =
      BodyExit.requeued
        { s with resolver := s.resolver.resolve front.1,
                 resolveLog := s.resolveLog ++ [(front.1, Status.ready)],
                 nameResolverCheck := true,
                 commands := s.commands ++ [Command.dhtEntryPointNameResolve s.cuid] } := by
  simp [loopBody, hl, resolveHostname, hc, ha, NameResolver.getStatus, hst]

theorem loopBody_async_inProgress (env : DHTEnv) (s : DHTEntryPointNameResolveCommand)
    (front : String × Nat) (ha : env.asyncDns = true)
    (hl : env.isNumbersAndDotsNotation front.1 = false)
    (hc : s.dnsCache.find front.1 = "") (hst : s.resolver.status = Status.inProgress) :
    loopBody env s front =
      BodyExit.requeued
        { s with commands := s.commands ++ [Command.dhtEntryPointNameResolve s.cuid] } := by
  simp [loopBody, hl, resolveHostname, hc, ha, NameResolver.getStatus, hst]

theorem loopBody_async_success (env : DHTEnv) (s : DHTEntryPointNameResolveCommand)
    (front : String × Nat) (ha : env.asyncDns = true)
    (hping : ∀ ip port, env.taskRaises (DHTTask.ping ip port 10) = false)
    (hl : env.isNumbersAndDotsNotation front.1 = false)
    (hc : s.dnsCache.find front.1 = "") (hst : s.resolver.status = Status.success) :
    loopBody env s front =
      BodyExit.next
        { s with dnsCache := s.dnsCache.put front.1 s.resolver.addr,
                 resolver := s.resolver.reset,
                 resolvedEntryPoints := s.resolvedEntryPoints ++ [(s.resolver.addr, front.2)],
                 entryPoints := s.entryPoints.tail,
                 taskQueue := s.taskQueue ++ [DHTTask.ping s.resolver.addr front.2 10] } := by
  simp only [loopBody, hl, resolveHostname, hc, ha, NameResolver.getStatus, hst, if_true,
    if_false, Bool.false_eq_true]
  rw [moveToResolved_eq env _ _ (hping _ _)]
  rfl

theorem loopBody_async_error (env : DHTEnv) (s : DHTEntryPointNameResolveCommand)
    (front : String × Nat) (rest : List (String × Nat)) (ha : env.asyncDns = true)
    (hs : s.entryPoints = front :: rest)
    (hl : env.isNumbersAndDotsNotation front.1 = false)
    (hc : s.dnsCache.find front.1 = "") (hst : s.resolver.status = Status.error) :
    loopBody env s front =
      BodyExit.next { s with entryPoints := rest, resolver := s.resolver.reset } := by
  simp only [loopBody, hl, resolveHostname, hc, ha, NameResolver.getStatus, hst, if_true,
    if_false, Bool.false_eq_true]
  exact afterRaise_eq s front rest hs

theorem loopBody_sync_answer (env : DHTEnv) (s : DHTEntryPointNameResolveCommand)
    (front : String × Nat) (ip : String) (ha : env.asyncDns = false)
    (hping : ∀ ip port, env.taskRaises (DHTTask.ping ip port 10) = false)
    (hl : env.isNumbersAndDotsNotation front.1 = false)
    (hc : s.dnsCache.find front.1 = "") (hk : env.lookup front.1 = some ip) :
    loopBody env s front =
      BodyExit.next
        { s with resolveLog := s.resolveLog ++ [(front.1, s.resolver.status)],
                 dnsCache := s.dnsCache.put front.1 ip,
                 resolver := { s.resolver with addr := ip }.reset,
                 resolvedEntryPoints := s.resolvedEntryPoints ++ [(ip, front.2)],
                 entryPoints := s.entryPoints.tail,
                 taskQueue := s.taskQueue ++ [DHTTask.ping ip front.2 10] } := by
  simp only [loopBody, hl, resolveHostname, hc, ha, NameResolver.resolveSync, hk, if_true,
    if_false, Bool.false_eq_true]
  rw [moveToResolved_eq env _ _ (hping _ _)]
  rfl

theorem loopBody_sync_raise (env : DHTEnv) (s : DHTEntryPointNameResolveCommand)
    (front : String × Nat) (rest : List (String × Nat)) (ha : env.asyncDns = false)
    (hs : s.entryPoints = front :: rest)
    (hl : env.isNumbersAndDotsNotation front.1 = false)
    (hc : s.dnsCache.find front.1 = "") (hk : env.lookup front.1 = none) :
    loopBody env s front =
      BodyExit.next
        { s with resolveLog := s.resolveLog ++ [(front.1, s.resolver.status)],
                 entryPoints := rest, resolver := s.resolver.reset } := by
  simp only [loopBody, hl, resolveHostname, hc, ha, NameResolver.resolveSync, hk, if_true,
    if_false, Bool.false_eq_true]
  exact afterRaise_eq _ front rest hs

/-! ### Bounded progress -/

theorem find_put_of_ne (c : DNSCache) (hostname ip h : String) (hne : h ≠ hostname) :
    (c.put hostname ip).find h = c.find h := by
  have hb : (h == hostname) = false := by simpa using hne
  simp [DNSCache.find, DNSCache.put, List.lookup, hb]

theorem cacheAgrees_refl (env : DHTEnv) (c : DNSCache) : CacheAgrees env c c :=
  fun _ _ => rfl

theorem cacheAgrees_put (env : DHTEnv) (c : DNSCache) (hostname ip : String)
    (hk : (env.lookup hostname).isSome = true) : CacheAgrees env c (c.put hostname ip) := by
  intro h hn
  apply find_put_of_ne
  rintro rfl
  simp [hn] at hk

theorem cacheAgrees_trans {env : DHTEnv} {c0 c1 c2 : DNSCache}
    (h1 : CacheAgrees env c0 c1) (h2 : CacheAgrees env c1 c2) : CacheAgrees env c0 c2 :=
  fun h hn => (h2 h hn).trans (h1 h hn)

theorem resolutionFails_congr (env : DHTEnv) (c0 c : DNSCache) (h : CacheAgrees env c0 c)
    (e : String × Nat) : resolutionFails env c e = resolutionFails env c0 e := by
  unfold resolutionFails
  cases hk : env.lookup e.1 with
  | none => rw [h e.1 hk]
  | some ip => simp

theorem resolvable_congr (env : DHTEnv) (c0 c : DNSCache) (h : CacheAgrees env c0 c)
    (entries : List (String × Nat)) : resolvable env c entries = resolvable env c0 entries := by
  unfold resolvable
  congr 1
  funext e
  rw [resolutionFails_congr env c0 c h e]

/-- One round of the loop body from an idle resolver, or from an answered
query for the front entry, when no ping task raises: either the front entry
is consumed and counted, or (asynchronous DNS, idle resolver, hostname not in
the cache) the query for it is issued and the command requeued. -/
theorem loopBody_progress (env : DHTEnv)
    (hping : ∀ ip port, env.taskRaises (DHTTask.ping ip port 10) = false)
    (s : DHTEntryPointNameResolveCommand) (front : String × Nat)
    (rest : List (String × Nat)) (hs : s.entryPoints = front :: rest)
    (hpre : Idle s.resolver ∨ Answered env s) :
    (loopBody env s front).Holds
      (fun s1 => s1.entryPoints = rest ∧ Idle s1.resolver ∧
        s1.resolvedEntryPoints.length = s.resolvedEntryPoints.length +
          (if resolutionFails env s.dnsCache front then 0 else 1) ∧
        CacheAgrees env s.dnsCache s1.dnsCache ∧
        s1.downloadFinished = s.downloadFinished ∧ s1.haltRequested = s.haltRequested)
      (fun s1 => Idle s.resolver ∧ env.asyncDns = true ∧
        env.isNumbersAndDotsNotation front.1 = false ∧ s.dnsCache.find front.1 = "" ∧
        s1.entryPoints = s.entryPoints ∧
        s1.resolvedEntryPoints = s.resolvedEntryPoints ∧ s1.dnsCache = s.dnsCache ∧
        s1.resolver.status = Status.inProgress ∧ s1.resolver.asked = [front.1] ∧
        s1.downloadFinished = s.downloadFinished ∧ s1.haltRequested = s.haltRequested)
      (fun _ => False) := by
  have hanswered : Answered env s →
      env.isNumbersAndDotsNotation front.1 = false ∧ s.dnsCache.find front.1 = "" ∧
      ((s.resolver.status = Status.success ∧ (env.lookup front.1).isSome = true) ∨
       (s.resolver.status = Status.error ∧ env.lookup front.1 = none)) := by
    rintro ⟨f, r, hfr, h1, h2, h3⟩
    rw [hs] at hfr
    obtain ⟨rfl, -⟩ := List.cons.inj hfr
    exact ⟨h1, h2, h3⟩
  have hidle : ∀ r : NameResolver, Idle r.reset := fun r => ⟨rfl, rfl⟩
  by_cases hl : env.isNumbersAndDotsNotation front.1 = true
  · rw [loopBody_literal env s front hping hl]
    rcases hpre with hi | ha
    · simp [BodyExit.Holds, hs, hi, resolutionFails, hl, cacheAgrees_refl]
    · rw [(hanswered ha).1] at hl
      exact absurd hl (by decide)
  · have hl1 : env.isNumbersAndDotsNotation front.1 = false := by simpa using hl
    by_cases hc : s.dnsCache.find front.1 = ""
    · by_cases ha : env.asyncDns = true
      · rcases hpre with hi | hans
        · rw [loopBody_async_ready env s front ha hl1 hc hi.1]
          simp [BodyExit.Holds, hi, ha, hl1, hc, NameResolver.resolve]
          exact hi.2
        · rcases (hanswered hans).2.2 with ⟨hst, hk⟩ | ⟨hst, hk⟩
          · rw [loopBody_async_success env s front ha hping hl1 hc hst]
            rw [bodyExit_holds_next]
            refine ⟨by simp [hs], hidle _, ?_, cacheAgrees_put env _ _ _ hk, rfl, rfl⟩
            have : resolutionFails env s.dnsCache front = false := by
              cases hk2 : env.lookup front.1 with
              | none => simp [hk2] at hk
              | some ip => simp [resolutionFails, hk2]
            simp [this]
          · rw [loopBody_async_error env s front rest ha hs hl1 hc hst]
            rw [bodyExit_holds_next]
            refine ⟨rfl, hidle _, ?_, cacheAgrees_refl _ _, rfl, rfl⟩
            simp [resolutionFails, hl1, hc, hk]
      · have ha1 : env.asyncDns = false := by simpa using ha
        cases hk : env.lookup front.1 with
        | some ip =>
          rw [loopBody_sync_answer env s front ip ha1 hping hl1 hc hk]
          rw [bodyExit_holds_next]
          refine ⟨by simp [hs], hidle _, ?_, cacheAgrees_put env _ _ _ (by simp [hk]),
            rfl, rfl⟩
          simp [resolutionFails, hk]
        | none =>
          rw [loopBody_sync_raise env s front rest ha1 hs hl1 hc hk]
          rw [bodyExit_holds_next]
          refine ⟨rfl, hidle _, ?_, cacheAgrees_refl _ _, rfl, rfl⟩
          simp [resolutionFails, hl1, hc, hk]
    · rw [loopBody_cached env s front hping hl1 hc]
      rcases hpre with hi | hans
      · rw [bodyExit_holds_next]
        refine ⟨by simp [hs], hidle _, ?_, cacheAgrees_refl _ _, rfl, rfl⟩
        simp [resolutionFails, hc]
      · exact absurd (hanswered hans).2.1 hc

theorem resolvable_cons (env : DHTEnv) (c : DNSCache) (e : String × Nat)
    (l : List (String × Nat)) :
    resolvable env c (e :: l) =
      (if resolutionFails env c e then 0 else 1) + resolvable env c l := by
  unfold resolvable
  rw [List.countP_cons]
  cases resolutionFails env c e <;> simp [Nat.add_comm]

/-- The loop from an idle resolver, or from an answered query for the front
entry, when no ping task raises: it empties the list, or it stops at a
hostname it has just issued the query for. -/
theorem whileEntryPoints_progress (env : DHTEnv)
    (hping : ∀ ip port, env.taskRaises (DHTTask.ping ip port 10) = false)
    (fuel : Nat) (s : DHTEntryPointNameResolveCommand)
    (hpre : Idle s.resolver ∨ Answered env s) :
    (whileEntryPoints env fuel s).Holds
      (fun s1 => s1.entryPoints = [] ∧
        s1.resolvedEntryPoints.length =
          s.resolvedEntryPoints.length + resolvable env s.dnsCache s.entryPoints ∧
        s1.downloadFinished = s.downloadFinished ∧ s1.haltRequested = s.haltRequested)
      (fun s1 => ∃ removed front rest,
        s.entryPoints = removed ++ front :: rest ∧ s1.entryPoints = front :: rest ∧
        s1.resolvedEntryPoints.length =
          s.resolvedEntryPoints.length + resolvable env s.dnsCache removed ∧
        CacheAgrees env s.dnsCache s1.dnsCache ∧
        env.isNumbersAndDotsNotation front.1 = false ∧ s1.dnsCache.find front.1 = "" ∧
        s1.resolver.status = Status.inProgress ∧ s1.resolver.asked = [front.1] ∧
        (Answered env s → removed ≠ []) ∧
        s1.downloadFinished = s.downloadFinished ∧ s1.haltRequested = s.haltRequested)
      (fun _ => False) := by
  induction fuel generalizing s with
  | zero =>
    unfold whileEntryPoints
    cases hs : s.entryPoints with
    | nil => simp [LoopExit.Holds, hs, resolvable]
    | cons e rest => trivial
  | succ n ih =>
    unfold whileEntryPoints
    cases hs : s.entryPoints with
    | nil => simp [LoopExit.Holds, hs, resolvable]
    | cons front rest =>
      simp only []
      have hb := loopBody_progress env hping s front rest hs hpre
      cases hbody : loopBody env s front with
      | next s1 =>
        rw [hbody] at hb
        obtain ⟨hrest, hidle, hcount, hcache, hf1, hf2⟩ := hb
        simp only []
        refine loopExit_holds_imp (ih s1 (Or.inl hidle)) ?_ ?_ (fun _ h => h)
        · rintro s2 ⟨h1, h2, h3, h4⟩
          refine ⟨h1, ?_, h3.trans hf1, h4.trans hf2⟩
          rw [h2, hcount, hrest, resolvable_congr env _ _ hcache, resolvable_cons]
          omega
        · rintro s2 ⟨removed, f, r, h1, h2, h3, h4, h5, h6, h7, h8, -, h10, h11⟩
          refine ⟨front :: removed, f, r, ?_, h2, ?_, cacheAgrees_trans hcache h4, h5, h6, h7, h8,
            fun _ => by simp, h10.trans hf1, h11.trans hf2⟩
          · rw [← hrest, h1]; rfl
          · rw [h3, hcount, resolvable_congr env _ _ hcache, resolvable_cons]
            omega
      | requeued s1 =>
        rw [hbody] at hb
        obtain ⟨hidle, -, hl, hc, hep, hres, hcache, hst, hasked, hf1, hf2⟩ := hb
        refine ⟨[], front, rest, rfl, hep.trans hs, ?_, ?_, hl, ?_, hst, hasked, ?_, hf1, hf2⟩
        · simp [hres, resolvable]
        · rw [hcache]; exact cacheAgrees_refl _ _
        · rw [hcache]; exact hc
        · rintro ⟨f, r, -, -, -, h | h⟩
          · rw [hidle.1] at h; exact absurd h.1 (by decide)
          · rw [hidle.1] at h; exact absurd h.1 (by decide)
      | eraseOnEmpty s1 =>
        rw [hbody] at hb
        exact hb.elim

/-- After a requeue at a hostname whose query is in progress, the immediate
answer of the engine leaves the command with an answered query for its front
entry, and nothing else changed. -/
theorem answerNow_answered (env : DHTEnv) (s1 : DHTEntryPointNameResolveCommand)
    (front : String × Nat) (rest : List (String × Nat))
    (hep : s1.entryPoints = front :: rest)
    (hl : env.isNumbersAndDotsNotation front.1 = false)
    (hc : s1.dnsCache.find front.1 = "")
    (hst : s1.resolver.status = Status.inProgress) (hasked : s1.resolver.asked = [front.1]) :
    Answered env (answerNow env s1) ∧
    (answerNow env s1).entryPoints = s1.entryPoints ∧
    (answerNow env s1).resolvedEntryPoints = s1.resolvedEntryPoints ∧
    (answerNow env s1).dnsCache = s1.dnsCache ∧
    (answerNow env s1).downloadFinished = s1.downloadFinished ∧
    (answerNow env s1).haltRequested = s1.haltRequested := by
  have h : answerNow env s1 =
      { s1 with resolver := s1.resolver.complete (env.lookup front.1) } := by
    simp [answerNow, hasked]
  rw [h]
  refine ⟨⟨front, rest, hep, hl, hc, ?_⟩, rfl, rfl, rfl, rfl, rfl⟩
  cases hk : env.lookup front.1 with
  | none => exact Or.inr ⟨by simp [NameResolver.complete, hst], rfl⟩
  | some ip => exact Or.inl ⟨by simp [NameResolver.complete, hst], rfl⟩

/-- Stepping a command that is not halted, with an engine that answers at
once and no ping task raising: from an idle resolver `length + 1` calls
suffice, from an answered query `length` calls. -/
theorem runUntilDone_progress (env : DHTEnv)
    (hping : ∀ ip port, env.taskRaises (DHTTask.ping ip port 10) = false)
    (fuel : Nat) (s : DHTEntryPointNameResolveCommand)
    (hrun : (s.downloadFinished || s.haltRequested) = false)
    (hpre : (Idle s.resolver ∧ s.entryPoints.length + 1 ≤ fuel) ∨
      (Answered env s ∧ s.entryPoints.length ≤ fuel)) :
    ∃ k s1, runUntilDone env fuel s = some (k, s1) ∧ k ≤ fuel ∧ s1.entryPoints = [] ∧
      s1.resolvedEntryPoints.length =
        s.resolvedEntryPoints.length + resolvable env s.dnsCache s.entryPoints := by
  induction fuel generalizing s with
  | zero =>
    rcases hpre with ⟨-, h⟩ | ⟨⟨f, r, hfr, -⟩, h⟩
    · omega
    · rw [hfr] at h; simp at h
  | succ n ih =>
    have hpre1 : Idle s.resolver ∨ Answered env s := hpre.imp (fun h => h.1) (fun h => h.1)
    have hloop := whileEntryPoints_progress env hping s.entryPoints.length s hpre1
    have hfuel := whileEntryPoints_fuel env s.entryPoints.length s (Nat.le_refl _)
    cases hw : whileEntryPoints env s.entryPoints.length s with
    | outOfFuel => exact absurd hw hfuel
    | eraseOnEmpty s1 => rw [hw] at hloop; exact hloop.elim
    | emptied s1 =>
      rw [hw] at hloop
      obtain ⟨h1, h2, -, -⟩ := hloop
      obtain ⟨tasks, ht⟩ := addBootstrapTasks_frame env s1
      have hex : execute env s = Outcome.returned true (addBootstrapTasks env s1) := by
        simp [execute, hrun, hw]
      refine ⟨1, addBootstrapTasks env s1, by simp [runUntilDone, hex], by omega, ?_, ?_⟩
      · rw [ht]; exact h1
      · rw [ht]; exact h2
    | requeued s1 =>
      rw [hw] at hloop
      obtain ⟨removed, front, rest, h1, h2, h3, h4, h5, h6, h7, h8, h9, h10, h11⟩ := hloop
      have hex : execute env s = Outcome.returned false s1 := by
        simp [execute, hrun, hw]
      obtain ⟨ha1, ha2, ha3, ha4, ha5, ha6⟩ :=
        answerNow_answered env s1 front rest h2 h5 h6 h7 h8
      have hlen : (answerNow env s1).entryPoints.length ≤ n := by
        rw [ha2, h2]
        have hl := congrArg List.length h1
        simp only [List.length_append, List.length_cons] at hl ⊢
        rcases hpre with ⟨-, hn⟩ | ⟨hans, hn⟩
        · omega
        · have := List.length_pos.mpr (h9 hans)
          omega
      have hrun1 : ((answerNow env s1).downloadFinished ||
          (answerNow env s1).haltRequested) = false := by
        rw [ha5, ha6, h10, h11]; exact hrun
      obtain ⟨k, s2, hk1, hk2, hk3, hk4⟩ := ih (answerNow env s1) hrun1 (Or.inr ⟨ha1, hlen⟩)
      refine ⟨k + 1, s2, by simp [runUntilDone, hex, hk1], by omega, hk3, ?_⟩
      rw [hk4, ha3, ha4, ha2, h2, h3, resolvable_congr env _ _ h4, h1]
      simp only [resolvable, List.countP_append]
      omega

theorem resolvable_le (env : DHTEnv) (c : DNSCache) (l : List (String × Nat)) :
    resolvable env c l ≤ l.length :=
  List.countP_le_length _

theorem resolvable_lt_iff (env : DHTEnv) (c : DNSCache) (l : List (String × Nat)) :
    resolvable env c l < l.length ↔ ∃ e ∈ l, resolutionFails env c e = true := by
  have hle := resolvable_le env c l
  have heq : resolvable env c l = l.length ↔ ∀ e ∈ l, resolutionFails env c e = false := by
    unfold resolvable
    rw [List.countP_eq_length]
    simp
  constructor
  · intro hlt
    by_contra hne
    have : ∀ e ∈ l, resolutionFails env c e = false := by
      intro e he
      cases hf : resolutionFails env c e with
      | false => rfl
      | true => exact absurd ⟨e, he, hf⟩ hne
    have := heq.mpr this
    omega
  · rintro ⟨e, he, hf⟩
    have hne : resolvable env c l ≠ l.length := by
      intro h
      have := heq.mp h e he
      rw [hf] at this
      exact absurd this (by decide)
    omega

/-- C3 (counterexample): one entry point, a hostname the engine resolves at
once, asynchronous DNS.  The first call of `execute` issues the query and
returns false, so the command has not returned true within one step; it
returns true at the second step. -/
theorem one_hostname_needs_two_steps :
    (start [("dht.example.org", 6881)] []).entryPoints.length = 1 ∧
    (runUntilDone (demoEnv true (fun _ => false)) 1
      (start [("dht.example.org", 6881)] [])) = none ∧
    (runUntilDone (demoEnv true (fun _ => false)) 2
      (start [("dht.example.org", 6881)] [])).map
        (fun r => (r.1, r.2.resolvedEntryPoints)) = some (2, [("192.0.2.7", 6881)]) := by
  decide

/-- C3 (amended): for a list of N entry points, a command that is not
halted and starts with an idle resolver, an engine that answers at once and
a task queue that takes every ping task, stepping the command makes it
return true within N + 1 calls of `execute`, with the list empty; the
resolved accumulator has then gained at most N entries, and fewer than N
exactly when the resolution of some entry fails. -/
theorem bounded_progress (env : DHTEnv)
    (hping : ∀ ip port, env.taskRaises (DHTTask.ping ip port 10) = false)
    (s : DHTEntryPointNameResolveCommand)
    (hrun : (s.downloadFinished || s.haltRequested) = false)
    (hidle : Idle s.resolver) :
    ∃ k s1, runUntilDone env (s.entryPoints.length + 1) s = some (k, s1) ∧
      k ≤ s.entryPoints.length + 1 ∧ s1.entryPoints = [] ∧
      s1.resolvedEntryPoints.length ≤ s.resolvedEntryPoints.length + s.entryPoints.length ∧
      (s1.resolvedEntryPoints.length < s.resolvedEntryPoints.length + s.entryPoints.length ↔
        ∃ e ∈ s.entryPoints, resolutionFails env s.dnsCache e = true) := by
  obtain ⟨k, s1, h1, h2, h3, h4⟩ :=
    runUntilDone_progress env hping (s.entryPoints.length + 1) s hrun
      (Or.inl ⟨hidle, Nat.le_refl _⟩)
  refine ⟨k, s1, h1, h2, h3, ?_, ?_⟩
  · have := resolvable_le env s.dnsCache s.entryPoints
    omega
  · rw [← resolvable_lt_iff, h4]
    omega

/-- C3 (witness): two hostnames, the second unknown to the engine. -/
theorem bounded_progress_witness :
    Idle (start [("dht.example.org", 6881), ("bad.invalid", 6881)] []).resolver ∧
    ∃ k s1, runUntilDone (demoEnv true (fun _ => false)) (2 + 1)
        (start [("dht.example.org", 6881), ("bad.invalid", 6881)] []) = some (k, s1) ∧
      k ≤ 2 + 1 ∧ s1.entryPoints = [] ∧
      s1.resolvedEntryPoints.length ≤ 0 + 2 ∧
      (s1.resolvedEntryPoints.length < 0 + 2 ↔
        ∃ e ∈ [("dht.example.org", 6881), ("bad.invalid", 6881)],
          resolutionFails (demoEnv true (fun _ => false)) [] e = true) :=
  ⟨⟨rfl, rfl⟩,
   bounded_progress (demoEnv true (fun _ => false)) (fun _ _ => rfl)
     (start [("dht.example.org", 6881), ("bad.invalid", 6881)] []) rfl ⟨rfl, rfl⟩⟩

end DHTEntryPointNameResolveCommand

/-! ## Tracker watcher: announce accounting and the response read -/

namespace TrackerWatcherCommand

variable {π : Type}

theorem count_newPeerCommands (ids : List Nat) (c : Call)
    (hc : ∀ id, c ≠ Call.newPeerCommand id) :
    (ids.map Call.newPeerCommand).count c = 0 := by
  rw [List.count_eq_zero]
  intro hmem
  obtain ⟨i, -, rfl⟩ := List.mem_map.mp hmem
  exact hc i rfl

theorem count_trackerWatcher_peerCommands (cmds : List Command) (cuid : Nat)
    (h : ∀ c ∈ cmds, c.isPeerConnection = true) :
    cmds.count (Command.trackerWatcher cuid) = 0 := by
  rw [List.count_eq_zero]
  intro hmem
  have := h _ hmem
  simp [Command.isPeerConnection] at this

/-- C17: a step taken with a finished session, download not halted and
announces permitted, calls exactly one of `announceSuccess` and
`announceFailure`, once.  When the response parses it calls
`announceSuccess` once and `resetAnnounce` once; when parsing raises it
calls `announceFailure` once and `resetAnnounce` once or not at all,
according to `isAllAnnounceFailed`.  The policy is left in the state these
calls produce: `resetAnnounce (announceSuccess a)` on the state `a` the
parse returned, or `announceFailure` of the state before, reset when all
announces failed.  Either way the session is cleared, the step returns false
and the watcher is the last command it queues, queued once. -/
theorem execute_finished_accounting (ops : BtAnnounce π) (w : TrackerWatcherCommand π)
    (rg : RequestGroup) (hh : w.requestGroup.forceHaltRequested = false)
    (hn : ops.noMoreAnnounce w.btAnnounce = false)
    (hs : w.trackerRequestGroup = some rg) (hf : rg.downloadFinished = true) :
    (callsOfStep ops w).count Call.announceSuccess +
      (callsOfStep ops w).count Call.announceFailure = 1 ∧
    ((ops.processAnnounceResponse w.btAnnounce w.peerStorage
        (getTrackerResponse rg)).isSome = true →
      (callsOfStep ops w).count Call.announceSuccess = 1 ∧
      (callsOfStep ops w).count Call.resetAnnounce = 1) ∧
    (ops.processAnnounceResponse w.btAnnounce w.peerStorage (getTrackerResponse rg) = none →
      (callsOfStep ops w).count Call.announceFailure = 1 ∧
      (callsOfStep ops w).count Call.resetAnnounce =
        (if ops.isAllAnnounceFailed (ops.announceFailure w.btAnnounce) then 1 else 0)) ∧
    (execute ops w).2.trackerRequestGroup = none ∧
    (execute ops w).1 = false ∧
    (commandsOfStep ops w).getLast? = some (Command.trackerWatcher w.cuid) ∧
    (commandsOfStep ops w).count (Command.trackerWatcher w.cuid) = 1 ∧
    (∀ a peers,
      ops.processAnnounceResponse w.btAnnounce w.peerStorage (getTrackerResponse rg)
        = some (a, peers) →
      (execute ops w).2.btAnnounce = ops.resetAnnounce (ops.announceSuccess a)) ∧
    (ops.processAnnounceResponse w.btAnnounce w.peerStorage (getTrackerResponse rg) = none →
      (execute ops w).2.btAnnounce =
        (if ops.isAllAnnounceFailed (ops.announceFailure w.btAnnounce)
          then ops.resetAnnounce (ops.announceFailure w.btAnnounce)
          else ops.announceFailure w.btAnnounce) ∧
      (execute ops w).2.peerStorage = w.peerStorage) := by
  simp only [callsOfStep, commandsOfStep, execute_finished_eq ops w rg hh hn hs hf]
  cases hp : ops.processAnnounceResponse w.btAnnounce w.peerStorage
      (getTrackerResponse rg) with
  | some r =>
    obtain ⟨a, peers⟩ := r
    obtain ⟨w1, cmds, ids, h1, h2, h3, -, -, h6, h7, -, -, -⟩ :=
      processTrackerResponse_parsed ops
        { w with calls := w.calls ++ [Call.processAnnounceResponse] } _ a peers hp
    have c1 := count_newPeerCommands ids Call.announceSuccess (by simp)
    have c2 := count_newPeerCommands ids Call.announceFailure (by simp)
    have c3 := count_newPeerCommands ids Call.resetAnnounce (by simp)
    have c4 := count_trackerWatcher_peerCommands cmds w.cuid h3
    simp only [h1, h2, h6]
    simp [List.count_append, List.count_cons, c1, c2, c3, c4, List.getLast?_append, h7]
  | none =>
    have h := processTrackerResponse_raised ops
      { w with calls := w.calls ++ [Call.processAnnounceResponse] } _ hp
    simp only [h]
    by_cases ha : ops.isAllAnnounceFailed (ops.announceFailure w.btAnnounce) = true
    · simp [ha, List.count_cons]
    · simp [ha, List.count_cons]

/-- C17 (witness): a running watcher whose finished session holds a response
that parses. -/
theorem execute_finished_accounting_witness :
    (watching false (some (finishedSession [100]))).requestGroup.forceHaltRequested = false ∧
    (finishedSession [100]).downloadFinished = true ∧
    (callsOfStep counterPolicy (watching false (some (finishedSession [100])))).count
        Call.announceSuccess +
      (callsOfStep counterPolicy (watching false (some (finishedSession [100])))).count
        Call.announceFailure = 1 ∧
    (execute counterPolicy (watching false (some (finishedSession [100])))).2.btAnnounce =
      { freshCounters with successes := 1, resets := 1 } :=
  ⟨rfl, rfl,
   (execute_finished_accounting counterPolicy (watching false (some (finishedSession [100])))
      (finishedSession [100]) rfl rfl rfl rfl).1,
   (execute_finished_accounting counterPolicy (watching false (some (finishedSession [100])))
      (finishedSession [100]) rfl rfl rfl rfl).2.2.2.2.2.2.2.1 freshCounters
      (watching false (some (finishedSession [100]))).peerStorage rfl⟩

/-- The read loop returns the whole content from any point where the stream
holds a prefix of it. -/
theorem readLoop_eq_content (content : ByteString) (fuel : Nat) (strm : ByteString)
    (h : content.length - strm.length < fuel)
    (hpre : strm = content.take strm.length) :
    readLoop content fuel strm h = content := by
  induction fuel generalizing strm with
  | zero => exact absurd h (Nat.not_lt_zero _)
  | succ n ih =>
    unfold readLoop
    have hlen : (readData content 2048 strm.length).length
        = min 2048 (content.length - strm.length) := by
      simp [readData]
    by_cases hd : (readData content 2048 strm.length).length = 0
    · rw [dif_pos hd]
      rw [hlen] at hd
      have hle : content.length ≤ strm.length := by omega
      rw [hpre, List.take_of_length_le hle]
    · rw [dif_neg hd]
      apply ih
      have hcat : strm ++ readData content 2048 strm.length
          = content.take (strm.length + 2048) := by
        rw [List.take_add]
        simp only [readData]
        rw [← hpre]
      rw [hcat, List.length_take]
      by_cases hk : strm.length + 2048 ≤ content.length
      · rw [Nat.min_eq_left hk]
      · rw [Nat.min_eq_right (by omega), List.take_of_length_le (Nat.le_refl _),
          List.take_of_length_le (by omega)]

/-- C18: `getTrackerResponse` returns the stored bytes of the session, all of
them, in order, each once, whatever their number: reading 2048 bytes at a
time from the offset reached so far, the loop ends when a read yields
nothing and the stream then equals the content. -/
theorem getTrackerResponse_eq_content (rg : RequestGroup) :
    getTrackerResponse rg = rg.content := by
  unfold getTrackerResponse
  exact readLoop_eq_content rg.content _ [] _ (by simp)

end TrackerWatcherCommand

/-! ## DHT entry-point resolver: what a step consumes and produces -/

namespace DHTEntryPointNameResolveCommand

theorem consumed_refl (s : DHTEntryPointNameResolveCommand) : Consumed s s :=
  ⟨[], [], [], [], by simp, by simp, by simp, by simp, by simp, by simp, by simp,
    rfl, rfl, rfl, rfl⟩

theorem consumed_trans {s s1 s2 : DHTEntryPointNameResolveCommand}
    (h1 : Consumed s s1) (h2 : Consumed s1 s2) : Consumed s s2 := by
  obtain ⟨r1, a1, p1, c1, e1, e2, e3, e4, e5, e6, e7, e8, e9, e10, e11⟩ := h1
  obtain ⟨r2, a2, p2, c2, f1, f2, f3, f4, f5, f6, f7, f8, f9, f10, f11⟩ := h2
  refine ⟨r1 ++ r2, a1 ++ a2, p1 ++ p2, c1 ++ c2, ?_, ?_, ?_, ?_, ?_, ?_, ?_,
    f8.trans e8, f9.trans e9, f10.trans e10, f11.trans e11⟩
  · rw [e1, f1, List.append_assoc]
  · rw [f2, e2, List.append_assoc]
  · rw [List.map_append, List.map_append]
    exact List.Sublist.append e3 f3
  · rw [f4, e4, List.append_assoc]
  · intro t ht
    rcases List.mem_append.mp ht with ht | ht
    · exact e5 t ht
    · exact f5 t ht
  · rw [f6, e6, List.append_assoc]
  · intro q hq
    rcases List.mem_append.mp hq with hq | hq
    · exact e7 q hq
    · have := f7 q hq
      rw [e1, List.map_append]
      exact List.mem_append_right _ this

theorem consumed_congr {s s1 s2 : DHTEntryPointNameResolveCommand} (h : Consumed s s1)
    (h1 : s2.entryPoints = s1.entryPoints)
    (h2 : s2.resolvedEntryPoints = s1.resolvedEntryPoints)
    (h3 : s2.taskQueue = s1.taskQueue) (h4 : s2.resolveLog = s1.resolveLog)
    (h5 : s2.bootstrapEnabled = s1.bootstrapEnabled) (h6 : s2.localNodeID = s1.localNodeID)
    (h7 : s2.downloadFinished = s1.downloadFinished)
    (h8 : s2.haltRequested = s1.haltRequested) : Consumed s s2 := by
  obtain ⟨r, a, p, c, e1, e2, e3, e4, e5, e6, e7, e8, e9, e10, e11⟩ := h
  exact ⟨r, a, p, c, by rw [h1]; exact e1, by rw [h2]; exact e2, e3, by rw [h3]; exact e4, e5,
    by rw [h4]; exact e6, e7, h5.trans e8, h6.trans e9, h7.trans e10, h8.trans e11⟩

/-- The queries `resolveHostname` logs are for the hostname it was given, and
it leaves the halt flags alone. -/
theorem resolveHostname_log (env : DHTEnv) (hostname : String)
    (s : DHTEntryPointNameResolveCommand) :
    (∃ calls, (resolveHostname env hostname s).2.resolveLog = s.resolveLog ++ calls ∧
      (∀ q ∈ calls, q.1 = hostname) ∧ (calls ≠ [] → s.dnsCache.find hostname = "")) ∧
    (resolveHostname env hostname s).2.downloadFinished = s.downloadFinished ∧
    (resolveHostname env hostname s).2.haltRequested = s.haltRequested := by
  by_cases hc : s.dnsCache.find hostname = ""
  · by_cases ha : env.asyncDns = true
    · cases hst : s.resolver.status with
      | ready =>
        exact ⟨⟨[(hostname, Status.ready)],
          by simp [resolveHostname, hc, ha, NameResolver.getStatus, hst], by simp,
          fun _ => hc⟩,
          by simp [resolveHostname, hc, ha, NameResolver.getStatus, hst],
          by simp [resolveHostname, hc, ha, NameResolver.getStatus, hst]⟩
      | inProgress =>
        exact ⟨⟨[], by simp [resolveHostname, hc, ha, NameResolver.getStatus, hst], by simp,
          fun _ => hc⟩,
          by simp [resolveHostname, hc, ha, NameResolver.getStatus, hst],
          by simp [resolveHostname, hc, ha, NameResolver.getStatus, hst]⟩
      | success =>
        exact ⟨⟨[], by simp [resolveHostname, hc, ha, NameResolver.getStatus, hst], by simp,
          fun _ => hc⟩,
          by simp [resolveHostname, hc, ha, NameResolver.getStatus, hst],
          by simp [resolveHostname, hc, ha, NameResolver.getStatus, hst]⟩
      | error =>
        exact ⟨⟨[], by simp [resolveHostname, hc, ha, NameResolver.getStatus, hst], by simp,
          fun _ => hc⟩,
          by simp [resolveHostname, hc, ha, NameResolver.getStatus, hst],
          by simp [resolveHostname, hc, ha, NameResolver.getStatus, hst]⟩
    · cases hl : env.lookup hostname with
      | none =>
        exact ⟨⟨[(hostname, s.resolver.status)],
          by simp [resolveHostname, hc, ha, NameResolver.resolveSync, hl,
            NameResolver.getStatus], by simp, fun _ => hc⟩,
          by simp [resolveHostname, hc, ha, NameResolver.resolveSync, hl],
          by simp [resolveHostname, hc, ha, NameResolver.resolveSync, hl]⟩
      | some ip =>
        exact ⟨⟨[(hostname, s.resolver.status)],
          by simp [resolveHostname, hc, ha, NameResolver.resolveSync, hl,
            NameResolver.getStatus], by simp, fun _ => hc⟩,
          by simp [resolveHostname, hc, ha, NameResolver.resolveSync, hl],
          by simp [resolveHostname, hc, ha, NameResolver.resolveSync, hl]⟩
  · exact ⟨⟨[], by simp [resolveHostname, hc], by simp, fun h => absurd rfl h⟩,
      by simp [resolveHostname, hc], by simp [resolveHostname, hc]⟩

/-- A call of `resolveHostname` for the front entry consumes nothing. -/
theorem resolveHostname_consumed (env : DHTEnv) (s : DHTEntryPointNameResolveCommand)
    (front : String × Nat) (rest : List (String × Nat))
    (hs : s.entryPoints = front :: rest) :
    Consumed s (resolveHostname env front.1 s).2 := by
  obtain ⟨h1, h2, h3, -, -, h6, h7⟩ := resolveHostname_frame env front.1 s
  obtain ⟨⟨calls, hc1, hc2, -⟩, h8, h9⟩ := resolveHostname_log env front.1 s
  refine ⟨[], [], [], calls, by simp [h1], by simp [h2], by simp, by simp [h3], by simp,
    hc1, ?_, h6, h7, h8, h9⟩
  intro q hq
  rw [hc2 q hq, hs]
  simp

theorem moveToResolved_consumed (env : DHTEnv) (p : String × Nat)
    (s : DHTEntryPointNameResolveCommand) (front : String × Nat)
    (rest : List (String × Nat)) (hs : s.entryPoints = front :: rest)
    (hp : p.2 = front.2) :
    (moveToResolved env p s).Holds
      (fun s1 => Consumed s s1 ∧ s1.resolvedEntryPoints = s.resolvedEntryPoints ++ [p])
      (fun _ => False)
      (fun s1 => Consumed s s1 ∧ s1.resolvedEntryPoints = s.resolvedEntryPoints ++ [p]) := by
  refine bodyExit_holds_imp (moveToResolved_spec env p s) ?_ (fun _ h => h) ?_
  · rintro s1 (⟨-, rfl⟩ | ⟨-, hne, rfl⟩)
    · refine ⟨⟨[front], [p], [DHTTask.ping p.1 p.2 10], [], ?_, rfl, ?_, rfl, ?_, ?_, ?_,
        rfl, rfl, rfl, rfl⟩, rfl⟩
      · simp [hs]
      · simp [hp]
      · simp [isPing10]
      · simp
      · simp
    · rw [hs] at hne
      simp only [List.tail_cons] at hne
      obtain ⟨nxt, rest2, hrest⟩ := List.exists_cons_of_ne_nil hne
      refine ⟨⟨[front, nxt], [p], [], [], ?_, rfl, ?_, ?_, ?_, ?_, ?_,
        rfl, rfl, rfl, rfl⟩, rfl⟩
      · simp [hs, hrest]
      · simp [hp]
      · simp
      · simp
      · simp
      · simp
  · rintro s1 ⟨-, -, rfl⟩
    refine ⟨⟨[front], [p], [], [], ?_, rfl, ?_, ?_, ?_, ?_, ?_, rfl, rfl, rfl, rfl⟩, rfl⟩
    · simp [hs]
    · simp [hp]
    · simp
    · simp
    · simp
    · simp

theorem afterRaise_consumed (s : DHTEntryPointNameResolveCommand) (front : String × Nat)
    (rest : List (String × Nat)) (hs : s.entryPoints = front :: rest) :
    (afterRaise s).Holds
      (fun s1 => Consumed s s1 ∧ s1.resolvedEntryPoints = s.resolvedEntryPoints ∧
        s1.entryPoints = rest)
      (fun _ => False) (fun _ => False) := by
  refine bodyExit_holds_imp (afterRaise_spec s) ?_ (fun _ h => h) ?_
  · rintro s1 ⟨rfl, -⟩
    refine ⟨⟨[front], [], [], [], ?_, ?_, ?_, ?_, ?_, ?_, ?_, rfl, rfl, rfl, rfl⟩, rfl,
      by simp [hs]⟩
    · simp [hs]
    · simp
    · simp
    · simp
    · simp
    · simp
    · simp
  · rintro s1 ⟨-, hnil⟩
    rw [hs] at hnil
    exact absurd hnil (by simp)

/-- One round of the loop body, whatever the environment does: what it
consumed and produced. -/
theorem loopBody_consumed (env : DHTEnv) (s : DHTEntryPointNameResolveCommand)
    (front : String × Nat) (rest : List (String × Nat))
    (hs : s.entryPoints = front :: rest) :
    (loopBody env s front).Holds
      (fun s1 => Consumed s s1)
      (fun s1 => Consumed s s1 ∧ s1.entryPoints = s.entryPoints ∧
        s1.resolvedEntryPoints = s.resolvedEntryPoints)
      (fun s1 => Consumed s s1) := by
  unfold loopBody
  by_cases hl : env.isNumbersAndDotsNotation front.1 = true
  · simp only [hl, if_true]
    exact bodyExit_holds_imp (moveToResolved_consumed env _ s front rest hs rfl)
      (fun _ h => h.1) (fun _ h => h.elim) (fun _ h => h.1)
  · simp only [hl]
    have hcons := resolveHostname_consumed env s front rest hs
    have hfr := resolveHostname_frame env front.1 s
    rcases hr : resolveHostname env front.1 s with ⟨o, s0⟩
    rw [hr] at hcons hfr
    simp only at hcons hfr
    obtain ⟨h1, h2, -⟩ := hfr
    rcases o with _ | _ | _
    · exact bodyExit_holds_imp (afterRaise_consumed s0 front rest (h1.trans hs))
        (fun _ h => consumed_trans hcons h.1) (fun _ h => h.elim) (fun _ h => h.elim)
    · exact ⟨consumed_congr hcons rfl rfl rfl rfl rfl rfl rfl rfl, h1, h2⟩
    · have hc0 : Consumed s { s0 with resolver := s0.resolver.reset } :=
        consumed_congr hcons rfl rfl rfl rfl rfl rfl rfl rfl
      exact bodyExit_holds_imp
        (moveToResolved_consumed env _ { s0 with resolver := s0.resolver.reset } front rest
          (h1.trans hs) rfl)
        (fun _ h => consumed_trans hc0 h.1) (fun _ h => h.elim)
        (fun _ h => consumed_trans hc0 h.1)

/-- The loop, whatever the environment does: what it consumed and produced. -/
theorem whileEntryPoints_consumed (env : DHTEnv) (fuel : Nat)
    (s : DHTEntryPointNameResolveCommand) :
    (whileEntryPoints env fuel s).Holds
      (fun s1 => Consumed s s1 ∧ s1.entryPoints = [])
      (fun s1 => Consumed s s1) (fun s1 => Consumed s s1) := by
  induction fuel generalizing s with
  | zero =>
    unfold whileEntryPoints
    cases hs : s.entryPoints with
    | nil => exact ⟨consumed_refl s, hs⟩
    | cons e rest => trivial
  | succ n ih =>
    unfold whileEntryPoints
    cases hs : s.entryPoints with
    | nil => exact ⟨consumed_refl s, hs⟩
    | cons front rest =>
      simp only []
      have hb := loopBody_consumed env s front rest hs
      cases hbody : loopBody env s front with
      | next s1 =>
        rw [hbody] at hb
        exact loopExit_holds_imp (ih s1) (fun _ h => ⟨consumed_trans hb h.1, h.2⟩)
          (fun _ h => consumed_trans hb h) (fun _ h => consumed_trans hb h)
      | requeued s1 =>
        rw [hbody] at hb
        exact hb.1
      | eraseOnEmpty s1 =>
        rw [hbody] at hb
        exact hb

/-- One call of `execute`, whatever the environment does: it has a result or
stops at the erase from an empty deque, and the state it leaves is what the
loop consumed and produced, with the bootstrap tasks, if any, at the end of
the task queue. -/
theorem execute_consumed (env : DHTEnv) (s : DHTEntryPointNameResolveCommand) :
    execute env s ≠ Outcome.outOfFuel ∧
    ∀ s1, (execute env s).state? = some s1 →
      ∃ s2 extras, Consumed s s2 ∧ s1 = { s2 with taskQueue := s2.taskQueue ++ extras } := by
  unfold execute
  by_cases hh : (s.downloadFinished || s.haltRequested) = true
  · rw [if_pos hh]
    refine ⟨by simp, ?_⟩
    intro s1 h1
    simp only [Outcome.state?, Option.some.injEq] at h1
    subst h1
    exact ⟨s, [], consumed_refl s, by simp⟩
  · rw [if_neg hh]
    have hloop := whileEntryPoints_consumed env s.entryPoints.length s
    have hfuel := whileEntryPoints_fuel env s.entryPoints.length s (Nat.le_refl _)
    cases hw : whileEntryPoints env s.entryPoints.length s with
    | outOfFuel => exact absurd hw hfuel
    | emptied s2 =>
      rw [hw] at hloop
      obtain ⟨tasks, ht⟩ := addBootstrapTasks_frame env s2
      refine ⟨by simp, ?_⟩
      intro s1 h1
      simp only [Outcome.state?, Option.some.injEq] at h1
      subst h1
      exact ⟨s2, tasks, hloop.1, ht⟩
    | eraseOnEmpty s2 =>
      rw [hw] at hloop
      refine ⟨by simp, ?_⟩
      intro s1 h1
      simp only [Outcome.state?, Option.some.injEq] at h1
      subst h1
      exact ⟨s2, [], hloop, by simp⟩
    | requeued s2 =>
      rw [hw] at hloop
      refine ⟨by simp, ?_⟩
      intro s1 h1
      simp only [Outcome.state?, Option.some.injEq] at h1
      subst h1
      exact ⟨s2, [], hloop, by simp⟩

/-- C19: every call of `execute` has a result (or stops where the handler
erases from an empty deque, the state then being the one at that point), and
in the state it leaves the pending list is a suffix of the list before, the
resolved entries before are a prefix of those after, and the ports of the
newly appended resolved entries form a sublist of the ports of the erased
entries: each new entry carries the port of an erased entry, in the order of
those entries, so there are at most as many new entries as erased ones. -/
theorem front_to_back_consumption (env : DHTEnv) (s : DHTEntryPointNameResolveCommand) :
    execute env s ≠ Outcome.outOfFuel ∧
    ∀ s1, (execute env s).state? = some s1 →
      List.IsSuffix s1.entryPoints s.entryPoints ∧
      List.IsPrefix s.resolvedEntryPoints s1.resolvedEntryPoints ∧
      ∃ removed added : List (String × Nat),
        s.entryPoints = removed ++ s1.entryPoints ∧
        s1.resolvedEntryPoints = s.resolvedEntryPoints ++ added ∧
        List.Sublist (added.map Prod.snd) (removed.map Prod.snd) ∧
        added.length ≤ removed.length := by
  refine ⟨(execute_consumed env s).1, ?_⟩
  intro s1 h1
  obtain ⟨s2, extras, ⟨removed, added, -, -, e1, e2, e3, -⟩, rfl⟩ :=
    (execute_consumed env s).2 s1 h1
  refine ⟨⟨removed, e1.symm⟩, ⟨added, e2.symm⟩, removed, added, e1, e2, e3, ?_⟩
  have := e3.length_le
  simpa using this

/-- C19 (witness): a step over a literal, a hostname the engine cannot
resolve and a hostname it resolves, without asynchronous DNS. -/
theorem front_to_back_consumption_witness :
    (execute (demoEnv false (fun _ => false)) threeEntries).state? = some threeEntriesDone ∧
    List.IsSuffix threeEntriesDone.entryPoints threeEntries.entryPoints ∧
    List.IsPrefix threeEntries.resolvedEntryPoints threeEntriesDone.resolvedEntryPoints :=
  ⟨by decide,
   ((front_to_back_consumption (demoEnv false (fun _ => false)) threeEntries).2
      threeEntriesDone (by decide)).1,
   ((front_to_back_consumption (demoEnv false (fun _ => false)) threeEntries).2
      threeEntriesDone (by decide)).2.1⟩

/-! ### Drop on resolution failure -/

theorem addBootstrapTasks_eq (env : DHTEnv) (s : DHTEntryPointNameResolveCommand) :
    addBootstrapTasks env s =
      { s with taskQueue := s.taskQueue ++
          (if s.bootstrapEnabled && s.resolvedEntryPoints.length != 0
            then bootstrapTasks env s.localNodeID else []) } := by
  unfold addBootstrapTasks addPeriodicTask1 bootstrapTasks
  by_cases hb : (s.bootstrapEnabled && s.resolvedEntryPoints.length != 0) = true
  · by_cases h1 : env.taskRaises (DHTTask.nodeLookup s.localNodeID) = true
    · simp [hb, h1]
    · by_cases h2 : env.taskRaises DHTTask.bucketRefresh = true
      · simp [hb, h1, h2]
      · simp [hb, h1, h2]
  · simp [hb]

/-- A step that is not halted returns true exactly by emptying the list, and
the state returned is the one after the loop with the bootstrap tasks. -/
theorem execute_returned_true (env : DHTEnv) (s s1 : DHTEntryPointNameResolveCommand)
    (hrun : (s.downloadFinished || s.haltRequested) = false)
    (hex : execute env s = Outcome.returned true s1) :
    ∃ s2, whileEntryPoints env s.entryPoints.length s = LoopExit.emptied s2 ∧
      s1 = addBootstrapTasks env s2 := by
  simp only [execute, hrun, Bool.false_eq_true, if_false] at hex
  cases hw : whileEntryPoints env s.entryPoints.length s with
  | emptied s2 =>
    rw [hw] at hex
    simp only [Outcome.returned.injEq, true_and] at hex
    exact ⟨s2, rfl, hex.symm⟩
  | requeued s2 => rw [hw] at hex; simp at hex
  | eraseOnEmpty s2 => rw [hw] at hex; simp at hex
  | outOfFuel => rw [hw] at hex; simp at hex

/-- C12 (counterexample): bootstrap is enabled and the step resolves its one
entry, but the task factory raises for the node-lookup task: the outer
handler swallows the exception, the step returns true, and neither the
node-lookup task nor the bucket-refresh task is in the queue. -/
theorem bootstrap_skipped_when_lookup_task_raises :
    bootstrapping.bootstrapEnabled = true ∧
    execute (demoEnv true (fun t => t == DHTTask.nodeLookup [1, 2, 3])) bootstrapping =
      Outcome.returned true
        { bootstrapping with
          entryPoints := [], resolvedEntryPoints := [("192.0.2.5", 6881)],
          taskQueue := [DHTTask.ping "192.0.2.5" 6881 10] } := by
  decide

/-- One round of the loop body when no ping task raises: the handler never
finds the deque empty, and a requeue leaves the list as it was. -/
theorem loopBody_accepting (env : DHTEnv)
    (hping : ∀ ip port, env.taskRaises (DHTTask.ping ip port 10) = false)
    (s : DHTEntryPointNameResolveCommand) (front : String × Nat)
    (rest : List (String × Nat)) (hs : s.entryPoints = front :: rest) :
    (loopBody env s front).Holds (fun _ => True)
      (fun s1 => s1.entryPoints = s.entryPoints) (fun _ => False) := by
  unfold loopBody
  by_cases hl : env.isNumbersAndDotsNotation front.1 = true
  · simp only [hl, if_true]
    rw [moveToResolved_eq env _ s (hping _ _)]
    trivial
  · rw [if_neg hl]
    have hfr := (resolveHostname_frame env front.1 s).1
    rcases hr : resolveHostname env front.1 s with ⟨o, s0⟩
    rw [hr] at hfr
    simp only at hfr
    rcases o with _ | _ | _
    · simp only []
      rw [afterRaise_eq s0 front rest (hfr.trans hs)]
      trivial
    · exact hfr
    · simp only []
      rw [moveToResolved_eq env _ _ (hping _ _)]
      trivial

/-- The loop when no ping task raises: it empties the list or requeues with
entries left; the handler never finds the deque empty. -/
theorem whileEntryPoints_accepting (env : DHTEnv)
    (hping : ∀ ip port, env.taskRaises (DHTTask.ping ip port 10) = false)
    (fuel : Nat) (s : DHTEntryPointNameResolveCommand) :
    (whileEntryPoints env fuel s).Holds (fun _ => True)
      (fun s1 => s1.entryPoints ≠ []) (fun _ => False) := by
  induction fuel generalizing s with
  | zero =>
    unfold whileEntryPoints
    cases hs : s.entryPoints with
    | nil => trivial
    | cons e rest => trivial
  | succ n ih =>
    unfold whileEntryPoints
    cases hs : s.entryPoints with
    | nil => trivial
    | cons front rest =>
      simp only []
      have hb := loopBody_accepting env hping s front rest hs
      cases hbody : loopBody env s front with
      | next s1 => exact ih s1
      | requeued s1 =>
        rw [hbody] at hb
        have h1 : s1.entryPoints = front :: rest := hb.trans hs
        intro hnil
        rw [hnil] at h1
        exact absurd h1 (by simp)
      | eraseOnEmpty s1 =>
        rw [hbody] at hb
        exact hb.elim

/-- C12 (amended): a step that is not halted, run with a task queue that
takes every ping task, returns; it returns true exactly when it has emptied
the list.  It appends to the task queue ping tasks only, followed, if and
only if it emptied the list, bootstrap is enabled and the resolved
accumulator is not empty, by the bootstrap tasks: the node-lookup task for
the local node id and then the bucket-refresh task, each once, when adding
them does not raise; nothing when adding the node-lookup task raises; the
node-lookup task alone when adding the bucket-refresh task raises.  So with
no resolved entry no bootstrap task is added and the step that empties the
list still returns true. -/
theorem bootstrap_task_emission (env : DHTEnv)
    (hping : ∀ ip port, env.taskRaises (DHTTask.ping ip port 10) = false)
    (s : DHTEntryPointNameResolveCommand)
    (hrun : (s.downloadFinished || s.haltRequested) = false) :
    ∃ result s1, execute env s = Outcome.returned result s1 ∧
      (result = true ↔ s1.entryPoints = []) ∧
      ∃ pings, (∀ t ∈ pings, isPing10 t = true) ∧
        s1.taskQueue = s.taskQueue ++ pings ++
          (if result && (s.bootstrapEnabled && s1.resolvedEntryPoints.length != 0)
            then bootstrapTasks env s.localNodeID else []) ∧
        (env.taskRaises (DHTTask.nodeLookup s.localNodeID) = false →
          env.taskRaises DHTTask.bucketRefresh = false →
          bootstrapTasks env s.localNodeID =
            [DHTTask.nodeLookup s.localNodeID, DHTTask.bucketRefresh]) ∧
        (env.taskRaises (DHTTask.nodeLookup s.localNodeID) = true →
          bootstrapTasks env s.localNodeID = []) ∧
        (env.taskRaises (DHTTask.nodeLookup s.localNodeID) = false →
          env.taskRaises DHTTask.bucketRefresh = true →
          bootstrapTasks env s.localNodeID = [DHTTask.nodeLookup s.localNodeID]) := by
  have hcases : (env.taskRaises (DHTTask.nodeLookup s.localNodeID) = false →
        env.taskRaises DHTTask.bucketRefresh = false →
        bootstrapTasks env s.localNodeID =
          [DHTTask.nodeLookup s.localNodeID, DHTTask.bucketRefresh]) ∧
      (env.taskRaises (DHTTask.nodeLookup s.localNodeID) = true →
        bootstrapTasks env s.localNodeID = []) ∧
      (env.taskRaises (DHTTask.nodeLookup s.localNodeID) = false →
        env.taskRaises DHTTask.bucketRefresh = true →
        bootstrapTasks env s.localNodeID = [DHTTask.nodeLookup s.localNodeID]) :=
    ⟨fun h1 h2 => by simp [bootstrapTasks, h1, h2], fun h1 => by simp [bootstrapTasks, h1],
      fun h1 h2 => by simp [bootstrapTasks, h1, h2]⟩
  have hloop := whileEntryPoints_consumed env s.entryPoints.length s
  have hacc := whileEntryPoints_accepting env hping s.entryPoints.length s
  have hfuel := whileEntryPoints_fuel env s.entryPoints.length s (Nat.le_refl _)
  cases hw : whileEntryPoints env s.entryPoints.length s with
  | outOfFuel => exact absurd hw hfuel
  | eraseOnEmpty s2 => rw [hw] at hacc; exact hacc.elim
  | emptied s2 =>
    rw [hw] at hloop
    obtain ⟨⟨_, _, pings, _, -, -, -, e4, e5, -, -, e8, e9, -, -⟩, hnil⟩ := hloop
    refine ⟨true, addBootstrapTasks env s2, by simp [execute, hrun, hw], ?_, pings, e5, ?_,
      hcases⟩
    · rw [addBootstrapTasks_eq]
      simp [hnil]
    · rw [addBootstrapTasks_eq]
      simp only [e4, e8, e9, Bool.true_and]
  | requeued s2 =>
    rw [hw] at hloop hacc
    obtain ⟨_, _, pings, _, -, -, -, e4, e5, -⟩ := hloop
    refine ⟨false, s2, by simp [execute, hrun, hw], ?_, pings, e5, ?_, hcases⟩
    · simp only [Bool.false_eq_true, false_iff]
      exact hacc
    · simp [e4]

/-- C12 (witness): bootstrap enabled, one literal entry, no task raises: the
step returns true with the ping task, the node-lookup task and the
bucket-refresh task in the queue, in that order. -/
theorem bootstrap_task_emission_witness :
    execute (demoEnv true (fun _ => false)) bootstrapping = Outcome.returned true bootstrapped ∧
    bootstrapped.taskQueue =
      [DHTTask.ping "192.0.2.5" 6881 10, DHTTask.nodeLookup [1, 2, 3],
        DHTTask.bucketRefresh] ∧
    ∃ result s1,
      execute (demoEnv true (fun _ => false)) bootstrapping = Outcome.returned result s1 ∧
      (result = true ↔ s1.entryPoints = []) ∧
      ∃ pings, (∀ t ∈ pings, isPing10 t = true) ∧
        s1.taskQueue = bootstrapping.taskQueue ++ pings ++
          (if result &&
              (bootstrapping.bootstrapEnabled && s1.resolvedEntryPoints.length != 0)
            then bootstrapTasks (demoEnv true (fun _ => false)) bootstrapping.localNodeID
            else []) := by
  obtain ⟨result, s1, h1, h2, pings, h3, h4, -⟩ :=
    bootstrap_task_emission (demoEnv true (fun _ => false)) (fun _ _ => rfl) bootstrapping rfl
  exact ⟨by decide, rfl, result, s1, h1, h2, pings, h3, h4⟩

/-! ### Write-through, halt, literals -/

theorem find_put_self (c : DNSCache) (hostname ip : String) :
    (c.put hostname ip).find hostname = ip := by
  simp [DNSCache.find, DNSCache.put, List.lookup]

/-- When `resolveHostname` returns true for a hostname the cache did not
hold, the cache holds the address the resolver yields. -/
theorem resolveHostname_write_through (env : DHTEnv) (hostname : String)
    (s : DHTEntryPointNameResolveCommand) (hc : s.dnsCache.find hostname = "")
    (ht : (resolveHostname env hostname s).1 = some true) :
    (resolveHostname env hostname s).2.dnsCache.find hostname =
      (resolveHostname env hostname s).2.resolver.getAddrString := by
  by_cases ha : env.asyncDns = true
  · cases hst : s.resolver.status with
    | ready => simp [resolveHostname, hc, ha, NameResolver.getStatus, hst] at ht
    | inProgress => simp [resolveHostname, hc, ha, NameResolver.getStatus, hst] at ht
    | error => simp [resolveHostname, hc, ha, NameResolver.getStatus, hst] at ht
    | success =>
      simp [resolveHostname, hc, ha, NameResolver.getStatus, hst, find_put_self,
        NameResolver.getAddrString]
  · cases hl : env.lookup hostname with
    | none => simp [resolveHostname, hc, ha, NameResolver.resolveSync, hl] at ht
    | some ip =>
      simp [resolveHostname, hc, ha, NameResolver.resolveSync, hl, find_put_self,
        NameResolver.getAddrString]

/-- When `resolveHostname` returns true for a hostname the cache did not
hold, it has put the hostname into the cache with the address the resolver
yields, and that address is the answer of the engine: with asynchronous DNS
the one of the successful query the resolver holds, without it the one the
blocking `resolve`, called once, returned. -/
theorem resolveHostname_put (env : DHTEnv) (hostname : String)
    (s : DHTEntryPointNameResolveCommand) (hc : s.dnsCache.find hostname = "")
    (ht : (resolveHostname env hostname s).1 = some true) :
    (resolveHostname env hostname s).2.dnsCache =
      s.dnsCache.put hostname (resolveHostname env hostname s).2.resolver.getAddrString ∧
    (env.asyncDns = true →
      s.resolver.status = Status.success ∧
      (resolveHostname env hostname s).2.resolver = s.resolver ∧
      resolveCalls s (resolveHostname env hostname s).2 = []) ∧
    (env.asyncDns = false →
      env.lookup hostname = some (resolveHostname env hostname s).2.resolver.getAddrString ∧
      resolveCalls s (resolveHostname env hostname s).2 = [(hostname, s.resolver.status)]) := by
  by_cases ha : env.asyncDns = true
  · cases hst : s.resolver.status with
    | ready => simp [resolveHostname, hc, ha, NameResolver.getStatus, hst] at ht
    | inProgress => simp [resolveHostname, hc, ha, NameResolver.getStatus, hst] at ht
    | error => simp [resolveHostname, hc, ha, NameResolver.getStatus, hst] at ht
    | success =>
      simp [resolveHostname, hc, ha, NameResolver.getStatus, hst, resolveCalls]
  · cases hl : env.lookup hostname with
    | none => simp [resolveHostname, hc, ha, NameResolver.resolveSync, hl] at ht
    | some ip =>
      simp [resolveHostname, hc, ha, NameResolver.resolveSync, hl, resolveCalls,
        NameResolver.getAddrString, NameResolver.getStatus]

/-- For a hostname the cache does not hold, `resolveHostname` calls the
engine `resolve`, once, whenever it gets that far: always without
asynchronous DNS, and with it when the resolver is Ready (the query is then
the one in flight and the call returns false). -/
theorem resolveHostname_resolves (env : DHTEnv) (hostname : String)
    (s : DHTEntryPointNameResolveCommand) (hc : s.dnsCache.find hostname = "") :
    (env.asyncDns = false →
      resolveCalls s (resolveHostname env hostname s).2 = [(hostname, s.resolver.status)]) ∧
    (env.asyncDns = true → s.resolver.status = Status.ready →
      resolveCalls s (resolveHostname env hostname s).2 = [(hostname, Status.ready)] ∧
      (resolveHostname env hostname s).2.resolver = s.resolver.resolve hostname ∧
      (resolveHostname env hostname s).1 = some false) := by
  constructor
  · intro ha
    cases hl : env.lookup hostname <;>
      simp [resolveHostname, hc, ha, NameResolver.resolveSync, hl, resolveCalls,
        NameResolver.getStatus]
  · intro ha hst
    simp [resolveHostname, hc, ha, NameResolver.getStatus, hst, resolveCalls]

/-- C13: for a hostname the cache does not hold, when `resolveHostname`
returns true it has written the hostname into the cache with the address
the resolver yields (the cache is the old one with that binding put in, so
it maps the hostname to that address), and the address is the answer of the
engine: the one of the successful query with asynchronous DNS, the one the
blocking `resolve` returned without it.  The round of `execute` for an entry
with that hostname does not requeue, appends that cached address with the
port of the entry to the resolved entries and leaves the cache with that
binding.  `resolveHostname` calls the engine `resolve` only for a hostname
the cache does not hold, and for such a hostname it does call it, once:
always without asynchronous DNS, and with it when the resolver is Ready. -/
theorem write_through (env : DHTEnv) (hostname : String)
    (s : DHTEntryPointNameResolveCommand) :
    (s.dnsCache.find hostname = "" → (resolveHostname env hostname s).1 = some true →
      (resolveHostname env hostname s).2.dnsCache.find hostname =
        (resolveHostname env hostname s).2.resolver.getAddrString ∧
      (resolveHostname env hostname s).2.dnsCache =
        s.dnsCache.put hostname (resolveHostname env hostname s).2.resolver.getAddrString ∧
      (env.asyncDns = true →
        s.resolver.status = Status.success ∧
        (resolveHostname env hostname s).2.resolver = s.resolver) ∧
      (env.asyncDns = false →
        env.lookup hostname =
          some (resolveHostname env hostname s).2.resolver.getAddrString ∧
        resolveCalls s (resolveHostname env hostname s).2 =
          [(hostname, s.resolver.status)]) ∧
      ∀ port, env.isNumbersAndDotsNotation hostname = false →
        (∀ s1, loopBody env s (hostname, port) ≠ BodyExit.requeued s1) ∧
        (∀ s1, loopBody env s (hostname, port) = BodyExit.next s1 ∨
            loopBody env s (hostname, port) = BodyExit.eraseOnEmpty s1 →
          s1.resolvedEntryPoints = s.resolvedEntryPoints ++
            [((resolveHostname env hostname s).2.dnsCache.find hostname, port)] ∧
          s1.dnsCache = s.dnsCache.put hostname
            (resolveHostname env hostname s).2.resolver.getAddrString)) ∧
    (resolveCalls s (resolveHostname env hostname s).2 ≠ [] →
      s.dnsCache.find hostname = "") ∧
    (s.dnsCache.find hostname = "" →
      (env.asyncDns = false →
        resolveCalls s (resolveHostname env hostname s).2 =
          [(hostname, s.resolver.status)]) ∧
      (env.asyncDns = true → s.resolver.status = Status.ready →
        resolveCalls s (resolveHostname env hostname s).2 = [(hostname, Status.ready)] ∧
        (resolveHostname env hostname s).2.resolver = s.resolver.resolve hostname)) := by
  refine ⟨?_, ?_, ?_⟩
  · intro hc ht
    have hwt := resolveHostname_write_through env hostname s hc ht
    obtain ⟨hput, hasync, hsync⟩ := resolveHostname_put env hostname s hc ht
    refine ⟨hwt, hput, fun ha => ⟨(hasync ha).1, (hasync ha).2.1⟩, hsync, ?_⟩
    intro port hl
    have hfr := (resolveHostname_frame env hostname s).2.1
    unfold loopBody
    simp only [hl, Bool.false_eq_true, if_false]
    rcases hr : resolveHostname env hostname s with ⟨o, s0⟩
    rw [hr] at ht hwt hfr hput
    simp only at ht hwt hfr hput
    subst ht
    simp only []
    have hspec := moveToResolved_spec env (s0.resolver.getAddrString, port)
      { s0 with resolver := s0.resolver.reset }
    constructor
    · intro s1 h1
      rw [h1] at hspec
      exact hspec
    · intro s1 h1
      rcases h1 with h1 | h1
      · rw [h1] at hspec
        rcases hspec with ⟨-, rfl⟩ | ⟨-, -, rfl⟩
        · exact ⟨by simp only [hwt, hfr], hput⟩
        · exact ⟨by simp only [hwt, hfr], hput⟩
      · rw [h1] at hspec
        obtain ⟨-, -, rfl⟩ := hspec
        exact ⟨by simp only [hwt, hfr], hput⟩
  · intro hcalls
    obtain ⟨⟨calls, hlog, -, habs⟩, -⟩ := resolveHostname_log env hostname s
    apply habs
    intro hnil
    apply hcalls
    simp [resolveCalls, hlog, hnil]
  · intro hc
    obtain ⟨h1, h2⟩ := resolveHostname_resolves env hostname s hc
    exact ⟨h1, fun ha hst => ⟨(h2 ha hst).1, (h2 ha hst).2.1⟩⟩

/-- C13 (witness): a hostname the engine resolves, without asynchronous DNS:
the cache, empty before, holds the hostname with the answer of the engine. -/
theorem write_through_witness :
    DNSCache.find [] "dht.example.org" = "" ∧
    (resolveHostname (demoEnv false (fun _ => false)) "dht.example.org"
      (start [("dht.example.org", 6881)] [])).2.resolver.getAddrString = "192.0.2.7" ∧
    (resolveHostname (demoEnv false (fun _ => false)) "dht.example.org"
      (start [("dht.example.org", 6881)] [])).2.dnsCache.find "dht.example.org" =
    (resolveHostname (demoEnv false (fun _ => false)) "dht.example.org"
      (start [("dht.example.org", 6881)] [])).2.resolver.getAddrString ∧
    (resolveHostname (demoEnv false (fun _ => false)) "dht.example.org"
      (start [("dht.example.org", 6881)] [])).2.dnsCache =
      DNSCache.put [] "dht.example.org"
        (resolveHostname (demoEnv false (fun _ => false)) "dht.example.org"
          (start [("dht.example.org", 6881)] [])).2.resolver.getAddrString :=
  ⟨by decide, by decide,
   ((write_through (demoEnv false (fun _ => false)) "dht.example.org"
      (start [("dht.example.org", 6881)] [])).1 (by decide) (by decide)).1,
   ((write_through (demoEnv false (fun _ => false)) "dht.example.org"
      (start [("dht.example.org", 6881)] [])).1 (by decide) (by decide)).2.1⟩

/-- C14: when the download-finished or the halt-requested condition holds at
the start of `execute`, the step returns true and the state is exactly as it
was: no query in the log, no task in the queue, no command queued, and the
pending list, the resolved entries, the resolver and the cache untouched. -/
theorem halt_short_circuit (env : DHTEnv) (s : DHTEntryPointNameResolveCommand)
    (h : (s.downloadFinished || s.haltRequested) = true) :
    execute env s = Outcome.returned true s ∧ resolveCalls s s = [] := by
  constructor
  · simp [execute, h]
  · simp [resolveCalls]

/-- C14 (witness): halt requested with two entries pending. -/
theorem halt_short_circuit_witness :
    execute (demoEnv true (fun _ => false))
        { start [("dht.example.org", 6881), ("192.0.2.5", 6882)] [] with
          haltRequested := true } =
      Outcome.returned true
        { start [("dht.example.org", 6881), ("192.0.2.5", 6882)] [] with
          haltRequested := true } :=
  (halt_short_circuit (demoEnv true (fun _ => false))
    { start [("dht.example.org", 6881), ("192.0.2.5", 6882)] [] with haltRequested := true }
    rfl).1

/-- The loop over a list of literal addresses, when no ping task raises. -/
theorem whileEntryPoints_literals (env : DHTEnv)
    (hping : ∀ ip port, env.taskRaises (DHTTask.ping ip port 10) = false)
    (l : List (String × Nat)) (s : DHTEntryPointNameResolveCommand)
    (hs : s.entryPoints = l)
    (hlit : ∀ e ∈ l, env.isNumbersAndDotsNotation e.1 = true) :
    whileEntryPoints env l.length s =
      LoopExit.emptied
        { s with entryPoints := [],
                 resolvedEntryPoints := s.resolvedEntryPoints ++ l,
                 taskQueue := s.taskQueue ++ l.map (fun e => DHTTask.ping e.1 e.2 10) } := by
  induction l generalizing s with
  | nil =>
    obtain ⟨cuid, eps, res, r, b, id, df, hr, cmds, chk, cache, q, log⟩ := s
    simp only at hs
    subst hs
    simp [whileEntryPoints]
  | cons front rest ih =>
    have hl := hlit front (List.mem_cons_self _ _)
    simp only [List.length_cons]
    rw [whileEntryPoints]
    simp only [hs, loopBody_literal env s front hping hl]
    rw [ih _ (by simp [hs]) (fun e he => hlit e (List.mem_cons_of_mem _ he))]
    simp [List.append_assoc]

/-- C15 (counterexample): two literal entries, and the task queue raises for
the ping task of the first.  The step returns true, but the resolved
accumulator is extended by the first entry only and no ping task is in the
queue. -/
theorem literal_entries_lost_when_ping_raises :
    numbersAndDots "192.0.2.5" = true ∧ numbersAndDots "192.0.2.6" = true ∧
    execute pingRaisesEnv (start [("192.0.2.5", 6881), ("192.0.2.6", 6882)] []) =
      Outcome.returned true
        { start [] [] with resolvedEntryPoints := [("192.0.2.5", 6881)] } := by
  decide

/-- C15 (amended): for a list of literal addresses only and a task queue that
takes every ping task, one step that is not halted returns true; the state
it returns is the one before with the list emptied, the entries appended to
the resolved accumulator as they are and in their order, and one ping task
(timeout 10) per entry, for its address and port, appended to the task queue
in that order (before the bootstrap tasks, if any); the resolver, the cache
and the log of queries are as before. -/
theorem literal_bypass (env : DHTEnv)
    (hping : ∀ ip port, env.taskRaises (DHTTask.ping ip port 10) = false)
    (s : DHTEntryPointNameResolveCommand)
    (hrun : (s.downloadFinished || s.haltRequested) = false)
    (hlit : ∀ e ∈ s.entryPoints, env.isNumbersAndDotsNotation e.1 = true) :
    execute env s =
      Outcome.returned true
        { s with entryPoints := [],
                 resolvedEntryPoints := s.resolvedEntryPoints ++ s.entryPoints,
                 taskQueue := s.taskQueue ++
                   s.entryPoints.map (fun e => DHTTask.ping e.1 e.2 10) ++
                   (if s.bootstrapEnabled &&
                        (s.resolvedEntryPoints ++ s.entryPoints).length != 0
                     then bootstrapTasks env s.localNodeID else []) } := by
  simp only [execute, hrun, Bool.false_eq_true, if_false]
  rw [whileEntryPoints_literals env hping s.entryPoints s rfl hlit]
  simp only [addBootstrapTasks_eq]

/-- C15 (witness): two literal entries, bootstrap disabled. -/
theorem literal_bypass_witness :
    (∀ e ∈ (start [("192.0.2.5", 6881), ("192.0.2.6", 6882)] []).entryPoints,
      (demoEnv true (fun _ => false)).isNumbersAndDotsNotation e.1 = true) ∧
    execute (demoEnv true (fun _ => false))
        (start [("192.0.2.5", 6881), ("192.0.2.6", 6882)] []) =
      Outcome.returned true
        { start [("192.0.2.5", 6881), ("192.0.2.6", 6882)] [] with
          entryPoints := [],
          resolvedEntryPoints := [] ++ [("192.0.2.5", 6881), ("192.0.2.6", 6882)],
          taskQueue := [] ++
            [("192.0.2.5", 6881), ("192.0.2.6", 6882)].map
              (fun e => DHTTask.ping e.1 e.2 10) ++
            (if false && ([] ++ [("192.0.2.5", 6881), ("192.0.2.6", 6882)]).length != 0
              then bootstrapTasks (demoEnv true (fun _ => false)) [1, 2, 3] else []) } :=
  ⟨by decide,
   literal_bypass (demoEnv true (fun _ => false)) (fun _ _ => rfl)
     (start [("192.0.2.5", 6881), ("192.0.2.6", 6882)] []) rfl (by decide)⟩

/-! ### The build without asynchronous DNS -/

/-- Without asynchronous DNS `resolveHostname` returns true or raises. -/
theorem resolveHostname_sync_never_pends (env : DHTEnv) (ha : env.asyncDns = false)
    (hostname : String) (s : DHTEntryPointNameResolveCommand) :
    (resolveHostname env hostname s).1 ≠ some false := by
  by_cases hc : s.dnsCache.find hostname = ""
  · cases hl : env.lookup hostname <;>
      simp [resolveHostname, hc, ha, NameResolver.resolveSync, hl]
  · simp [resolveHostname, hc]

theorem loopBody_sync (env : DHTEnv) (ha : env.asyncDns = false)
    (s : DHTEntryPointNameResolveCommand) (front : String × Nat) :
    (loopBody env s front).Holds (fun _ => True) (fun _ => False) (fun _ => True) := by
  unfold loopBody
  by_cases hl : env.isNumbersAndDotsNotation front.1 = true
  · simp only [hl, if_true]
    exact bodyExit_holds_imp (moveToResolved_spec env _ s) (fun _ _ => trivial)
      (fun _ h => h) (fun _ _ => trivial)
  · simp only [hl]
    have hnp := resolveHostname_sync_never_pends env ha front.1 s
    rcases hr : resolveHostname env front.1 s with ⟨o, s0⟩
    rw [hr] at hnp
    rcases o with _ | _ | _
    · exact bodyExit_holds_imp (afterRaise_spec s0) (fun _ _ => trivial)
        (fun _ h => h) (fun _ _ => trivial)
    · exact absurd rfl hnp
    · exact bodyExit_holds_imp (moveToResolved_spec env _ _) (fun _ _ => trivial)
        (fun _ h => h) (fun _ _ => trivial)

theorem whileEntryPoints_sync (env : DHTEnv) (ha : env.asyncDns = false) (fuel : Nat)
    (s : DHTEntryPointNameResolveCommand) :
    (whileEntryPoints env fuel s).Holds (fun s1 => s1.entryPoints = []) (fun _ => False)
      (fun _ => True) := by
  induction fuel generalizing s with
  | zero =>
    unfold whileEntryPoints
    cases hs : s.entryPoints with
    | nil => exact hs
    | cons e rest => trivial
  | succ n ih =>
    unfold whileEntryPoints
    cases hs : s.entryPoints with
    | nil => exact hs
    | cons front rest =>
      simp only []
      have hb := loopBody_sync env ha s front
      cases hbody : loopBody env s front with
      | next s1 => exact ih s1
      | requeued s1 => rw [hbody] at hb; exact hb.elim
      | eraseOnEmpty s1 => trivial

/-- Without asynchronous DNS a call of `execute` never requeues: it returns
true with the list empty, unless it stops where the handler erases from an
empty deque. -/
theorem execute_sync_outcome (env : DHTEnv) (ha : env.asyncDns = false)
    (s : DHTEntryPointNameResolveCommand)
    (hrun : (s.downloadFinished || s.haltRequested) = false) :
    (∃ s1, execute env s = Outcome.returned true s1 ∧ s1.entryPoints = []) ∨
    (∃ s1, execute env s = Outcome.undefinedBehaviour s1) := by
  have hloop := whileEntryPoints_sync env ha s.entryPoints.length s
  have hfuel := whileEntryPoints_fuel env s.entryPoints.length s (Nat.le_refl _)
  simp only [execute, hrun, Bool.false_eq_true, if_false]
  cases hw : whileEntryPoints env s.entryPoints.length s with
  | outOfFuel => exact absurd hw hfuel
  | requeued s1 => rw [hw] at hloop; exact hloop.elim
  | eraseOnEmpty s1 => exact Or.inr ⟨s1, rfl⟩
  | emptied s1 =>
    rw [hw] at hloop
    refine Or.inl ⟨_, rfl, ?_⟩
    rw [addBootstrapTasks_eq]
    exact hloop

/-- C16 (evaluation at the failing input): without asynchronous DNS, one
entry, and the task queue raises for its ping task.  The entry was erased
before the ping task was added, so the handler erases from an empty deque:
the call has no defined result, where the claim has it return true.  This
holds for a literal entry and for a hostname the engine resolves. -/
theorem sync_step_erases_from_empty_deque :
    execute (demoEnv false (fun t => t == DHTTask.ping "192.0.2.5" 6881 10))
        (start [("192.0.2.5", 6881)] []) =
      Outcome.undefinedBehaviour
        { start [] [] with resolvedEntryPoints := [("192.0.2.5", 6881)] } ∧
    execute (demoEnv false (fun t => t == DHTTask.ping "192.0.2.7" 6881 10))
        (start [("dht.example.org", 6881)] []) =
      Outcome.undefinedBehaviour
        { start [] [("dht.example.org", "192.0.2.7")] with
          resolvedEntryPoints := [("192.0.2.7", 6881)],
          resolver := { NameResolver.fresh with addr := "192.0.2.7" },
          resolveLog := [("dht.example.org", Status.ready)] } := by
  decide

/-! ### The query in flight is for the front entry -/

/-- One round of the loop body with asynchronous DNS, from a state in which a
resolver that is not Ready was asked about the front entry: if the loop goes
on the resolver is Ready again; if the command is requeued the query in
flight is for the front entry; and a successful answer that is read goes to
the front entry. -/
theorem loopBody_query (env : DHTEnv) (ha : env.asyncDns = true)
    (t : DHTEntryPointNameResolveCommand) (front : String × Nat)
    (rest : List (String × Nat)) (hq : QueryIsFront env t)
    (hs : t.entryPoints = front :: rest) :
    (loopBody env t front).Holds
      (fun t1 => t1.resolver.status = Status.ready ∧
        (t.resolver.status = Status.success → t.dnsCache.find front.1 = "" →
          AnswerGoesToFront t front t1))
      (fun t1 => QueryIsFront env t1)
      (fun t1 => t.resolver.status = Status.success → t.dnsCache.find front.1 = "" →
          AnswerGoesToFront t front t1) := by
  have hfront : t.resolver.status ≠ Status.ready →
      t.resolver.asked.head? = some front.1 ∧
      env.isNumbersAndDotsNotation front.1 = false := by
    intro hne
    obtain ⟨f, r, hfr, h1, h2⟩ := hq hne
    rw [hs] at hfr
    obtain ⟨rfl, -⟩ := List.cons.inj hfr
    exact ⟨h1, h2⟩
  unfold loopBody
  by_cases hl : env.isNumbersAndDotsNotation front.1 = true
  · have hst : t.resolver.status = Status.ready := by
      by_contra hne
      rw [(hfront hne).2] at hl
      exact absurd hl (by decide)
    simp only [hl, if_true]
    refine bodyExit_holds_imp (moveToResolved_spec env _ t) ?_ (fun _ h => h.elim) ?_
    · rintro t1 (⟨-, rfl⟩ | ⟨-, -, rfl⟩)
      · exact ⟨hst, fun h => by rw [hst] at h; exact absurd h (by decide)⟩
      · exact ⟨rfl, fun h => by rw [hst] at h; exact absurd h (by decide)⟩
    · rintro t1 - h
      rw [hst] at h
      exact absurd h (by decide)
  · have hl1 : env.isNumbersAndDotsNotation front.1 = false := by simpa using hl
    simp only [hl]
    by_cases hc : t.dnsCache.find front.1 = ""
    · cases hst : t.resolver.status with
      | ready =>
        simp only [resolveHostname, hc, ha, NameResolver.getStatus, hst, if_true]
        intro _
        exact ⟨front, rest, hs, by simp [NameResolver.resolve], hl1⟩
      | inProgress =>
        simp only [resolveHostname, hc, ha, NameResolver.getStatus, hst, if_true]
        intro hne
        have h := hfront (by rw [hst]; decide)
        exact ⟨front, rest, hs, h.1, h.2⟩
      | success =>
        have h := hfront (by rw [hst]; decide)
        simp only [resolveHostname, hc, ha, NameResolver.getStatus, hst, if_true]
        refine bodyExit_holds_imp (moveToResolved_spec env _ _) ?_ (fun _ h => h.elim) ?_
        · rintro t1 (⟨-, rfl⟩ | ⟨-, -, rfl⟩)
          · exact ⟨rfl, fun _ _ => ⟨h.1, rfl, rfl⟩⟩
          · exact ⟨rfl, fun _ _ => ⟨h.1, rfl, rfl⟩⟩
        · rintro t1 ⟨-, -, rfl⟩ _ _
          exact ⟨h.1, rfl, rfl⟩
      | error =>
        simp only [resolveHostname, hc, ha, NameResolver.getStatus, hst, if_true]
        refine bodyExit_holds_imp (afterRaise_spec t) ?_ (fun _ h => h.elim) ?_
        · rintro t1 ⟨rfl, -⟩
          exact ⟨rfl, fun h => by simp at h⟩
        · rintro t1 - h
          simp at h
    · simp only [resolveHostname, hc, if_false]
      refine bodyExit_holds_imp (moveToResolved_spec env _ _) ?_ (fun _ h => h.elim) ?_
      · rintro t1 (⟨-, rfl⟩ | ⟨-, -, rfl⟩)
        · exact ⟨rfl, fun _ h => h.elim⟩
        · exact ⟨rfl, fun _ h => h.elim⟩
      · rintro t1 - _ h
        exact h.elim

theorem whileEntryPoints_query (env : DHTEnv) (ha : env.asyncDns = true) (fuel : Nat)
    (t : DHTEntryPointNameResolveCommand) (hq : QueryIsFront env t) :
    (whileEntryPoints env fuel t).Holds
      (fun t1 => t1.resolver.status = Status.ready)
      (fun t1 => QueryIsFront env t1) (fun _ => True) := by
  have hnil : t.entryPoints = [] → t.resolver.status = Status.ready := by
    intro hn
    by_contra hne
    obtain ⟨f, r, hfr, -⟩ := hq hne
    rw [hn] at hfr
    exact absurd hfr (by simp)
  induction fuel generalizing t with
  | zero =>
    unfold whileEntryPoints
    cases hs : t.entryPoints with
    | nil => exact hnil hs
    | cons e rest => trivial
  | succ n ih =>
    unfold whileEntryPoints
    cases hs : t.entryPoints with
    | nil => exact hnil hs
    | cons front rest =>
      simp only []
      have hb := loopBody_query env ha t front rest hq hs
      cases hbody : loopBody env t front with
      | next t1 =>
        rw [hbody] at hb
        have hq1 : QueryIsFront env t1 := fun hne => absurd hb.1 hne
        refine ih t1 hq1 ?_
        intro hn
        exact hb.1
      | requeued t1 =>
        rw [hbody] at hb
        exact hb
      | eraseOnEmpty t1 => trivial

/-- One call of `execute` with asynchronous DNS keeps the query in flight on
the front entry, and leaves the resolver Ready when it returns true from a
step that is not halted. -/
theorem execute_query (env : DHTEnv) (ha : env.asyncDns = true)
    (t t1 : DHTEntryPointNameResolveCommand) (result : Bool) (hq : QueryIsFront env t)
    (hex : execute env t = Outcome.returned result t1) :
    QueryIsFront env t1 ∧
    ((t.downloadFinished || t.haltRequested) = false → result = true →
      t1.resolver.status = Status.ready) := by
  unfold execute at hex
  by_cases hh : (t.downloadFinished || t.haltRequested) = true
  · rw [if_pos hh] at hex
    simp only [Outcome.returned.injEq] at hex
    obtain ⟨-, rfl⟩ := hex
    exact ⟨hq, fun h => by rw [hh] at h; exact absurd h (by decide)⟩
  · rw [if_neg hh] at hex
    have hloop := whileEntryPoints_query env ha t.entryPoints.length t hq
    cases hw : whileEntryPoints env t.entryPoints.length t with
    | outOfFuel => rw [hw] at hex; simp at hex
    | eraseOnEmpty t2 => rw [hw] at hex; simp at hex
    | emptied t2 =>
      rw [hw] at hex hloop
      simp only [Outcome.returned.injEq] at hex
      obtain ⟨-, rfl⟩ := hex
      have hst : (addBootstrapTasks env t2).resolver.status = Status.ready := by
        rw [addBootstrapTasks_eq]
        exact hloop
      exact ⟨fun hne => absurd hst hne, fun _ _ => hst⟩
    | requeued t2 =>
      rw [hw] at hex hloop
      simp only [Outcome.returned.injEq] at hex
      obtain ⟨rfl, rfl⟩ := hex
      exact ⟨hloop, fun _ h => absurd h (by decide)⟩

theorem evolves_query_is_front (env : DHTEnv) (ha : env.asyncDns = true)
    (s0 s : DHTEntryPointNameResolveCommand) (hready : s0.resolver.status = Status.ready)
    (hev : Evolves env s0 s) : QueryIsFront env s := by
  induction hev with
  | refl => exact fun hne => absurd hready hne
  | step s1 s2 result _ hstep ih => exact (execute_query env ha s1 s2 result ih hstep).1
  | answered s1 answer _ ih =>
    intro hne
    have hne1 : s1.resolver.status ≠ Status.ready := by
      intro h
      apply hne
      simp [NameResolver.complete, h]
    obtain ⟨f, r, h1, h2, h3⟩ := ih hne1
    refine ⟨f, r, h1, ?_, h3⟩
    rw [← h2]
    unfold NameResolver.complete
    cases s1.resolver.status <;> cases answer <;> rfl
  | others s1 s2 _ h1 _ h3 _ ih =>
    intro hne
    rw [h3] at hne
    obtain ⟨f, r, e1, e2, e3⟩ := ih hne
    exact ⟨f, r, h1.trans e1, by rw [h3]; exact e2, e3⟩

/-- C20: with asynchronous DNS, in every state at a step boundary of a
command that started with a Ready resolver, a resolver that is not Ready
means that the list is not empty and that the hostname last handed to the
engine is the one of the front entry.  A step that is not halted and returns
true leaves the resolver Ready.  And in every round of the loop started in
such a state the same holds again afterwards (Ready if the loop goes on, the
query on the front entry if the command is requeued), while a successful
answer that is read was asked for the front entry and is appended with its
port and cached under its hostname. -/
theorem query_targets_front_entry (env : DHTEnv) (ha : env.asyncDns = true)
    (s0 s : DHTEntryPointNameResolveCommand) (hready : s0.resolver.status = Status.ready)
    (hev : Evolves env s0 s) :
    (s.resolver.status ≠ Status.ready →
      ∃ front rest, s.entryPoints = front :: rest ∧
        s.resolver.asked.head? = some front.1) ∧
    (∀ s1, (s.downloadFinished || s.haltRequested) = false →
      execute env s = Outcome.returned true s1 → s1.resolver.status = Status.ready) ∧
    (∀ t front rest, QueryIsFront env t → t.entryPoints = front :: rest →
      (∀ t1, loopBody env t front = BodyExit.next t1 →
        t1.resolver.status = Status.ready ∧ QueryIsFront env t1) ∧
      (∀ t1, loopBody env t front = BodyExit.requeued t1 → QueryIsFront env t1) ∧
      (∀ t1, loopBody env t front = BodyExit.next t1 ∨
          loopBody env t front = BodyExit.eraseOnEmpty t1 →
        t.resolver.status = Status.success → t.dnsCache.find front.1 = "" →
        AnswerGoesToFront t front t1)) := by
  have hq := evolves_query_is_front env ha s0 s hready hev
  refine ⟨?_, ?_, ?_⟩
  · intro hne
    obtain ⟨f, r, h1, h2, -⟩ := hq hne
    exact ⟨f, r, h1, h2⟩
  · intro s1 hrun hex
    exact (execute_query env ha s s1 true hq hex).2 hrun rfl
  · intro t front rest htq hs
    have hb := loopBody_query env ha t front rest htq hs
    refine ⟨?_, ?_, ?_⟩
    · intro t1 h1
      rw [h1] at hb
      exact ⟨hb.1, fun hne => absurd hb.1 hne⟩
    · intro t1 h1
      rw [h1] at hb
      exact hb
    · intro t1 h1
      rcases h1 with h1 | h1
      · rw [h1] at hb
        exact hb.2
      · rw [h1] at hb
        exact hb

/-- C20 (witness): one hostname; after the first step and the answer of the
engine the resolver holds a successful answer for the front entry. -/
theorem query_targets_front_entry_witness :
    Evolves (demoEnv true (fun _ => false)) (start [("dht.example.org", 6881)] [])
      afterAnswer ∧
    afterAnswer.resolver.status ≠ Status.ready ∧
    ∃ front rest, afterAnswer.entryPoints = front :: rest ∧
      afterAnswer.resolver.asked.head? = some front.1 := by
  have hev : Evolves (demoEnv true (fun _ => false)) (start [("dht.example.org", 6881)] [])
      afterAnswer :=
    Evolves.answered afterFirstStep (some "192.0.2.7")
      (Evolves.step _ afterFirstStep false Evolves.refl (by decide))
  exact ⟨hev, by decide,
    (query_targets_front_entry (demoEnv true (fun _ => false)) rfl
      (start [("dht.example.org", 6881)] []) afterAnswer rfl hev).1 (by decide)⟩

end DHTEntryPointNameResolveCommand

end aria2
